import Mathlib

/-!
# DocumentStyleSheetCollection: a shallow embedding

A model of `Source/core/dom/DocumentStyleSheetCollection.cpp`.

* Objects reached through pointers (style sheets, sheet contents) are modelled by
  their address, a natural number; a null pointer is `none`.  Comparing two
  `RefPtr`s compares addresses.
* What the collection reads from the host document, from sheet objects and from
  the style resolver is a field of `Document`; the calls it issues on its
  collaborators are recorded, oldest first, in `Document.calls`.
* The member variables `m_...` are the fields of `DocumentStyleSheetCollection`;
  a member function takes the collection and returns the updated collection
  together with its results.
* `String` and `AtomicString` are Lean strings; the null string and the empty
  string are both written `""`: the source asks of a string that may be null only
  `isEmpty()` and `contains()`, or compares it with a non-empty string.
* A cursor `newIndex` into a vector is represented by the part of the vector that
  starts at the cursor.
-/

namespace WebCore

/-! ## Data model -/

/-- Address of a `StyleSheet` object. -/
abbrev StyleSheet := Nat

/-- Address of a `CSSStyleSheet` object; `static_cast` keeps the address. -/
abbrev CSSStyleSheet := StyleSheet

/-- Address of a `StyleSheetContents` object. -/
abbrev StyleSheetContents := Nat

/-- The enum `StyleResolverUpdateType` of the collection. -/
inductive StyleResolverUpdateType where
  | Reconstruct
  | Reset
  | Additive
deriving DecidableEq, Repr

/-- The enum `StyleResolverUpdateMode` passed to `updateActiveStyleSheets`. -/
inductive StyleResolverUpdateMode where
  | FullStyleUpdate
  | AnalyzedStyleUpdate
deriving DecidableEq, Repr

/-- The enum `StyleResolverUpdateFlag` passed to `Document::styleResolverChanged`. -/
inductive StyleResolverUpdateFlag where
  | RecalcStyleImmediately
  | DeferRecalcStyle
  | RecalcStyleIfNeeded
deriving DecidableEq, Repr

/-- The enum `RemovePendingSheetNotificationType`. -/
inductive RemovePendingSheetNotificationType where
  | RemovePendingSheetNotifyImmediately
  | RemovePendingSheetNotifyLater
deriving DecidableEq, Repr

/-- The enum `UserContentInjectedFrames`: the frames an injected sheet applies to. -/
inductive UserContentInjectedFrames where
  | InjectInAllFrames
  | InjectInTopFrameOnly
deriving DecidableEq, Repr

/-- The enum `UserStyleLevel` of an injected sheet. -/
inductive UserStyleLevel where
  | UserStyleUserLevel
  | UserStyleAuthorLevel
deriving DecidableEq, Repr

/-- One injection descriptor of the page group (`UserStyleSheet`). -/
structure UserStyleSheet where
  source : String
  url : String
  whitelist : List String
  blacklist : List String
  injectedFrames : UserContentInjectedFrames
  level : UserStyleLevel
deriving DecidableEq, Repr

/-- A processing instruction node: `isXSL()` and `sheet()`. -/
structure ProcessingInstruction where
  isXSL : Bool
  sheet : Option StyleSheet
deriving DecidableEq, Repr

/-- An HTML `<link>` element, with the attributes and queries the collection uses. -/
structure HTMLLinkElement where
  title : String
  rel : String
  isEnabledViaScript : Bool
  isDisabled : Bool
  styleSheetIsLoading : Bool
  sheet : Option StyleSheet
deriving DecidableEq, Repr

/-- An HTML or SVG `<style>` element. -/
structure StyleElement where
  title : String
  rel : String
  sheet : Option StyleSheet
deriving DecidableEq, Repr

/-- A style sheet candidate node, by the tests `collectStyleSheets` applies to it. -/
inductive Node where
  | processingInstruction (pi : ProcessingInstruction)
  | htmlLink (e : HTMLLinkElement)
  | htmlStyle (e : StyleElement)
  | svgStyle (e : StyleElement)
  | other
deriving DecidableEq, Repr

/-- A call issued by the collection on the document, the style resolver, the
inspector or a freshly created sheet. -/
inductive Call where
  | scheduleForcedStyleRecalc
  | styleResolverChanged (flag : StyleResolverUpdateFlag)
  | applyXSLTransform (pi : ProcessingInstruction)
  | clearStyleResolver
  | resetAuthorStyle
  | appendAuthorStyleSheets (firstNew : Nat) (sheets : List CSSStyleSheet)
  | invalidateStyle (addedSheets : List StyleSheetContents)
  | activeStyleSheetsUpdated (styleSheets : List StyleSheet)
  | notifySeamlessChildDocumentsOfStylesheetUpdate
  | setNeedsNotifyRemoveAllPendingStylesheet
  | didRemoveAllPendingStylesheet
  | createInline (sheet : CSSStyleSheet) (url : String)
  | setIsUserStyleSheet (sheet : CSSStyleSheet) (isUserStyleSheet : Bool)
  | parseString (sheet : CSSStyleSheet) (source : String)
deriving DecidableEq, Repr

/-- The `Settings` object of a document. -/
structure Settings where
  authorAndUserStylesEnabled : Bool
deriving DecidableEq, Repr

/-- The feature-usage queries of the `StyleResolver`. -/
structure StyleResolver where
  usesSiblingRules : Bool
  usesFirstLineRules : Bool
  usesBeforeAfterRules : Bool
deriving DecidableEq, Repr

/-- The seamless parent iframe: the active author sheets stored in the collection
of its document. -/
structure HTMLIFrameElement where
  activeAuthorStyleSheets : List CSSStyleSheet
deriving DecidableEq, Repr

/-- The owning page: the injection descriptors of its page group. -/
structure Page where
  userStyleSheets : List UserStyleSheet
deriving DecidableEq, Repr

/-- The host document as the collection sees it. -/
structure Document where
  /-- Result of `inStyleRecalc()`. -/
  inStyleRecalc : Bool
  /-- Whether `renderer()` is non-null. -/
  renderer : Bool
  /-- Result of `attached()`. -/
  attached : Bool
  /-- Result of `settings()`, `none` for null. -/
  settings : Option Settings
  /-- Whether `transformSourceDocument()` is non-null. -/
  transformSourceDocument : Bool
  /-- Result of `parsing()`. -/
  parsing : Bool
  /-- Whether `styleResolverIfExists()` is non-null. -/
  styleResolverIfExists : Bool
  /-- The resolver `styleResolver()` hands out, as it answers the feature queries. -/
  styleResolver : StyleResolver
  /-- Whether `body()` is non-null. -/
  body : Bool
  /-- Result of `hasNodesWithPlaceholderStyle()`. -/
  hasNodesWithPlaceholderStyle : Bool
  /-- Result of `seamlessParentIFrame()`. -/
  seamlessParentIFrame : Option HTMLIFrameElement
  /-- Result of `page()`. -/
  page : Option Page
  /-- Whether `ownerElement()` is non-null. -/
  ownerElement : Bool
  /-- Result of `url()`. -/
  url : String
  /-- The function `UserContentURLPattern::matchesPatterns`. -/
  matchesPatterns : String → List String → List String → Bool
  /-- Result of `StyleSheet::disabled()` for the sheet at an address. -/
  disabled : StyleSheet → Bool
  /-- Result of `StyleSheet::isCSSStyleSheet()`. -/
  isCSSStyleSheet : StyleSheet → Bool
  /-- Result of `CSSStyleSheet::isLoading()`. -/
  isLoading : CSSStyleSheet → Bool
  /-- Result of `CSSStyleSheet::contents()`. -/
  contents : CSSStyleSheet → StyleSheetContents
  /-- Result of `StyleSheetContents::usesRemUnits()`. -/
  usesRemUnits : StyleSheetContents → Bool
  /-- Result of `StyleInvalidationAnalysis(addedSheets).dirtiesAllStyle()`. -/
  dirtiesAllStyle : List StyleSheetContents → Bool
  /-- Address that the next `CSSStyleSheet::createInline` returns. -/
  nextSheet : CSSStyleSheet
  /-- The calls issued so far, oldest first. -/
  calls : List Call

/-- Record one call on the log of the document. -/
def Document.call (d : Document) (k : Call) : Document :=
  { d with calls := d.calls ++ [k] }

/-- The function `CSSStyleSheet::createInline(document, url)`: a new sheet object. -/
def Document.createInline (d : Document) (url : String) : CSSStyleSheet × Document :=
  (d.nextSheet, { d with nextSheet := d.nextSheet + 1,
                         calls := d.calls ++ [Call.createInline d.nextSheet url] })

/-- The member variables of `DocumentStyleSheetCollection`. -/
structure DocumentStyleSheetCollection where
  m_document : Document
  m_styleSheetsForStyleSheetList : List StyleSheet
  m_activeAuthorStyleSheets : List CSSStyleSheet
  m_pendingStylesheets : Int
  m_pageUserSheet : Option CSSStyleSheet
  m_injectedUserStyleSheets : List CSSStyleSheet
  m_injectedAuthorStyleSheets : List CSSStyleSheet
  m_injectedStyleSheetCacheValid : Bool
  m_userStyleSheets : List CSSStyleSheet
  m_authorStyleSheets : List CSSStyleSheet
  m_hadActiveLoadingStylesheet : Bool
  m_needsUpdateActiveStylesheetsOnStyleRecalc : Bool
  m_styleSheetCandidateNodes : List Node
  m_preferredStylesheetSetName : String
  m_selectedStylesheetSetName : String
  m_usesSiblingRules : Bool
  m_usesSiblingRulesOverride : Bool
  m_usesFirstLineRules : Bool
  m_usesFirstLetterRules : Bool
  m_usesBeforeAfterRules : Bool
  m_usesBeforeAfterRulesOverride : Bool
  m_usesRemUnits : Bool

/-- The query `String::isEmpty()`: true for the null and for the empty string. -/
def isEmpty (s : String) : Bool := decide (s = "")

/-- The query `AtomicString::contains(pattern)`: case-sensitive substring test. -/
def contains (s pattern : String) : Bool := decide (pattern.toList <:+: s.toList)

/-! ## analyzeStyleSheetChange -/

/-- The `while` loop of lines 364-369 for the old sheet `old`, entered through the
guard of line 362.  `news` is `newStylesheets` from `newIndex` on.  The result is
`none` when the function returns from inside (line 363 or line 368); otherwise it
is `addedSheets` and the new sheets after the match (`++newIndex` of line 370). -/
def skipToSheet (d : Document) (old : CSSStyleSheet) :
    List CSSStyleSheet → List StyleSheetContents →
      Option (List StyleSheetContents × List CSSStyleSheet)
  | [], _ => none
  | s :: news, addedSheets =>
    if old ≠ s then skipToSheet d old news (addedSheets ++ [d.contents s])
    else some (addedSheets, news)

/-- The `for` loop of lines 361-371 over the old sheets from `oldIndex` on. -/
def matchOldSheets (d : Document) :
    List CSSStyleSheet → List CSSStyleSheet → List StyleSheetContents →
      Option (List StyleSheetContents × List CSSStyleSheet)
  | [], news, addedSheets => some (addedSheets, news)
  | old :: olds, news, addedSheets =>
    match skipToSheet d old news addedSheets with
    | none => none
    | some (addedSheets, news) => matchOldSheets d olds news addedSheets

/-- The out-parameters of `analyzeStyleSheetChange` and the collection after it. -/
structure StyleSheetChange where
  collection : DocumentStyleSheetCollection
  styleResolverUpdateType : StyleResolverUpdateType
  requiresFullStyleRecalc : Bool

/-- The member function `analyzeStyleSheetChange` (lines 332-389). -/
def analyzeStyleSheetChange (c : DocumentStyleSheetCollection)
    (updateMode : StyleResolverUpdateMode) (newStylesheets : List CSSStyleSheet) :
    StyleSheetChange :=
  let hasActiveLoadingStylesheet := newStylesheets.any c.m_document.isLoading
  if c.m_hadActiveLoadingStylesheet && !hasActiveLoadingStylesheet then
    ⟨{ c with m_hadActiveLoadingStylesheet := false }, .Reconstruct, true⟩
  else
    let c := { c with m_hadActiveLoadingStylesheet := hasActiveLoadingStylesheet }
    if updateMode ≠ .AnalyzedStyleUpdate then ⟨c, .Reconstruct, true⟩
    else if !c.m_document.styleResolverIfExists then ⟨c, .Reconstruct, true⟩
    else if newStylesheets.length < c.m_activeAuthorStyleSheets.length then
      ⟨c, .Reconstruct, true⟩
    else
      match matchOldSheets c.m_document c.m_activeAuthorStyleSheets newStylesheets [] with
      | none => ⟨c, .Reconstruct, true⟩
      | some (addedSheets, news) =>
        let hasInsertions := !addedSheets.isEmpty
        let addedSheets := addedSheets ++ news.map c.m_document.contents
        let styleResolverUpdateType :=
          if hasInsertions then StyleResolverUpdateType.Reset else .Additive
        if !c.m_document.body || c.m_document.hasNodesWithPlaceholderStyle then
          ⟨c, styleResolverUpdateType, true⟩
        else if c.m_document.dirtiesAllStyle addedSheets then
          ⟨c, styleResolverUpdateType, true⟩
        else
          ⟨{ c with m_document := c.m_document.call (.invalidateStyle addedSheets) },
            styleResolverUpdateType, false⟩

/-! ## collectStyleSheets -/

/-- Outcome of one iteration of the loop of `collectStyleSheets`: either the
function returns from inside the loop (line 267), or the iteration ends with the
locals `sheet` and `activeSheet`, which lines 325-328 append when non-null.  The
`continue` of line 290 leaves the iteration with both still null. -/
inductive CollectStep where
  | abort (c : DocumentStyleSheetCollection)
  | next (c : DocumentStyleSheetCollection) (sheet : Option StyleSheet)
      (activeSheet : Option CSSStyleSheet)

/-- The test `sheet && !sheet->disabled() && sheet->isCSSStyleSheet()` of lines 270
and 301, giving the value of `activeSheet`. -/
def activeSheetOf (d : Document) (sheet : Option StyleSheet) : Option CSSStyleSheet :=
  match sheet with
  | none => none
  | some s => if !d.disabled s && d.isCSSStyleSheet s then some s else none

/-- Lines 301-323 of the loop body, for a link or style element: `hasLocalNameStyle`
is `e->hasLocalName(styleTag)`, `title` the local variable (already reset to null
for a link without sheet), `rel` the rel attribute. -/
def collectElement (c : DocumentStyleSheetCollection) (hasLocalNameStyle : Bool)
    (title rel : String) (enabledViaScript : Bool) (sheet : Option StyleSheet) :
    CollectStep :=
  let activeSheet := activeSheetOf c.m_document sheet
  if !enabledViaScript && sheet.isSome && !isEmpty title then
    let c :=
      if isEmpty c.m_preferredStylesheetSetName then
        if hasLocalNameStyle || !contains rel "alternate" then
          { c with m_preferredStylesheetSetName := title,
                   m_selectedStylesheetSetName := title }
        else c
      else c
    let activeSheet := if title ≠ c.m_preferredStylesheetSetName then none else activeSheet
    let activeSheet := if contains rel "alternate" && isEmpty title then none else activeSheet
    .next c sheet activeSheet
  else
    let activeSheet := if contains rel "alternate" && isEmpty title then none else activeSheet
    .next c sheet activeSheet

/-- The body of the loop of `collectStyleSheets` (lines 255-324) for the node `n`. -/
def collectNode (c : DocumentStyleSheetCollection) (n : Node) : CollectStep :=
  match n with
  | .processingInstruction pi =>
    if pi.isXSL && !c.m_document.transformSourceDocument then
      if !c.m_document.parsing then
        .abort { c with m_document := c.m_document.call (.applyXSLTransform pi) }
      else .abort c
    else .next c pi.sheet (activeSheetOf c.m_document pi.sheet)
  | .htmlLink linkElement =>
    let title := linkElement.title
    let enabledViaScript := linkElement.isEnabledViaScript
    if !linkElement.isDisabled && linkElement.styleSheetIsLoading then
      if !enabledViaScript && !isEmpty title && isEmpty c.m_preferredStylesheetSetName then
        if !contains linkElement.rel "alternate" then
          .next { c with m_preferredStylesheetSetName := title,
                         m_selectedStylesheetSetName := title } none none
        else .next c none none
      else .next c none none
    else
      let sheet := linkElement.sheet
      let title := if sheet.isNone then "" else title
      collectElement c false title linkElement.rel enabledViaScript sheet
  | .htmlStyle e => collectElement c true e.title e.rel false e.sheet
  | .svgStyle e => collectElement c true e.title e.rel false e.sheet
  | .other => .next c none none

/-- The two vectors `collectStyleSheets` fills, and the collection after it. -/
structure CollectedStyleSheets where
  collection : DocumentStyleSheetCollection
  styleSheets : List StyleSheet
  activeSheets : List CSSStyleSheet

/-- Append a possibly null pointer, as lines 325-328 do. -/
def appendIfNonNull (l : List Nat) (p : Option Nat) : List Nat :=
  match p with
  | none => l
  | some s => l ++ [s]

/-- The loop of `collectStyleSheets` (lines 254-329) over the candidate nodes from
the iterator on. -/
def collectLoop : List Node → DocumentStyleSheetCollection → List StyleSheet →
    List CSSStyleSheet → CollectedStyleSheets
  | [], c, styleSheets, activeSheets => ⟨c, styleSheets, activeSheets⟩
  | n :: rest, c, styleSheets, activeSheets =>
    match collectNode c n with
    | .abort c => ⟨c, styleSheets, activeSheets⟩
    | .next c sheet activeSheet =>
      collectLoop rest c (appendIfNonNull styleSheets sheet)
        (appendIfNonNull activeSheets activeSheet)

/-- The predicate `m_document->settings() && !settings()->authorAndUserStylesEnabled()`. -/
def stylesDisabledBySettings (d : Document) : Bool :=
  match d.settings with
  | none => false
  | some settings => !settings.authorAndUserStylesEnabled

/-- The member function `collectStyleSheets` (lines 247-330). -/
def collectStyleSheets (c : DocumentStyleSheetCollection) (styleSheets : List StyleSheet)
    (activeSheets : List CSSStyleSheet) : CollectedStyleSheets :=
  if stylesDisabledBySettings c.m_document then ⟨c, styleSheets, activeSheets⟩
  else collectLoop c.m_styleSheetCandidateNodes c styleSheets activeSheets

/-! ## Feature flags, injected sheets, pending sheets -/

/-- The member function `combineCSSFeatureFlags` (lines 86-93). -/
def combineCSSFeatureFlags (c : DocumentStyleSheetCollection) : DocumentStyleSheetCollection :=
  let styleResolver := c.m_document.styleResolver
  { c with
    m_usesSiblingRules := c.m_usesSiblingRules || styleResolver.usesSiblingRules,
    m_usesFirstLineRules := c.m_usesFirstLineRules || styleResolver.usesFirstLineRules,
    m_usesBeforeAfterRules := c.m_usesBeforeAfterRules || styleResolver.usesBeforeAfterRules }

/-- The member function `resetCSSFeatureFlags` (lines 95-101). -/
def resetCSSFeatureFlags (c : DocumentStyleSheetCollection) : DocumentStyleSheetCollection :=
  let styleResolver := c.m_document.styleResolver
  { c with
    m_usesSiblingRules := styleResolver.usesSiblingRules,
    m_usesFirstLineRules := styleResolver.usesFirstLineRules,
    m_usesBeforeAfterRules := styleResolver.usesBeforeAfterRules }

/-- The loop of `updateInjectedStyleSheetCache` (lines 164-178) over the
descriptors from index `i` on. -/
def injectSheets : List UserStyleSheet → DocumentStyleSheetCollection →
    DocumentStyleSheetCollection
  | [], c => c
  | sheet :: rest, c =>
    if sheet.injectedFrames = .InjectInTopFrameOnly && c.m_document.ownerElement then
      injectSheets rest c
    else if !c.m_document.matchesPatterns c.m_document.url sheet.whitelist sheet.blacklist then
      injectSheets rest c
    else
      let created := c.m_document.createInline sheet.url
      let groupSheet := created.1
      let isUserStyleSheet := decide (sheet.level = .UserStyleUserLevel)
      let c :=
        if isUserStyleSheet then
          { c with m_injectedUserStyleSheets := c.m_injectedUserStyleSheets ++ [groupSheet] }
        else
          { c with m_injectedAuthorStyleSheets := c.m_injectedAuthorStyleSheets ++ [groupSheet] }
      let d := (created.2.call (.setIsUserStyleSheet groupSheet isUserStyleSheet)).call
        (.parseString groupSheet sheet.source)
      injectSheets rest { c with m_document := d }

/-- The member function `updateInjectedStyleSheetCache` (lines 150-179). -/
def updateInjectedStyleSheetCache (c : DocumentStyleSheetCollection) :
    DocumentStyleSheetCollection :=
  if c.m_injectedStyleSheetCacheValid then c
  else
    let c := { c with m_injectedStyleSheetCacheValid := true,
                      m_injectedUserStyleSheets := [],
                      m_injectedAuthorStyleSheets := [] }
    match c.m_document.page with
    | none => c
    | some owningPage => injectSheets owningPage.userStyleSheets c

/-- The member function `injectedUserStyleSheets` (lines 138-142). -/
def injectedUserStyleSheets (c : DocumentStyleSheetCollection) :
    List CSSStyleSheet × DocumentStyleSheetCollection :=
  let c := updateInjectedStyleSheetCache c
  (c.m_injectedUserStyleSheets, c)

/-- The member function `injectedAuthorStyleSheets` (lines 144-148). -/
def injectedAuthorStyleSheets (c : DocumentStyleSheetCollection) :
    List CSSStyleSheet × DocumentStyleSheetCollection :=
  let c := updateInjectedStyleSheetCache c
  (c.m_injectedAuthorStyleSheets, c)

/-- The member function `invalidateInjectedStyleSheetCache` (lines 181-185). -/
def invalidateInjectedStyleSheetCache (c : DocumentStyleSheetCollection) :
    DocumentStyleSheetCollection :=
  { c with m_injectedStyleSheetCacheValid := false,
           m_document := c.m_document.call (.styleResolverChanged .DeferRecalcStyle) }

/-- The accessor `documentAuthorStyleSheets()` of the class declaration. -/
def documentAuthorStyleSheets (c : DocumentStyleSheetCollection) : List CSSStyleSheet :=
  c.m_authorStyleSheets

/-! ## updateActiveStyleSheets -/

/-- The static function `styleSheetsUseRemUnits` (lines 391-398). -/
def styleSheetsUseRemUnits (d : Document) (sheets : List CSSStyleSheet) : Bool :=
  sheets.any fun s => d.usesRemUnits (d.contents s)

/-- The static function `collectActiveCSSStyleSheetsFromSeamlessParents`
(lines 400-406). -/
def collectActiveCSSStyleSheetsFromSeamlessParents (sheets : List CSSStyleSheet)
    (document : Document) : List CSSStyleSheet :=
  match document.seamlessParentIFrame with
  | none => sheets
  | some seamlessParentIFrame => sheets ++ seamlessParentIFrame.activeAuthorStyleSheets

/-- Lines 422-427 of `updateActiveStyleSheets`: the locals `styleSheets` and
`activeCSSStyleSheets` once `collectStyleSheets` has returned. -/
def buildActiveStyleSheets (c : DocumentStyleSheetCollection) : CollectedStyleSheets :=
  let injected := injectedAuthorStyleSheets c
  let c := injected.2
  let activeCSSStyleSheets : List CSSStyleSheet := [] ++ injected.1
  let activeCSSStyleSheets := activeCSSStyleSheets ++ documentAuthorStyleSheets c
  let activeCSSStyleSheets :=
    collectActiveCSSStyleSheetsFromSeamlessParents activeCSSStyleSheets c.m_document
  collectStyleSheets c [] activeCSSStyleSheets

/-- Lines 433-445 of `updateActiveStyleSheets`: the calls on the document and its
style resolver that apply the analysed update. -/
def applyStyleResolverUpdate (c : DocumentStyleSheetCollection)
    (styleResolverUpdateType : StyleResolverUpdateType)
    (activeCSSStyleSheets : List CSSStyleSheet) : DocumentStyleSheetCollection :=
  if styleResolverUpdateType = .Reconstruct then
    { c with m_document := c.m_document.call .clearStyleResolver }
  else
    let d :=
      if styleResolverUpdateType = .Reset then
        (c.m_document.call .resetAuthorStyle).call
          (.appendAuthorStyleSheets 0 activeCSSStyleSheets)
      else
        c.m_document.call
          (.appendAuthorStyleSheets c.m_activeAuthorStyleSheets.length activeCSSStyleSheets)
    resetCSSFeatureFlags { c with m_document := d }

/-- The member function `updateActiveStyleSheets` (lines 408-456): the returned
flag and the collection after the call. -/
def updateActiveStyleSheets (c : DocumentStyleSheetCollection)
    (updateMode : StyleResolverUpdateMode) : Bool × DocumentStyleSheetCollection :=
  if c.m_document.inStyleRecalc then
    (false, { c with m_needsUpdateActiveStylesheetsOnStyleRecalc := true,
                     m_document := c.m_document.call .scheduleForcedStyleRecalc })
  else if !c.m_document.renderer || !c.m_document.attached then (false, c)
  else
    let built := buildActiveStyleSheets c
    let change := analyzeStyleSheetChange built.collection updateMode built.activeSheets
    let c := applyStyleResolverUpdate change.collection change.styleResolverUpdateType
      built.activeSheets
    let c := { c with m_activeAuthorStyleSheets := built.activeSheets }
    let d := c.m_document.call (.activeStyleSheetsUpdated built.styleSheets)
    let c := { c with m_document := d }
    let c := { c with m_styleSheetsForStyleSheetList := built.styleSheets }
    let usesRemUnits := styleSheetsUseRemUnits c.m_document c.m_activeAuthorStyleSheets
    let c := { c with m_usesRemUnits := usesRemUnits }
    let c := { c with m_needsUpdateActiveStylesheetsOnStyleRecalc := false }
    let d := c.m_document.call .notifySeamlessChildDocumentsOfStylesheetUpdate
    let c := { c with m_document := d }
    (change.requiresFullStyleRecalc, c)

/-! ## Derived notions used to state the claims -/

/-- The collection at the end of one loop iteration. -/
def CollectStep.collection : CollectStep → DocumentStyleSheetCollection
  | .abort c => c
  | .next c _ _ => c

/-- The local `sheet` at the end of one loop iteration (null after a return). -/
def CollectStep.sheet : CollectStep → Option StyleSheet
  | .abort _ => none
  | .next _ sheet _ => sheet

/-- The local `activeSheet` at the end of one loop iteration (null after a return). -/
def CollectStep.activeSheet : CollectStep → Option CSSStyleSheet
  | .abort _ => none
  | .next _ _ activeSheet => activeSheet

/-- A member function changed at most the two stylesheet set names and the log of
calls: every other member variable and every observation of the document is as
before. -/
def OnlyNamesAndCallsChanged (c c1 : DocumentStyleSheetCollection) : Prop :=
  ∃ preferred selected calls,
    c1 = { c with m_preferredStylesheetSetName := preferred,
                  m_selectedStylesheetSetName := selected,
                  m_document := { c.m_document with calls := calls } }

/-- A member function changed at most the injected sheet cache, the address of the
next sheet object and the log of calls. -/
def OnlyInjectedCacheChanged (c c1 : DocumentStyleSheetCollection) : Prop :=
  ∃ valid user author next calls,
    c1 = { c with m_injectedStyleSheetCacheValid := valid,
                  m_injectedUserStyleSheets := user,
                  m_injectedAuthorStyleSheets := author,
                  m_document := { c.m_document with nextSheet := next, calls := calls } }

/-- Whether the node is a link or style element (the test of line 272). -/
def Node.isLinkOrStyle : Node → Bool
  | .htmlLink _ => true
  | .htmlStyle _ => true
  | .svgStyle _ => true
  | _ => false

/-- The title attribute of a link or style element. -/
def Node.title : Node → String
  | .htmlLink e => e.title
  | .htmlStyle e => e.title
  | .svgStyle e => e.title
  | _ => ""

/-- The rel attribute of a link or style element. -/
def Node.rel : Node → String
  | .htmlLink e => e.rel
  | .htmlStyle e => e.rel
  | .svgStyle e => e.rel
  | _ => ""

/-- Whether the node is a link element that was enabled via script. -/
def Node.isEnabledViaScript : Node → Bool
  | .htmlLink e => e.isEnabledViaScript
  | _ => false

/-- Whether the pass stops at this node: an XSL processing instruction while the
document has no transform source document (line 263). -/
def Node.stopsCollection (transformSourceDocument : Bool) : Node → Bool
  | .processingInstruction pi => pi.isXSL && !transformSourceDocument
  | _ => false

/-- The candidate rule of the specification (section 4.2): a link or style
candidate with a non-empty title that is not marked alternate offers its title
as preferred set name; a style element is never alternate. -/
def Node.offeredPreferredName : Node → Option String
  | .htmlLink e => if !isEmpty e.title && !contains e.rel "alternate" then some e.title else none
  | .htmlStyle e => if !isEmpty e.title then some e.title else none
  | .svgStyle e => if !isEmpty e.title then some e.title else none
  | _ => none

/-- The rule of the specification for the preferred set name (section 4.2): the
name offered by the first candidate, in document order and before an XSL
processing instruction stops the pass, that offers one. -/
def preferredCandidateTitle (transformSourceDocument : Bool) : List Node → Option String
  | [] => none
  | n :: rest =>
    if n.stopsCollection transformSourceDocument then none
    else
      match n.offeredPreferredName with
      | some title => some title
      | none => preferredCandidateTitle transformSourceDocument rest

/-- Every link that is not loading owns a sheet. -/
def Node.ownsSheetUnlessLoading : Node → Bool
  | .htmlLink e => e.styleSheetIsLoading || e.sheet.isSome
  | _ => true

/-- Every style element owns a sheet, and so does every link except one that is
enabled and still loading (the links that take the branch of lines 280-291). -/
def Node.ownsSheetUnlessSkipped : Node → Bool
  | .htmlLink e => (!e.isDisabled && e.styleSheetIsLoading) || e.sheet.isSome
  | .htmlStyle e => e.sheet.isSome
  | .svgStyle e => e.sheet.isSome
  | _ => true

/-! ## Concrete states used to instantiate the theorems -/

/-- A document that is attached and rendered, has a style resolver and a body,
and is not in a style recalculation; no sheet is loading or disabled, every sheet
is a CSS sheet and is its own contents. -/
def idleDocument : Document where
  inStyleRecalc := false
  renderer := true
  attached := true
  settings := some ⟨true⟩
  transformSourceDocument := false
  parsing := false
  styleResolverIfExists := true
  styleResolver := ⟨false, false, false⟩
  body := true
  hasNodesWithPlaceholderStyle := false
  seamlessParentIFrame := none
  page := none
  ownerElement := false
  url := "http://example.test/"
  matchesPatterns := fun _ _ _ => true
  disabled := fun _ => false
  isCSSStyleSheet := fun _ => true
  isLoading := fun _ => false
  contents := fun s => s
  usesRemUnits := fun _ => false
  dirtiesAllStyle := fun _ => false
  nextSheet := 1000
  calls := []

/-- A freshly constructed collection (lines 56-70) for the document `d`. -/
def newCollection (d : Document) : DocumentStyleSheetCollection where
  m_document := d
  m_styleSheetsForStyleSheetList := []
  m_activeAuthorStyleSheets := []
  m_pendingStylesheets := 0
  m_pageUserSheet := none
  m_injectedUserStyleSheets := []
  m_injectedAuthorStyleSheets := []
  m_injectedStyleSheetCacheValid := false
  m_userStyleSheets := []
  m_authorStyleSheets := []
  m_hadActiveLoadingStylesheet := false
  m_needsUpdateActiveStylesheetsOnStyleRecalc := false
  m_styleSheetCandidateNodes := []
  m_preferredStylesheetSetName := ""
  m_selectedStylesheetSetName := ""
  m_usesSiblingRules := false
  m_usesSiblingRulesOverride := false
  m_usesFirstLineRules := false
  m_usesFirstLetterRules := false
  m_usesBeforeAfterRules := false
  m_usesBeforeAfterRulesOverride := false
  m_usesRemUnits := false

/-- A collection whose stored active list is `[A, B]` with `A = 1` and `B = 2`. -/
def collectionAB : DocumentStyleSheetCollection :=
  { newCollection idleDocument with m_activeAuthorStyleSheets := [1, 2] }

/-- A collection whose stored active list is `[A]`, whose only candidate is an
untitled style element owning `A`, and whose stored flag says that an active
sheet was loading at the previous update. -/
def collectionAfterLoad : DocumentStyleSheetCollection :=
  { newCollection idleDocument with
    m_activeAuthorStyleSheets := [1],
    m_styleSheetCandidateNodes := [.htmlStyle ⟨"", "", some 1⟩],
    m_hadActiveLoadingStylesheet := true }

/-- A collection of a document that is in a style recalculation. -/
def collectionInRecalc : DocumentStyleSheetCollection :=
  { collectionAB with m_document := { idleDocument with inStyleRecalc := true } }

/-- A collection whose only candidate is a titled style element without a sheet. -/
def collectionStyleWithoutSheet : DocumentStyleSheetCollection :=
  { newCollection idleDocument with
    m_styleSheetCandidateNodes := [.htmlStyle ⟨"T", "", none⟩] }

/-- Candidates in document order: an alternate titled link, a still loading link
titled "Main", a style element titled "Other". -/
def candidatesWithLoadingLink : List Node :=
  [.htmlLink ⟨"Alt", "alternate stylesheet", false, false, false, some 1⟩,
   .htmlLink ⟨"Main", "stylesheet", false, false, true, none⟩,
   .htmlStyle ⟨"Other", "", some 3⟩]

/-- A collection with the candidates `candidatesWithLoadingLink`. -/
def collectionWithLoadingLink : DocumentStyleSheetCollection :=
  { newCollection idleDocument with m_styleSheetCandidateNodes := candidatesWithLoadingLink }

/-- A collection whose preferred set name is already "Main", with the candidates
`candidatesWithLoadingLink`. -/
def collectionPreferringMain : DocumentStyleSheetCollection :=
  { collectionWithLoadingLink with m_preferredStylesheetSetName := "Main",
                                   m_selectedStylesheetSetName := "Main" }

/-- A link titled "X" that was enabled via script and owns the sheet `1`. -/
def linkEnabledViaScript : Node :=
  .htmlLink ⟨"X", "stylesheet", true, false, false, some 1⟩

/-- A link titled "Main" that owns the sheet `1`. -/
def linkMain : Node :=
  .htmlLink ⟨"Main", "stylesheet", false, false, false, some 1⟩

/-- An untitled alternate link, enabled via script, that owns the sheet `1`. -/
def linkUntitledAlternate : Node :=
  .htmlLink ⟨"", "alternate stylesheet", true, false, false, some 1⟩

/-- A collection whose candidates are a style element owning the sheet `1`, an
XSL processing instruction, and a titled link owning the sheet `2`. -/
def collectionWithXSL : DocumentStyleSheetCollection :=
  { newCollection idleDocument with
    m_styleSheetCandidateNodes :=
      [.htmlStyle ⟨"", "", some 1⟩] ++ .processingInstruction ⟨true, some 7⟩ ::
        [.htmlLink ⟨"Main", "stylesheet", false, false, false, some 2⟩] }

/-- The sheets that `collectActiveCSSStyleSheetsFromSeamlessParents` appends: the
active author sheets of the seamless parent, none without such a parent. -/
def seamlessParentSheets (document : Document) : List CSSStyleSheet :=
  collectActiveCSSStyleSheetsFromSeamlessParents [] document

/-- An injection descriptor of user level that applies to every frame and URL. -/
def userLevelDescriptor : UserStyleSheet :=
  ⟨"p { color: red }", "user.css", [], [], .InjectInAllFrames, .UserStyleUserLevel⟩

/-- An injection descriptor of author level that applies to every frame and URL. -/
def authorLevelDescriptor : UserStyleSheet :=
  ⟨"p { color: blue }", "author.css", [], [], .InjectInAllFrames, .UserStyleAuthorLevel⟩

/-- A collection of a document in a seamless iframe whose parent has the active
sheet `50`, on a page with one user-level and one author-level injected sheet,
with the document author sheet `60` and one style element owning the sheet `1`. -/
def collectionWithInjectedSheets : DocumentStyleSheetCollection :=
  { newCollection
      { idleDocument with page := some ⟨[userLevelDescriptor, authorLevelDescriptor]⟩,
                          seamlessParentIFrame := some ⟨[50]⟩ } with
    m_authorStyleSheets := [60],
    m_styleSheetCandidateNodes := [.htmlStyle ⟨"", "", some 1⟩] }

/-- The vector `addedSheets` of `analyzeStyleSheetChange` after the loop of lines
373-376, which line 384 hands to the invalidation analysis; empty when the
comparison of the lists returned before. -/
def addedSheets (c : DocumentStyleSheetCollection) (newStylesheets : List CSSStyleSheet) :
    List StyleSheetContents :=
  match matchOldSheets c.m_document c.m_activeAuthorStyleSheets newStylesheets [] with
  | none => []
  | some (added, news) => added ++ news.map c.m_document.contents

/-- Whether lines 166-169 skip the descriptor: it is for the top frame only and
the document has an owner element, or the URL of the document fails its
patterns. -/
def isSkipped (d : Document) (sheet : UserStyleSheet) : Bool :=
  (decide (sheet.injectedFrames = .InjectInTopFrameOnly) && d.ownerElement) ||
    !d.matchesPatterns d.url sheet.whitelist sheet.blacklist

/-- The descriptors that are not skipped, in registry order. -/
def keptDescriptors (d : Document) (sheets : List UserStyleSheet) : List UserStyleSheet :=
  sheets.filter fun sheet => !isSkipped d sheet

/-- One new sheet object for every kept descriptor, in registry order: the sheet
for the `i`-th kept descriptor is the `i`-th object created from now on. -/
def injectedSheetsFor (d : Document) (sheets : List UserStyleSheet) :
    List (UserStyleSheet × CSSStyleSheet) :=
  (keptDescriptors d sheets).zip
    (List.range' d.nextSheet (keptDescriptors d sheets).length)

/-- The calls that build the sheet at address `groupSheet` from a descriptor
(lines 170-177). -/
def injectionCalls (entry : UserStyleSheet × CSSStyleSheet) : List Call :=
  [.createInline entry.2 entry.1.url,
   .setIsUserStyleSheet entry.2 (decide (entry.1.level = .UserStyleUserLevel)),
   .parseString entry.2 entry.1.source]

/-- Lines 170-177 of the loop of `updateInjectedStyleSheetCache`: the sheet for one
kept descriptor is created, appended to the list of its level and parsed. -/
def injectOne (sheet : UserStyleSheet) (c : DocumentStyleSheetCollection) :
    DocumentStyleSheetCollection :=
  let created := c.m_document.createInline sheet.url
  let groupSheet := created.1
  let isUserStyleSheet := decide (sheet.level = .UserStyleUserLevel)
  let c :=
    if isUserStyleSheet then
      { c with m_injectedUserStyleSheets := c.m_injectedUserStyleSheets ++ [groupSheet] }
    else
      { c with m_injectedAuthorStyleSheets := c.m_injectedAuthorStyleSheets ++ [groupSheet] }
  let d := (created.2.call (.setIsUserStyleSheet groupSheet isUserStyleSheet)).call
    (.parseString groupSheet sheet.source)
  { c with m_document := d }

/-- A descriptor of user level for the top frame only. -/
def topFrameOnlyDescriptor : UserStyleSheet :=
  ⟨"a { color: green }", "top.css", [], [], .InjectInTopFrameOnly, .UserStyleUserLevel⟩

/-- A collection with stale cached lists `[7]` and `[8]`, marked valid, for a
document in a subframe of a page with three injected sheets. -/
def collectionWithStaleCache : DocumentStyleSheetCollection :=
  { newCollection
      { idleDocument with
        page := some ⟨[topFrameOnlyDescriptor, authorLevelDescriptor, userLevelDescriptor]⟩,
        ownerElement := true } with
    m_injectedUserStyleSheets := [7],
    m_injectedAuthorStyleSheets := [8],
    m_injectedStyleSheetCacheValid := true }

/-- The member function `removePendingSheet` (lines 202-223).  The assertion of
line 205 is not compiled into release builds; `m_pendingStylesheets` is an `int`,
and the decrement of a positive count does not overflow. -/
def removePendingSheet (c : DocumentStyleSheetCollection)
    (notification : RemovePendingSheetNotificationType) : DocumentStyleSheetCollection :=
  let c := { c with m_pendingStylesheets := c.m_pendingStylesheets - 1 }
  if c.m_pendingStylesheets ≠ 0 then c
  else if notification = .RemovePendingSheetNotifyLater then
    { c with m_document := c.m_document.call .setNeedsNotifyRemoveAllPendingStylesheet }
  else
    { c with m_document := c.m_document.call .didRemoveAllPendingStylesheet }

/-- A collection that waits for one last pending sheet. -/
def collectionWithPendingSheet : DocumentStyleSheetCollection :=
  { newCollection idleDocument with m_pendingStylesheets := 1 }

/-- A collection with stored list `[A, B]` whose candidates are style elements
owning `A`, `B` and a new sheet `C = 3`. -/
def collectionABThenC : DocumentStyleSheetCollection :=
  { collectionAB with
    m_styleSheetCandidateNodes :=
      [.htmlStyle ⟨"", "", some 1⟩, .htmlStyle ⟨"", "", some 2⟩, .htmlStyle ⟨"", "", some 3⟩] }

/-! ## WebCrypto: WebCryptoAlgorithm and normalizeAlgorithm

A model of `public/platform/WebCryptoAlgorithm.h`, of
`Source/core/platform/chromium/support/WebCryptoAlgorithm.cpp` and of
`Source/modules/crypto/NormalizeAlgorithm.cpp`.  The names of the `WebKit`
namespace are kept without the namespace.  An owned or counted pointer is an
`Option`, `none` for null. -/

/-- The enum `WebCryptoAlgorithmId` (WebCryptoAlgorithm.h, lines 43-53). -/
inductive WebCryptoAlgorithmId where
  | WebCryptoAlgorithmIdAesCbc
  | WebCryptoAlgorithmIdSha1
  | WebCryptoAlgorithmIdSha224
  | WebCryptoAlgorithmIdSha256
  | WebCryptoAlgorithmIdSha384
  | WebCryptoAlgorithmIdSha512
deriving DecidableEq, Repr

/-- The enum `WebCryptoAlgorithmParamsType` (WebCryptoAlgorithm.h, lines 55-59). -/
inductive WebCryptoAlgorithmParamsType where
  | WebCryptoAlgorithmParamsTypeNone
  | WebCryptoAlgorithmParamsTypeAesCbcParams
  | WebCryptoAlgorithmParamsTypeAesKeyGenParams
deriving DecidableEq, Repr

/-- The integer value of an enumerator of `WebCryptoAlgorithmParamsType`. -/
def WebCryptoAlgorithmParamsType.toInt : WebCryptoAlgorithmParamsType → Int
  | .WebCryptoAlgorithmParamsTypeNone => 0
  | .WebCryptoAlgorithmParamsTypeAesCbcParams => 1
  | .WebCryptoAlgorithmParamsTypeAesKeyGenParams => 2

/-- A parameters object.  Its classes are declared in WebCryptoAlgorithmParams.h,
which is not among the sources: the model keeps what `type()` returns and the
constructor arguments that NormalizeAlgorithm.cpp passes. -/
structure WebCryptoAlgorithmParams where
  type : WebCryptoAlgorithmParamsType
  iv : List Nat
  length : Int
deriving DecidableEq, Repr

/-- The class `WebCryptoAlgorithmPrivate` (WebCryptoAlgorithm.cpp, lines 40-52). -/
structure WebCryptoAlgorithmPrivate where
  algorithmId : WebCryptoAlgorithmId
  algorithmName : Option String
  params : Option WebCryptoAlgorithmParams
deriving DecidableEq, Repr

/-- The class `WebCryptoAlgorithm`: a pointer to the shared private part, null
after the default constructor. -/
structure WebCryptoAlgorithm where
  m_private : Option WebCryptoAlgorithmPrivate
deriving DecidableEq, Repr

/-- The constructor of lines 54-57 of WebCryptoAlgorithm.cpp. -/
def WebCryptoAlgorithm.create (algorithmId : WebCryptoAlgorithmId)
    (algorithmName : Option String) (params : Option WebCryptoAlgorithmParams) :
    WebCryptoAlgorithm :=
  ⟨some ⟨algorithmId, algorithmName, params⟩⟩

/-- The member function `algorithmId` (lines 59-62); `none` stands for the
dereference of a null `m_private`. -/
def WebCryptoAlgorithm.algorithmId (a : WebCryptoAlgorithm) : Option WebCryptoAlgorithmId :=
  a.m_private.map fun p => p.algorithmId

/-- The member function `paramsType` (lines 69-74); `none` stands for the
dereference of a null `m_private`. -/
def WebCryptoAlgorithm.paramsType (a : WebCryptoAlgorithm) :
    Option WebCryptoAlgorithmParamsType :=
  a.m_private.map fun p =>
    match p.params with
    | none => .WebCryptoAlgorithmParamsTypeNone
    | some params => params.type

/-- The member function `aesCbcParams` (lines 76-81): the stored parameters or 0;
the outer `none` stands for the dereference of a null `m_private`. -/
def WebCryptoAlgorithm.aesCbcParams (a : WebCryptoAlgorithm) :
    Option (Option WebCryptoAlgorithmParams) :=
  match a.paramsType, a.m_private with
  | some type, some p =>
    if type = .WebCryptoAlgorithmParamsTypeAesCbcParams then some p.params else some none
  | _, _ => none

/-- The member function `aesKeyGenParams` (lines 83-88): the stored parameters or
0; the outer `none` stands for the dereference of a null `m_private`. -/
def WebCryptoAlgorithm.aesKeyGenParams (a : WebCryptoAlgorithm) :
    Option (Option WebCryptoAlgorithmParams) :=
  match a.paramsType, a.m_private with
  | some type, some p =>
    if type = .WebCryptoAlgorithmParamsTypeAesKeyGenParams then some p.params else some none
  | _, _ => none

/-- The enum `AlgorithmOperation`.  It is declared in NormalizeAlgorithm.h, which
is not among the sources: the four enumerators that NormalizeAlgorithm.cpp names
are kept, and `unnamed` stands for any other enumerator below
`NumberOfAlgorithmOperations`. -/
inductive AlgorithmOperation where
  | Encrypt
  | Decrypt
  | Digest
  | GenerateKey
  | unnamed (index : Nat)
deriving DecidableEq, Repr

/-- The type `ExceptionCode` of core/dom/ExceptionCode.h. -/
abbrev ExceptionCode := Nat

/-- The DOM exception code `NOT_SUPPORTED_ERR`. -/
def NOT_SUPPORTED_ERR : ExceptionCode := 9

/-- The DOM exception code `SYNTAX_ERR`. -/
def SYNTAX_ERR : ExceptionCode := 12

/-- An `ArrayBufferView`: the bytes from `baseAddress()`, `byteLength()` of them. -/
structure ArrayBufferView where
  bytes : List Nat
deriving DecidableEq, Repr

/-- The query `ArrayBufferView::byteLength()`. -/
def ArrayBufferView.byteLength (view : ArrayBufferView) : Nat := view.bytes.length

/-- A `Dictionary` (bindings/v8/Dictionary.h, not among the sources), by the
three reads NormalizeAlgorithm.cpp makes.  A field is `none` when the `get` for
that key returns false; `iv` is `some none` when the `get` succeeds with a null
view; `length` is an `int32_t`. -/
structure Dictionary where
  name : Option String
  iv : Option (Option ArrayBufferView)
  length : Option Int
deriving DecidableEq, Repr

/-- The struct `AlgorithmNameMapping` (lines 49-52). -/
structure AlgorithmNameMapping where
  algorithmName : String
  algorithmId : WebCryptoAlgorithmId
deriving DecidableEq, Repr

/-- The constant `UnsupportedOp` (line 55). -/
def UnsupportedOp : Int := -1

/-- The typedef `AlgorithmParamsForOperation` (line 58): `UnsupportedOp` or the
value of a `WebCryptoAlgorithmParamsType`. -/
abbrev AlgorithmParamsForOperation := Int

/-- The struct `OperationParamsMapping` (lines 60-64). -/
structure OperationParamsMapping where
  algorithmId : WebCryptoAlgorithmId
  operation : AlgorithmOperation
  params : AlgorithmParamsForOperation
deriving DecidableEq, Repr

/-- The table `algorithmNameMappings` (lines 66-73). -/
def algorithmNameMappings : List AlgorithmNameMapping :=
  [⟨"AES-CBC", .WebCryptoAlgorithmIdAesCbc⟩,
   ⟨"SHA-1", .WebCryptoAlgorithmIdSha1⟩,
   ⟨"SHA-224", .WebCryptoAlgorithmIdSha224⟩,
   ⟨"SHA-256", .WebCryptoAlgorithmIdSha256⟩,
   ⟨"SHA-384", .WebCryptoAlgorithmIdSha384⟩,
   ⟨"SHA-512", .WebCryptoAlgorithmIdSha512⟩]

/-- The table `operationParamsMappings` (lines 76-96). -/
def operationParamsMappings : List OperationParamsMapping :=
  [⟨.WebCryptoAlgorithmIdAesCbc, .Decrypt,
      WebCryptoAlgorithmParamsType.WebCryptoAlgorithmParamsTypeAesCbcParams.toInt⟩,
   ⟨.WebCryptoAlgorithmIdAesCbc, .Encrypt,
      WebCryptoAlgorithmParamsType.WebCryptoAlgorithmParamsTypeAesCbcParams.toInt⟩,
   ⟨.WebCryptoAlgorithmIdAesCbc, .GenerateKey,
      WebCryptoAlgorithmParamsType.WebCryptoAlgorithmParamsTypeAesKeyGenParams.toInt⟩,
   ⟨.WebCryptoAlgorithmIdSha1, .Digest,
      WebCryptoAlgorithmParamsType.WebCryptoAlgorithmParamsTypeNone.toInt⟩,
   ⟨.WebCryptoAlgorithmIdSha224, .Digest,
      WebCryptoAlgorithmParamsType.WebCryptoAlgorithmParamsTypeNone.toInt⟩,
   ⟨.WebCryptoAlgorithmIdSha256, .Digest,
      WebCryptoAlgorithmParamsType.WebCryptoAlgorithmParamsTypeNone.toInt⟩,
   ⟨.WebCryptoAlgorithmIdSha384, .Digest,
      WebCryptoAlgorithmParamsType.WebCryptoAlgorithmParamsTypeNone.toInt⟩,
   ⟨.WebCryptoAlgorithmIdSha512, .Digest,
      WebCryptoAlgorithmParamsType.WebCryptoAlgorithmParamsTypeNone.toInt⟩]

/-- The struct `AlgorithmInfo` (lines 99-110). -/
structure AlgorithmInfo where
  algorithmId : WebCryptoAlgorithmId
  algorithmName : Option String
  paramsForOperation : AlgorithmOperation → AlgorithmParamsForOperation

/-- The constructor `AlgorithmInfo()` (lines 100-105).  It does not write
`algorithmId`: `indeterminate` is what the memory of that member holds. -/
def AlgorithmInfo.create (indeterminate : WebCryptoAlgorithmId) : AlgorithmInfo :=
  ⟨indeterminate, none, fun _ => UnsupportedOp⟩

/-- The class `AlgorithmRegistry` (lines 115-128): the hash map from names to
identifiers, in insertion order, and the array of algorithm infos. -/
structure AlgorithmRegistry where
  m_algorithmNameToId : List (String × WebCryptoAlgorithmId)
  m_algorithms : WebCryptoAlgorithmId → AlgorithmInfo

/-- Equality of keys under `CaseFoldingHash`.  Only strings of ASCII characters
reach the map (the keys of the table, and names that passed line 203), and on
those case folding is the lower-casing of the letters A to Z. -/
def equalIgnoringCase (a b : String) : Bool :=
  a.toList.map Char.toLower = b.toList.map Char.toLower

/-- The function `HashMap::find` on the name map. -/
def findAlgorithmId (map : List (String × WebCryptoAlgorithmId)) (algorithmName : String) :
    Option WebCryptoAlgorithmId :=
  (map.find? fun entry => equalIgnoringCase entry.1 algorithmName).map Prod.snd

/-- The function `HashMap::add`: a key that is already present keeps its value. -/
def addAlgorithmId (map : List (String × WebCryptoAlgorithmId)) (algorithmName : String)
    (algorithmId : WebCryptoAlgorithmId) : List (String × WebCryptoAlgorithmId) :=
  if (findAlgorithmId map algorithmName).isSome then map
  else map ++ [(algorithmName, algorithmId)]

/-- Assignment to one element of `m_algorithms`. -/
def setAlgorithmInfo (algorithms : WebCryptoAlgorithmId → AlgorithmInfo)
    (algorithmId : WebCryptoAlgorithmId) (info : AlgorithmInfo) :
    WebCryptoAlgorithmId → AlgorithmInfo :=
  fun other => if other = algorithmId then info else algorithms other

/-- The body of the first loop of the constructor (lines 143-145). -/
def registerName (registry : AlgorithmRegistry) (mapping : AlgorithmNameMapping) :
    AlgorithmRegistry :=
  { m_algorithmNameToId :=
      addAlgorithmId registry.m_algorithmNameToId mapping.algorithmName mapping.algorithmId,
    m_algorithms :=
      setAlgorithmInfo registry.m_algorithms mapping.algorithmId
        { registry.m_algorithms mapping.algorithmId with
          algorithmName := some mapping.algorithmName } }

/-- The body of the second loop of the constructor (lines 149-150). -/
def registerOperation (registry : AlgorithmRegistry) (mapping : OperationParamsMapping) :
    AlgorithmRegistry :=
  { registry with
    m_algorithms :=
      setAlgorithmInfo registry.m_algorithms mapping.algorithmId
        { registry.m_algorithms mapping.algorithmId with
          paramsForOperation := fun operation =>
            if operation = mapping.operation then mapping.params
            else (registry.m_algorithms mapping.algorithmId).paramsForOperation operation } }

/-- The constructor `AlgorithmRegistry()` (lines 140-152).  `indeterminate` is what
the memory of the member `algorithmId` of each element of `m_algorithms` holds
when the registry is allocated. -/
def AlgorithmRegistry.create (indeterminate : WebCryptoAlgorithmId → WebCryptoAlgorithmId) :
    AlgorithmRegistry :=
  let registry : AlgorithmRegistry :=
    ⟨[], fun algorithmId => AlgorithmInfo.create (indeterminate algorithmId)⟩
  let registry := algorithmNameMappings.foldl registerName registry
  operationParamsMappings.foldl registerOperation registry

/-- The function `AlgorithmRegistry::lookupAlgorithmByName` (lines 130-138) on the
registry that `DEFINE_STATIC_LOCAL` constructed. -/
def lookupAlgorithmByName (registry : AlgorithmRegistry) (algorithmName : String) :
    Option AlgorithmInfo :=
  match findAlgorithmId registry.m_algorithmNameToId algorithmName with
  | none => none
  | some algorithmId => some (registry.m_algorithms algorithmId)

/-- Modelled from the spec: the constructor call `new WebCryptoAesCbcParams(iv, ivSize)`.
The class is declared in WebCryptoAlgorithmParams.h, which is not among the
sources, and the specification leaves WebCrypto out of its scope: the object is
taken to report, as its `type()`, the parameter type that bears its name, and to
keep the bytes it is given. -/
def WebCryptoAesCbcParams (iv : List Nat) : WebCryptoAlgorithmParams :=
  ⟨.WebCryptoAlgorithmParamsTypeAesCbcParams, iv, 0⟩

/-- Modelled from the spec: the constructor call `new WebCryptoAesKeyGenParams(length)`.
The class is declared in WebCryptoAlgorithmParams.h, which is not among the
sources, and the specification leaves WebCrypto out of its scope: the object is
taken to report, as its `type()`, the parameter type that bears its name, and to
keep the length it is given. -/
def WebCryptoAesKeyGenParams (length : Int) : WebCryptoAlgorithmParams :=
  ⟨.WebCryptoAlgorithmParamsTypeAesKeyGenParams, [], length⟩

/-- The function `parseAesCbcParams` (lines 154-164). -/
def parseAesCbcParams (raw : Dictionary) : Option WebCryptoAlgorithmParams :=
  match raw.iv with
  | none => none
  | some none => none
  | some (some iv) =>
    if iv.byteLength ≠ 16 then none
    else some (WebCryptoAesCbcParams iv.bytes)

/-- The function `parseAesKeyGenParams` (lines 166-174). -/
def parseAesKeyGenParams (raw : Dictionary) : Option WebCryptoAlgorithmParams :=
  match raw.length with
  | none => none
  | some length =>
    if length < 0 ∨ length > 0xFFFF then none
    else some (WebCryptoAesKeyGenParams length)

/-- The function `parseAlgorithmParams` (lines 176-188), on the integer value of
the parameter type. -/
def parseAlgorithmParams (raw : Dictionary) (type : Int) : Option WebCryptoAlgorithmParams :=
  if type = WebCryptoAlgorithmParamsType.WebCryptoAlgorithmParamsTypeNone.toInt then none
  else if type = WebCryptoAlgorithmParamsType.WebCryptoAlgorithmParamsTypeAesCbcParams.toInt then
    parseAesCbcParams raw
  else if type
      = WebCryptoAlgorithmParamsType.WebCryptoAlgorithmParamsTypeAesKeyGenParams.toInt then
    parseAesKeyGenParams raw
  else none

/-- The query `String::containsOnlyASCII()`. -/
def containsOnlyASCII (s : String) : Bool := s.toList.all fun ch => ch.toNat < 128

/-- The result of `normalizeAlgorithm` and its two out-parameters after the call. -/
structure NormalizedAlgorithm where
  result : Bool
  algorithm : WebCryptoAlgorithm
  ec : ExceptionCode
deriving DecidableEq, Repr

/-- The function `normalizeAlgorithm` (lines 195-229); `algorithm` and `ec` are the
out-parameters as the caller passes them. -/
def normalizeAlgorithm (registry : AlgorithmRegistry) (raw : Dictionary)
    (op : AlgorithmOperation) (algorithm : WebCryptoAlgorithm) (ec : ExceptionCode) :
    NormalizedAlgorithm :=
  match raw.name with
  | none => ⟨false, algorithm, NOT_SUPPORTED_ERR⟩
  | some algorithmName =>
    if !containsOnlyASCII algorithmName then ⟨false, algorithm, SYNTAX_ERR⟩
    else
      match lookupAlgorithmByName registry algorithmName with
      | none => ⟨false, algorithm, NOT_SUPPORTED_ERR⟩
      | some info =>
        if info.paramsForOperation op = UnsupportedOp then
          ⟨false, algorithm, NOT_SUPPORTED_ERR⟩
        else
          let paramsType := info.paramsForOperation op
          let params := parseAlgorithmParams raw paramsType
          if params.isNone ∧
              paramsType ≠ WebCryptoAlgorithmParamsType.WebCryptoAlgorithmParamsTypeNone.toInt
          then ⟨false, algorithm, NOT_SUPPORTED_ERR⟩
          else ⟨true, WebCryptoAlgorithm.create info.algorithmId info.algorithmName params, ec⟩

/-- The registry in memory that is zero when it is allocated: every unwritten
`algorithmId` reads as the first enumerator. -/
def zeroedRegistry : AlgorithmRegistry :=
  AlgorithmRegistry.create fun _ => .WebCryptoAlgorithmIdAesCbc

/-- A dictionary with the name "sha-256" and members that no digest needs. -/
def sha256Dictionary : Dictionary :=
  ⟨some "sha-256", some none, some 7⟩

/-- Whether the table `operationParamsMappings` has an entry for the algorithm and
the operation. -/
def listedOperation (algorithmId : WebCryptoAlgorithmId) (op : AlgorithmOperation) : Bool :=
  operationParamsMappings.any fun mapping =>
    decide (mapping.algorithmId = algorithmId) && decide (mapping.operation = op)

/-- The entry of `paramsForOperation` that the table `operationParamsMappings`
asks for: the parameters of the entry for the algorithm and the operation,
`UnsupportedOp` when there is none. -/
def listedParams (algorithmId : WebCryptoAlgorithmId) (op : AlgorithmOperation) :
    AlgorithmParamsForOperation :=
  match operationParamsMappings.find? fun mapping =>
      decide (mapping.algorithmId = algorithmId) && decide (mapping.operation = op) with
  | some mapping => mapping.params
  | none => UnsupportedOp

/-- The condition of line 344 of `analyzeStyleSheetChange`: the stored flag says an
active sheet was loading and no sheet of the new list is loading. -/
def loadFinished (c : DocumentStyleSheetCollection) (newStylesheets : List CSSStyleSheet) :
    Bool :=
  c.m_hadActiveLoadingStylesheet && !newStylesheets.any c.m_document.isLoading

/-- A collection with stored list `[A, A]`: the same sheet twice. -/
def collectionAA : DocumentStyleSheetCollection :=
  { newCollection idleDocument with m_activeAuthorStyleSheets := [1, 1] }

/-- A dictionary with the name "SHA-256" and no other member. -/
def sha256Request : Dictionary :=
  ⟨some "SHA-256", none, none⟩

/-- A dictionary with the name "AES-CBC", an "iv" of sixteen bytes and a "length"
of 128. -/
def aesCbcRequest : Dictionary :=
  ⟨some "AES-CBC", some (some ⟨[0, 1, 2, 3, 4, 5, 6, 7, 8, 9, 10, 11, 12, 13, 14, 15]⟩),
    some 128⟩

/-- A dictionary whose name has a character outside ASCII. -/
def nonAsciiRequest : Dictionary :=
  ⟨some "SHA-256é", none, none⟩

/-- The sheet a candidate node owns: the result of `sheet()` of the processing
instruction, link or style element. -/
def Node.sheet : Node → Option StyleSheet
  | .processingInstruction pi => pi.sheet
  | .htmlLink e => e.sheet
  | .htmlStyle e => e.sheet
  | .svgStyle e => e.sheet
  | .other => none

/-! ## Lemmas on the list comparison of analyzeStyleSheetChange -/

theorem matchOldSheets_nil (d : Document) (news : List CSSStyleSheet)
    (added : List StyleSheetContents) :
    matchOldSheets d [] news added = some (added, news) := rfl

theorem matchOldSheets_cons_nil (d : Document) (old : CSSStyleSheet)
    (olds : List CSSStyleSheet) (added : List StyleSheetContents) :
    matchOldSheets d (old :: olds) [] added = none := rfl

theorem matchOldSheets_cons_ne (d : Document) {old s : CSSStyleSheet} (h : old ≠ s)
    (olds news : List CSSStyleSheet) (added : List StyleSheetContents) :
    matchOldSheets d (old :: olds) (s :: news) added
      = matchOldSheets d (old :: olds) news (added ++ [d.contents s]) := by
  simp [matchOldSheets, skipToSheet, h]

theorem matchOldSheets_cons_eq (d : Document) (old : CSSStyleSheet)
    (olds news : List CSSStyleSheet) (added : List StyleSheetContents) :
    matchOldSheets d (old :: olds) (old :: news) added
      = matchOldSheets d olds news added := by
  simp [matchOldSheets, skipToSheet]

/-- What a successful comparison says: the sheets added so far are kept, the old
list is a subsequence of the new one, and when nothing was added the new list is
the old list followed by the unread rest. -/
theorem matchOldSheets_some (d : Document) :
    ∀ (news olds : List CSSStyleSheet) (added added1 : List StyleSheetContents)
      (rest : List CSSStyleSheet),
      matchOldSheets d olds news added = some (added1, rest) →
      ∃ skipped, added1 = added ++ skipped ∧ olds.Sublist news ∧
        (skipped = [] → news = olds ++ rest) ∧
        skipped.length + olds.length + rest.length = news.length := by
  intro news
  induction news with
  | nil =>
    intro olds added added1 rest h
    cases olds with
    | nil =>
      simp only [matchOldSheets_nil, Option.some.injEq, Prod.mk.injEq] at h
      exact ⟨[], by simp [h.1], List.Sublist.refl _, fun _ => by simp [h.2], by simp [← h.2]⟩
    | cons o os => simp [matchOldSheets_cons_nil] at h
  | cons s ns ih =>
    intro olds added added1 rest h
    cases olds with
    | nil =>
      simp only [matchOldSheets_nil, Option.some.injEq, Prod.mk.injEq] at h
      exact ⟨[], by simp [h.1], List.nil_sublist _, fun _ => by simp [h.2], by simp [← h.2]⟩
    | cons o os =>
      by_cases hos : o = s
      · subst hos
        rw [matchOldSheets_cons_eq] at h
        obtain ⟨sk, h1, h2, h3, h4⟩ := ih os added added1 rest h
        refine ⟨sk, h1, h2.cons₂ _, fun hsk => ?_, ?_⟩
        · simp [h3 hsk]
        · simp only [List.length_cons]; omega
      · rw [matchOldSheets_cons_ne d hos] at h
        obtain ⟨sk, h1, h2, _, h4⟩ := ih (o :: os) (added ++ [d.contents s]) added1 rest h
        refine ⟨d.contents s :: sk, by simp [h1], h2.cons _, fun hsk => by simp at hsk, ?_⟩
        simp only [List.length_cons] at h4 ⊢; omega

/-- The greedy comparison succeeds whenever the old list is a subsequence of the
new one. -/
theorem matchOldSheets_of_sublist (d : Document) :
    ∀ (news olds : List CSSStyleSheet) (added : List StyleSheetContents),
      olds.Sublist news → ∃ r, matchOldSheets d olds news added = some r := by
  intro news
  induction news with
  | nil =>
    intro olds added h
    rw [List.sublist_nil.mp h]
    exact ⟨_, rfl⟩
  | cons s ns ih =>
    intro olds added h
    cases olds with
    | nil => exact ⟨_, rfl⟩
    | cons o os =>
      by_cases hos : o = s
      · subst hos
        rw [matchOldSheets_cons_eq]
        exact ih os added (List.cons_sublist_cons.mp h)
      · rw [matchOldSheets_cons_ne d hos]
        apply ih
        cases h with
        | cons _ h1 => exact h1
        | cons₂ _ _ => exact absurd rfl hos

theorem matchOldSheets_append (d : Document) (appended : List CSSStyleSheet) :
    ∀ (olds : List CSSStyleSheet) (added : List StyleSheetContents),
      matchOldSheets d olds (olds ++ appended) added = some (added, appended) := by
  intro olds
  induction olds with
  | nil => intro added; rfl
  | cons o os ih =>
    intro added
    rw [List.cons_append, matchOldSheets_cons_eq]
    exact ih added

/-- When the comparison of the two lists fails, every path of
`analyzeStyleSheetChange` leaves the initial `Reconstruct` and `true`. -/
theorem analyzeStyleSheetChange_of_none (c : DocumentStyleSheetCollection)
    (updateMode : StyleResolverUpdateMode) (newStylesheets : List CSSStyleSheet)
    (h : matchOldSheets c.m_document c.m_activeAuthorStyleSheets newStylesheets [] = none) :
    (analyzeStyleSheetChange c updateMode newStylesheets).styleResolverUpdateType
        = .Reconstruct ∧
      (analyzeStyleSheetChange c updateMode newStylesheets).requiresFullStyleRecalc
        = true := by
  unfold analyzeStyleSheetChange
  simp only [h]
  split
  · exact ⟨rfl, rfl⟩
  · split
    · exact ⟨rfl, rfl⟩
    · split
      · exact ⟨rfl, rfl⟩
      · split <;> exact ⟨rfl, rfl⟩

/-- When the comparison succeeds in AnalyzedStyleUpdate mode with a style
resolver and without the load-finished transition, the update type is `Reset` if
sheets were skipped before the last old sheet matched, and `Additive` if not. -/
theorem analyzeStyleSheetChange_of_some (c : DocumentStyleSheetCollection)
    (newStylesheets : List CSSStyleSheet)
    (added : List StyleSheetContents) (rest : List CSSStyleSheet)
    (hresolver : c.m_document.styleResolverIfExists = true)
    (hload : ¬ (c.m_hadActiveLoadingStylesheet = true ∧
      newStylesheets.any c.m_document.isLoading = false))
    (h : matchOldSheets c.m_document c.m_activeAuthorStyleSheets newStylesheets []
      = some (added, rest)) :
    (analyzeStyleSheetChange c .AnalyzedStyleUpdate newStylesheets).styleResolverUpdateType
      = if added = [] then .Additive else .Reset := by
  have hl : ¬ (c.m_hadActiveLoadingStylesheet &&
      !newStylesheets.any c.m_document.isLoading) = true := by
    simpa using hload
  have hlen : ¬ (newStylesheets.length < c.m_activeAuthorStyleSheets.length) := by
    obtain ⟨_, _, hsub, _, _⟩ := matchOldSheets_some _ _ _ _ _ _ h
    have := hsub.length_le
    omega
  unfold analyzeStyleSheetChange
  simp only [hl, if_false, ne_eq, not_true_eq_false, hresolver, Bool.not_true,
    Bool.false_eq_true, hlen, h]
  cases added with
  | nil => simp only [List.isEmpty_nil]; split <;> [rfl; split] <;> rfl
  | cons a as => simp only [List.isEmpty_cons]; split <;> [simp; split] <;> simp

/-! ## Claims on analyzeStyleSheetChange -/

/-- C1: in AnalyzedStyleUpdate mode, with an existing style resolver and no
transition from "had an active loading sheet" to "no sheet loading", a new list
that is the previous active list followed by any (possibly empty) list of
appended sheets is reported as Additive. -/
theorem analyzeStyleSheetChange_append_additive (c : DocumentStyleSheetCollection)
    (appended : List CSSStyleSheet)
    (hresolver : c.m_document.styleResolverIfExists = true)
    (hload : ¬ (c.m_hadActiveLoadingStylesheet = true ∧
      (c.m_activeAuthorStyleSheets ++ appended).any c.m_document.isLoading = false)) :
    (analyzeStyleSheetChange c .AnalyzedStyleUpdate
      (c.m_activeAuthorStyleSheets ++ appended)).styleResolverUpdateType = .Additive := by
  have hl : ¬ (c.m_hadActiveLoadingStylesheet && !(c.m_activeAuthorStyleSheets ++ appended).any
      c.m_document.isLoading) = true := by
    simpa using hload
  unfold analyzeStyleSheetChange
  simp only [hl, if_false, ne_eq, not_true_eq_false, hresolver, Bool.not_true,
    Bool.false_eq_true, List.length_append, matchOldSheets_append]
  have : ¬ (c.m_activeAuthorStyleSheets.length + appended.length
      < c.m_activeAuthorStyleSheets.length) := by omega
  simp only [this, if_false]
  split <;> [rfl; split] <;> rfl

/-- C1 at the scenario of the specification: previous `[A, B]`, new `[A, B, C]`. -/
theorem analyzeStyleSheetChange_append_additive_witness :
    collectionAB.m_activeAuthorStyleSheets = [1, 2] ∧
    collectionAB.m_document.styleResolverIfExists = true ∧
    (analyzeStyleSheetChange collectionAB .AnalyzedStyleUpdate
      ([1, 2] ++ [3])).styleResolverUpdateType = .Additive :=
  ⟨rfl, rfl, analyzeStyleSheetChange_append_additive collectionAB [3] rfl (by decide)⟩

/-- C2: in AnalyzedStyleUpdate mode, with an existing style resolver and no
load-finished transition, when the previous active list is a subsequence of the
new list but not a prefix of it (some new sheet stands before or between the old
ones), the update type is Reset. -/
theorem analyzeStyleSheetChange_insertion_reset (c : DocumentStyleSheetCollection)
    (newStylesheets : List CSSStyleSheet)
    (hresolver : c.m_document.styleResolverIfExists = true)
    (hload : ¬ (c.m_hadActiveLoadingStylesheet = true ∧
      newStylesheets.any c.m_document.isLoading = false))
    (hsub : c.m_activeAuthorStyleSheets.Sublist newStylesheets)
    (hfront : ¬ c.m_activeAuthorStyleSheets <+: newStylesheets) :
    (analyzeStyleSheetChange c .AnalyzedStyleUpdate newStylesheets).styleResolverUpdateType
      = .Reset := by
  obtain ⟨⟨added, rest⟩, hm⟩ := matchOldSheets_of_sublist c.m_document _ _ [] hsub
  rw [analyzeStyleSheetChange_of_some c newStylesheets added rest hresolver hload hm]
  obtain ⟨skipped, hadded, _, hpre, _⟩ := matchOldSheets_some _ _ _ _ _ _ hm
  have hne : added ≠ [] := by
    intro hnil
    apply hfront
    have hs : skipped = [] := by simpa [hnil] using hadded.symm
    exact ⟨rest, (hpre hs).symm⟩
  simp [hne]

/-- C2 at the scenario of the specification: previous `[A, B]`, new `[A, C, B]`. -/
theorem analyzeStyleSheetChange_insertion_reset_witness :
    collectionAB.m_activeAuthorStyleSheets.Sublist [1, 3, 2] ∧
    ¬ collectionAB.m_activeAuthorStyleSheets <+: [1, 3, 2] ∧
    (analyzeStyleSheetChange collectionAB .AnalyzedStyleUpdate
      [1, 3, 2]).styleResolverUpdateType = .Reset :=
  ⟨by decide, by decide,
    analyzeStyleSheetChange_insertion_reset collectionAB [1, 3, 2] rfl (by decide)
      (by decide) (by decide)⟩

/-- C3: for every update mode, when the previous active list is not a subsequence
of the new list (an old sheet is missing or the old sheets come in another order,
which includes every shorter new list), the update type is Reconstruct and
requiresFullStyleRecalc is true. -/
theorem analyzeStyleSheetChange_missing_reconstruct (c : DocumentStyleSheetCollection)
    (updateMode : StyleResolverUpdateMode) (newStylesheets : List CSSStyleSheet)
    (hnotsub : ¬ c.m_activeAuthorStyleSheets.Sublist newStylesheets) :
    (analyzeStyleSheetChange c updateMode newStylesheets).styleResolverUpdateType
        = .Reconstruct ∧
      (analyzeStyleSheetChange c updateMode newStylesheets).requiresFullStyleRecalc
        = true := by
  apply analyzeStyleSheetChange_of_none
  cases hm : matchOldSheets c.m_document c.m_activeAuthorStyleSheets newStylesheets [] with
  | none => rfl
  | some r =>
    obtain ⟨_, _, hsub, _, _⟩ := matchOldSheets_some _ _ _ _ r.1 r.2 hm
    exact absurd hsub hnotsub

/-- C3 at the scenario of the specification: previous `[A, B]`, new `[B]`. -/
theorem analyzeStyleSheetChange_missing_reconstruct_witness :
    ¬ collectionAB.m_activeAuthorStyleSheets.Sublist [2] ∧
    (analyzeStyleSheetChange collectionAB .AnalyzedStyleUpdate [2]).styleResolverUpdateType
        = .Reconstruct ∧
      (analyzeStyleSheetChange collectionAB .AnalyzedStyleUpdate [2]).requiresFullStyleRecalc
        = true :=
  ⟨by decide,
    analyzeStyleSheetChange_missing_reconstruct collectionAB .AnalyzedStyleUpdate [2]
      (by decide)⟩

/-! ## What collectStyleSheets and the injected sheet cache leave unchanged -/

theorem namesAndCalls_refl (c : DocumentStyleSheetCollection) :
    OnlyNamesAndCallsChanged c c :=
  ⟨_, _, _, rfl⟩

theorem namesAndCalls_trans {c c1 c2 : DocumentStyleSheetCollection}
    (h1 : OnlyNamesAndCallsChanged c c1) (h2 : OnlyNamesAndCallsChanged c1 c2) :
    OnlyNamesAndCallsChanged c c2 := by
  obtain ⟨p1, s1, k1, rfl⟩ := h1
  obtain ⟨p2, s2, k2, rfl⟩ := h2
  exact ⟨p2, s2, k2, rfl⟩

theorem namesAndCalls_setNames (c : DocumentStyleSheetCollection)
    (title : String) :
    OnlyNamesAndCallsChanged c
      { c with m_preferredStylesheetSetName := title,
               m_selectedStylesheetSetName := title } :=
  ⟨_, _, _, rfl⟩

theorem namesAndCalls_call (c : DocumentStyleSheetCollection) (k : Call) :
    OnlyNamesAndCallsChanged c { c with m_document := c.m_document.call k } :=
  ⟨_, _, _, rfl⟩

theorem collectElement_frame (c : DocumentStyleSheetCollection) (hasLocalNameStyle : Bool)
    (title rel : String) (enabledViaScript : Bool) (sheet : Option StyleSheet) :
    OnlyNamesAndCallsChanged c
      (collectElement c hasLocalNameStyle title rel enabledViaScript sheet).collection := by
  unfold collectElement
  split
  · simp only [CollectStep.collection]
    split
    · split
      · exact namesAndCalls_setNames c title
      · exact namesAndCalls_refl c
    · exact namesAndCalls_refl c
  · exact namesAndCalls_refl c

theorem collectNode_frame (c : DocumentStyleSheetCollection) (n : Node) :
    OnlyNamesAndCallsChanged c (collectNode c n).collection := by
  cases n with
  | processingInstruction pi =>
    simp only [collectNode]
    split
    · split
      · exact namesAndCalls_call c _
      · exact namesAndCalls_refl c
    · exact namesAndCalls_refl c
  | htmlLink e =>
    simp only [collectNode]
    split
    · split
      · split
        · exact namesAndCalls_setNames c _
        · exact namesAndCalls_refl c
      · exact namesAndCalls_refl c
    · exact collectElement_frame _ _ _ _ _ _
  | htmlStyle e => exact collectElement_frame _ _ _ _ _ _
  | svgStyle e => exact collectElement_frame _ _ _ _ _ _
  | other => exact namesAndCalls_refl c

theorem collectLoop_frame :
    ∀ (nodes : List Node) (c : DocumentStyleSheetCollection) (styleSheets : List StyleSheet)
      (activeSheets : List CSSStyleSheet),
      OnlyNamesAndCallsChanged c (collectLoop nodes c styleSheets activeSheets).collection := by
  intro nodes
  induction nodes with
  | nil => intro c _ _; exact namesAndCalls_refl c
  | cons n rest ih =>
    intro c styleSheets activeSheets
    have hn := collectNode_frame c n
    unfold collectLoop
    cases hstep : collectNode c n with
    | abort c1 => simpa [hstep, CollectStep.collection] using hn
    | next c1 sheet activeSheet =>
      simp only [hstep, CollectStep.collection] at hn ⊢
      exact namesAndCalls_trans hn (ih _ _ _)

theorem collectStyleSheets_frame (c : DocumentStyleSheetCollection)
    (styleSheets : List StyleSheet) (activeSheets : List CSSStyleSheet) :
    OnlyNamesAndCallsChanged c (collectStyleSheets c styleSheets activeSheets).collection := by
  unfold collectStyleSheets
  split
  · exact namesAndCalls_refl c
  · have h := collectLoop_frame c.m_styleSheetCandidateNodes c styleSheets activeSheets
    exact h

theorem injectedCache_refl (c : DocumentStyleSheetCollection) :
    OnlyInjectedCacheChanged c c :=
  ⟨_, _, _, _, _, rfl⟩

theorem injectedCache_trans {c c1 c2 : DocumentStyleSheetCollection}
    (h1 : OnlyInjectedCacheChanged c c1) (h2 : OnlyInjectedCacheChanged c1 c2) :
    OnlyInjectedCacheChanged c c2 := by
  obtain ⟨v1, u1, a1, n1, k1, rfl⟩ := h1
  obtain ⟨v2, u2, a2, n2, k2, rfl⟩ := h2
  exact ⟨v2, u2, a2, n2, k2, rfl⟩

theorem injectSheets_frame :
    ∀ (sheets : List UserStyleSheet) (c : DocumentStyleSheetCollection),
      OnlyInjectedCacheChanged c (injectSheets sheets c) := by
  intro sheets
  induction sheets with
  | nil => intro c; exact injectedCache_refl c
  | cons sheet rest ih =>
    intro c
    unfold injectSheets
    split
    · exact ih c
    · split
      · exact ih c
      · refine injectedCache_trans ?_ (ih _)
        by_cases hlevel : sheet.level = .UserStyleUserLevel
        · simp only [hlevel, decide_True, if_true]
          exact ⟨_, _, _, _, _, rfl⟩
        · simp only [hlevel, decide_False, Bool.false_eq_true, if_false]
          exact ⟨_, _, _, _, _, rfl⟩

theorem updateInjectedStyleSheetCache_frame (c : DocumentStyleSheetCollection) :
    OnlyInjectedCacheChanged c (updateInjectedStyleSheetCache c) := by
  unfold updateInjectedStyleSheetCache
  split
  · exact injectedCache_refl c
  · have h0 : OnlyInjectedCacheChanged c
        { c with m_injectedStyleSheetCacheValid := true,
                 m_injectedUserStyleSheets := [],
                 m_injectedAuthorStyleSheets := [] } := ⟨_, _, _, _, _, rfl⟩
    simp only []
    cases c.m_document.page with
    | none => exact h0
    | some owningPage => exact injectedCache_trans h0 (injectSheets_frame _ _)

/-- The member variables that `buildActiveStyleSheets` reads for the later analysis
and the observations of the document are as they were before it. -/
theorem buildActiveStyleSheets_frame (c : DocumentStyleSheetCollection) :
    ∃ c1, OnlyInjectedCacheChanged c c1 ∧
      OnlyNamesAndCallsChanged c1 (buildActiveStyleSheets c).collection := by
  refine ⟨updateInjectedStyleSheetCache c, updateInjectedStyleSheetCache_frame c, ?_⟩
  unfold buildActiveStyleSheets injectedAuthorStyleSheets
  exact collectStyleSheets_frame _ _ _

theorem buildActiveStyleSheets_hadActiveLoadingStylesheet (c : DocumentStyleSheetCollection) :
    (buildActiveStyleSheets c).collection.m_hadActiveLoadingStylesheet
      = c.m_hadActiveLoadingStylesheet := by
  obtain ⟨c1, ⟨v, u, a, n, k, rfl⟩, ⟨p, s, k2, h2⟩⟩ := buildActiveStyleSheets_frame c
  rw [h2]

theorem buildActiveStyleSheets_isLoading (c : DocumentStyleSheetCollection) :
    (buildActiveStyleSheets c).collection.m_document.isLoading = c.m_document.isLoading := by
  obtain ⟨c1, ⟨v, u, a, n, k, rfl⟩, ⟨p, s, k2, h2⟩⟩ := buildActiveStyleSheets_frame c
  rw [h2]

/-- The load-finished return of lines 344-347: the stored flag is cleared and the
out-parameters keep their initial values. -/
theorem analyzeStyleSheetChange_load_finished (c : DocumentStyleSheetCollection)
    (updateMode : StyleResolverUpdateMode) (newStylesheets : List CSSStyleSheet)
    (hhad : c.m_hadActiveLoadingStylesheet = true)
    (hnone : newStylesheets.any c.m_document.isLoading = false) :
    analyzeStyleSheetChange c updateMode newStylesheets
      = ⟨{ c with m_hadActiveLoadingStylesheet := false }, .Reconstruct, true⟩ := by
  unfold analyzeStyleSheetChange
  simp [hhad, hnone]

/-! ## Claims on updateActiveStyleSheets -/

/-- C4, as the code has it: when the stored had-active-loading flag is true and no
sheet of the new active list is loading, `analyzeStyleSheetChange` returns before
it compares the lists, clears the stored flag and reports Reconstruct with
requiresFullStyleRecalc = true; `updateActiveStyleSheets` then clears the style
resolver (it neither resets it nor appends to it), stores the new list and
returns true. -/
theorem updateActiveStyleSheets_load_finished (c : DocumentStyleSheetCollection)
    (updateMode : StyleResolverUpdateMode)
    (hrecalc : c.m_document.inStyleRecalc = false)
    (hrenderer : c.m_document.renderer = true)
    (hattached : c.m_document.attached = true)
    (hhad : c.m_hadActiveLoadingStylesheet = true)
    (hnone : (buildActiveStyleSheets c).activeSheets.any c.m_document.isLoading = false) :
    analyzeStyleSheetChange (buildActiveStyleSheets c).collection updateMode
        (buildActiveStyleSheets c).activeSheets
      = ⟨{ (buildActiveStyleSheets c).collection with m_hadActiveLoadingStylesheet := false },
          .Reconstruct, true⟩ ∧
    (updateActiveStyleSheets c updateMode).1 = true ∧
    (updateActiveStyleSheets c updateMode).2.m_hadActiveLoadingStylesheet = false ∧
    (updateActiveStyleSheets c updateMode).2.m_activeAuthorStyleSheets
      = (buildActiveStyleSheets c).activeSheets ∧
    (updateActiveStyleSheets c updateMode).2.m_document.calls
      = (buildActiveStyleSheets c).collection.m_document.calls ++
        [.clearStyleResolver,
         .activeStyleSheetsUpdated (buildActiveStyleSheets c).styleSheets,
         .notifySeamlessChildDocumentsOfStylesheetUpdate] := by
  have hchange := analyzeStyleSheetChange_load_finished (buildActiveStyleSheets c).collection
    updateMode (buildActiveStyleSheets c).activeSheets
    (by rw [buildActiveStyleSheets_hadActiveLoadingStylesheet]; exact hhad)
    (by rw [buildActiveStyleSheets_isLoading]; exact hnone)
  refine ⟨hchange, ?_⟩
  unfold updateActiveStyleSheets
  simp only [hrecalc, hrenderer, hattached, hchange, applyStyleResolverUpdate, Document.call]
  simp

/-- C4 instantiated: the stored list `[A]` is rebuilt unchanged after the flag was
set, and the resolver is cleared. -/
theorem updateActiveStyleSheets_load_finished_witness :
    collectionAfterLoad.m_hadActiveLoadingStylesheet = true ∧
    (buildActiveStyleSheets collectionAfterLoad).activeSheets.any
      collectionAfterLoad.m_document.isLoading = false ∧
    (updateActiveStyleSheets collectionAfterLoad .AnalyzedStyleUpdate).1 = true ∧
    (updateActiveStyleSheets collectionAfterLoad
      .AnalyzedStyleUpdate).2.m_hadActiveLoadingStylesheet = false ∧
    (updateActiveStyleSheets collectionAfterLoad .AnalyzedStyleUpdate).2.m_document.calls
      = [] ++ [.clearStyleResolver, .activeStyleSheetsUpdated [1],
         .notifySeamlessChildDocumentsOfStylesheetUpdate] :=
  have h := updateActiveStyleSheets_load_finished collectionAfterLoad .AnalyzedStyleUpdate
    rfl rfl rfl rfl (by decide)
  ⟨rfl, by decide, h.2.1, h.2.2.1, h.2.2.2.2⟩

/-- C4 as stated fails: with the stored flag set, the unchanged list `[A]` and no
sheet loading, the reported update type is Reconstruct with a full recalculation
and `updateActiveStyleSheets` calls `clearStyleResolver`. -/
theorem updateActiveStyleSheets_load_finished_clears_resolver :
    collectionAfterLoad.m_hadActiveLoadingStylesheet = true ∧
    collectionAfterLoad.m_activeAuthorStyleSheets = [1] ∧
    (buildActiveStyleSheets collectionAfterLoad).activeSheets = [1] ∧
    (buildActiveStyleSheets collectionAfterLoad).activeSheets.any
      collectionAfterLoad.m_document.isLoading = false ∧
    (analyzeStyleSheetChange (buildActiveStyleSheets collectionAfterLoad).collection
      .AnalyzedStyleUpdate [1]).styleResolverUpdateType = .Reconstruct ∧
    (analyzeStyleSheetChange (buildActiveStyleSheets collectionAfterLoad).collection
      .AnalyzedStyleUpdate [1]).requiresFullStyleRecalc = true ∧
    (updateActiveStyleSheets collectionAfterLoad .AnalyzedStyleUpdate).2.m_document.calls
      = [.clearStyleResolver, .activeStyleSheetsUpdated [1],
         .notifySeamlessChildDocumentsOfStylesheetUpdate] := by
  refine ⟨rfl, rfl, ?_, ?_, ?_, ?_, ?_⟩ <;> decide

/-- C5: whenever the document is in a style recalculation, for every collection
state and update mode, `updateActiveStyleSheets` returns false, leaves the stored
active author sheets and the script-visible sheet list unchanged, sets the
deferred-update flag and makes exactly one call, `scheduleForcedStyleRecalc`. -/
theorem updateActiveStyleSheets_in_style_recalc (c : DocumentStyleSheetCollection)
    (updateMode : StyleResolverUpdateMode)
    (hrecalc : c.m_document.inStyleRecalc = true) :
    (updateActiveStyleSheets c updateMode).1 = false ∧
    (updateActiveStyleSheets c updateMode).2.m_activeAuthorStyleSheets
      = c.m_activeAuthorStyleSheets ∧
    (updateActiveStyleSheets c updateMode).2.m_styleSheetsForStyleSheetList
      = c.m_styleSheetsForStyleSheetList ∧
    (updateActiveStyleSheets c updateMode).2.m_needsUpdateActiveStylesheetsOnStyleRecalc
      = true ∧
    (updateActiveStyleSheets c updateMode).2.m_document.calls
      = c.m_document.calls ++ [.scheduleForcedStyleRecalc] := by
  unfold updateActiveStyleSheets
  simp [hrecalc, Document.call]

/-- C5 instantiated on a collection with stored list `[A, B]`. -/
theorem updateActiveStyleSheets_in_style_recalc_witness :
    collectionInRecalc.m_document.inStyleRecalc = true ∧
    (updateActiveStyleSheets collectionInRecalc .AnalyzedStyleUpdate).1 = false ∧
    (updateActiveStyleSheets collectionInRecalc .AnalyzedStyleUpdate).2.m_activeAuthorStyleSheets
      = [1, 2] ∧
    (updateActiveStyleSheets collectionInRecalc .AnalyzedStyleUpdate).2.m_document.calls
      = [] ++ [.scheduleForcedStyleRecalc] :=
  have h := updateActiveStyleSheets_in_style_recalc collectionInRecalc .AnalyzedStyleUpdate rfl
  ⟨rfl, h.1, h.2.1, h.2.2.2.2⟩

/-! ## Lemmas on collectStyleSheets -/

theorem collectStyleSheets_eq_collectLoop (c : DocumentStyleSheetCollection)
    (styleSheets : List StyleSheet) (activeSheets : List CSSStyleSheet)
    (henabled : stylesDisabledBySettings c.m_document = false) :
    collectStyleSheets c styleSheets activeSheets
      = collectLoop c.m_styleSheetCandidateNodes c styleSheets activeSheets := by
  simp [collectStyleSheets, henabled]

/-- Either the loop over `pre` returned from inside, and then more candidates
change nothing, or it ran to the end, and then the loop over `pre ++ post`
continues with `post` from the state the loop over `pre` ended in. -/
theorem collectLoop_append_cases :
    ∀ (pre : List Node) (c : DocumentStyleSheetCollection) (styleSheets : List StyleSheet)
      (activeSheets : List CSSStyleSheet),
      (∀ post, collectLoop (pre ++ post) c styleSheets activeSheets
          = collectLoop pre c styleSheets activeSheets) ∨
      (∀ post, collectLoop (pre ++ post) c styleSheets activeSheets
          = collectLoop post (collectLoop pre c styleSheets activeSheets).collection
              (collectLoop pre c styleSheets activeSheets).styleSheets
              (collectLoop pre c styleSheets activeSheets).activeSheets) := by
  intro pre
  induction pre with
  | nil => intro c styleSheets activeSheets; right; intro post; rfl
  | cons m rest ih =>
    intro c styleSheets activeSheets
    cases hstep : collectNode c m with
    | abort c1 =>
      left
      intro post
      simp [collectLoop, hstep]
    | next c1 sheet activeSheet =>
      rcases ih c1 (appendIfNonNull styleSheets sheet)
        (appendIfNonNull activeSheets activeSheet) with h | h
      · left; intro post; simp only [List.cons_append, collectLoop, hstep]; exact h post
      · right; intro post; simp only [List.cons_append, collectLoop, hstep]; exact h post

/-- Once the preferred set name is non-empty, one iteration changes neither name. -/
theorem collectNode_names_kept (c : DocumentStyleSheetCollection) (n : Node)
    (h : c.m_preferredStylesheetSetName ≠ "") :
    (collectNode c n).collection.m_preferredStylesheetSetName
        = c.m_preferredStylesheetSetName ∧
      (collectNode c n).collection.m_selectedStylesheetSetName
        = c.m_selectedStylesheetSetName := by
  cases n with
  | processingInstruction pi =>
    simp only [collectNode]
    split_ifs <;> exact ⟨rfl, rfl⟩
  | htmlLink e =>
    simp only [collectNode, collectElement, isEmpty, h, decide_False, Bool.and_false,
      Bool.false_eq_true, if_false]
    split_ifs <;> exact ⟨rfl, rfl⟩
  | htmlStyle e =>
    simp only [collectNode, collectElement, isEmpty, h, decide_False, Bool.false_eq_true,
      if_false]
    split_ifs <;> exact ⟨rfl, rfl⟩
  | svgStyle e =>
    simp only [collectNode, collectElement, isEmpty, h, decide_False, Bool.false_eq_true,
      if_false]
    split_ifs <;> exact ⟨rfl, rfl⟩
  | other => exact ⟨rfl, rfl⟩

/-- Once the preferred set name is non-empty, the loop changes neither name. -/
theorem collectLoop_names_kept :
    ∀ (nodes : List Node) (c : DocumentStyleSheetCollection) (styleSheets : List StyleSheet)
      (activeSheets : List CSSStyleSheet),
      c.m_preferredStylesheetSetName ≠ "" →
      (collectLoop nodes c styleSheets activeSheets).collection.m_preferredStylesheetSetName
          = c.m_preferredStylesheetSetName ∧
        (collectLoop nodes c styleSheets activeSheets).collection.m_selectedStylesheetSetName
          = c.m_selectedStylesheetSetName := by
  intro nodes
  induction nodes with
  | nil => intro c _ _ _; exact ⟨rfl, rfl⟩
  | cons n rest ih =>
    intro c styleSheets activeSheets h
    have hn := collectNode_names_kept c n h
    unfold collectLoop
    cases hstep : collectNode c n with
    | abort c1 => simpa [hstep, CollectStep.collection] using hn
    | next c1 sheet activeSheet =>
      simp only [hstep, CollectStep.collection] at hn ⊢
      have h1 : c1.m_preferredStylesheetSetName ≠ "" := by rw [hn.1]; exact h
      have := ih c1 (appendIfNonNull styleSheets sheet)
        (appendIfNonNull activeSheets activeSheet) h1
      exact ⟨this.1.trans hn.1, this.2.trans hn.2⟩

/-! ## Claims on collectStyleSheets -/

/-- C6: for every list of candidate nodes and every state whose preferred
stylesheet set name is non-empty, `collectStyleSheets` leaves the preferred set
name unchanged, whatever the candidates are. -/
theorem collectStyleSheets_preferred_kept (c : DocumentStyleSheetCollection)
    (styleSheets : List StyleSheet) (activeSheets : List CSSStyleSheet)
    (hset : c.m_preferredStylesheetSetName ≠ "") :
    (collectStyleSheets c styleSheets activeSheets).collection.m_preferredStylesheetSetName
      = c.m_preferredStylesheetSetName := by
  unfold collectStyleSheets
  split
  · rfl
  · exact (collectLoop_names_kept _ c styleSheets activeSheets hset).1

/-- C6 instantiated: with preferred name "Main", candidates titled "Alt", "Main"
and "Other" leave it "Main". -/
theorem collectStyleSheets_preferred_kept_witness :
    collectionPreferringMain.m_preferredStylesheetSetName ≠ "" ∧
    (collectStyleSheets collectionPreferringMain [] []).collection.m_preferredStylesheetSetName
      = "Main" :=
  ⟨by decide, collectStyleSheets_preferred_kept collectionPreferringMain [] [] (by decide)⟩

theorem collectNode_offered (c : DocumentStyleSheetCollection) (n : Node)
    (hempty : c.m_preferredStylesheetSetName = "")
    (hscript : n.isEnabledViaScript = false)
    (howns : n.ownsSheetUnlessSkipped = true)
    (hgo : n.stopsCollection c.m_document.transformSourceDocument = false) :
    ∃ c1 sheet activeSheet, collectNode c n = .next c1 sheet activeSheet ∧
      match n.offeredPreferredName with
      | some title => title ≠ "" ∧ c1.m_preferredStylesheetSetName = title ∧
          c1.m_selectedStylesheetSetName = title
      | none => c1.m_preferredStylesheetSetName = "" := by
  cases n with
  | processingInstruction pi =>
    simp only [Node.stopsCollection] at hgo
    simp only [collectNode, hgo, Bool.false_eq_true, if_false, Node.offeredPreferredName]
    exact ⟨_, _, _, rfl, hempty⟩
  | htmlLink e =>
    obtain ⟨title, rel, evs, dis, loading, sheet⟩ := e
    simp only [Node.isEnabledViaScript] at hscript
    subst hscript
    simp only [Node.ownsSheetUnlessSkipped] at howns
    by_cases ht : title = "" <;> cases halt : contains rel "alternate" <;>
      cases dis <;> cases loading <;> cases sheet <;>
      simp_all [collectNode, collectElement, Node.offeredPreferredName, isEmpty]
  | htmlStyle e =>
    obtain ⟨title, rel, sheet⟩ := e
    simp only [Node.ownsSheetUnlessSkipped] at howns
    by_cases ht : title = "" <;> cases halt : contains rel "alternate" <;>
      cases sheet <;>
      simp_all [collectNode, collectElement, Node.offeredPreferredName, isEmpty]
  | svgStyle e =>
    obtain ⟨title, rel, sheet⟩ := e
    simp only [Node.ownsSheetUnlessSkipped] at howns
    by_cases ht : title = "" <;> cases halt : contains rel "alternate" <;>
      cases sheet <;>
      simp_all [collectNode, collectElement, Node.offeredPreferredName, isEmpty]
  | other =>
    exact ⟨_, _, _, rfl, hempty⟩

theorem collectNode_stops (c : DocumentStyleSheetCollection) (n : Node)
    (hstop : n.stopsCollection c.m_document.transformSourceDocument = true) :
    ∃ c1, collectNode c n = .abort c1 ∧
      c1.m_preferredStylesheetSetName = c.m_preferredStylesheetSetName := by
  cases n with
  | processingInstruction pi =>
    simp only [Node.stopsCollection] at hstop
    simp only [collectNode, hstop, if_true]
    split_ifs <;> exact ⟨_, rfl, rfl⟩
  | htmlLink e => simp [Node.stopsCollection] at hstop
  | htmlStyle e => simp [Node.stopsCollection] at hstop
  | svgStyle e => simp [Node.stopsCollection] at hstop
  | other => simp [Node.stopsCollection] at hstop

theorem collectLoop_preferred_rule :
    ∀ (nodes : List Node) (c : DocumentStyleSheetCollection) (styleSheets : List StyleSheet)
      (activeSheets : List CSSStyleSheet),
      c.m_preferredStylesheetSetName = "" →
      (∀ n ∈ nodes, n.isEnabledViaScript = false) →
      (∀ n ∈ nodes, n.ownsSheetUnlessSkipped = true) →
      match preferredCandidateTitle c.m_document.transformSourceDocument nodes with
      | some title =>
        (collectLoop nodes c styleSheets activeSheets).collection.m_preferredStylesheetSetName
            = title ∧
          (collectLoop nodes c styleSheets activeSheets).collection.m_selectedStylesheetSetName
            = title
      | none =>
        (collectLoop nodes c styleSheets activeSheets).collection.m_preferredStylesheetSetName
          = "" := by
  intro nodes
  induction nodes with
  | nil => intro c _ _ hempty _ _; exact hempty
  | cons n rest ih =>
    intro c styleSheets activeSheets hempty hscript howns
    cases hstop : n.stopsCollection c.m_document.transformSourceDocument with
    | true =>
      obtain ⟨c1, hstep, hpref⟩ := collectNode_stops c n hstop
      simp only [preferredCandidateTitle, hstop, if_true, collectLoop, hstep]
      rw [hpref]; exact hempty
    | false =>
      obtain ⟨c1, sheet, activeSheet, hstep, hnames⟩ := collectNode_offered c n hempty
        (hscript n (List.mem_cons_self _ _)) (howns n (List.mem_cons_self _ _)) hstop
      have hframe := collectNode_frame c n
      simp only [hstep, CollectStep.collection] at hframe
      cases hoff : n.offeredPreferredName with
      | some title =>
        simp only [hoff] at hnames
        simp only [preferredCandidateTitle, hstop, Bool.false_eq_true, if_false, hoff,
          collectLoop, hstep]
        have hkept := collectLoop_names_kept rest c1 (appendIfNonNull styleSheets sheet)
          (appendIfNonNull activeSheets activeSheet) (by rw [hnames.2.1]; exact hnames.1)
        exact ⟨hkept.1.trans hnames.2.1, hkept.2.trans hnames.2.2⟩
      | none =>
        simp only [hoff] at hnames
        simp only [preferredCandidateTitle, hstop, Bool.false_eq_true, if_false, hoff,
          collectLoop, hstep]
        have hdoc : c1.m_document.transformSourceDocument
            = c.m_document.transformSourceDocument := by
          obtain ⟨p, s, k, rfl⟩ := hframe
          rfl
        have := ih c1 (appendIfNonNull styleSheets sheet)
          (appendIfNonNull activeSheets activeSheet) hnames
          (fun m hm => hscript m (List.mem_cons_of_mem _ hm))
          (fun m hm => howns m (List.mem_cons_of_mem _ hm))
        rw [hdoc] at this
        exact this

/-- C7, as the code has it: starting from an empty preferred set name, with
author and user styles enabled, no candidate enabled via script, and every style
element and every link that is not both enabled and still loading owning a sheet,
`collectStyleSheets` sets the preferred name and the selected name to the title
of the first link or style candidate, in document order and before an XSL
processing instruction stops the pass, that has a non-empty title and is not
marked alternate (a style element is never alternate; an enabled link that is
still loading counts); if there is no such candidate the preferred name stays
empty. -/
theorem collectStyleSheets_preferred_rule (c : DocumentStyleSheetCollection)
    (styleSheets : List StyleSheet) (activeSheets : List CSSStyleSheet)
    (hempty : c.m_preferredStylesheetSetName = "")
    (henabled : stylesDisabledBySettings c.m_document = false)
    (hscript : ∀ n ∈ c.m_styleSheetCandidateNodes, n.isEnabledViaScript = false)
    (howns : ∀ n ∈ c.m_styleSheetCandidateNodes, n.ownsSheetUnlessSkipped = true) :
    match preferredCandidateTitle c.m_document.transformSourceDocument
      c.m_styleSheetCandidateNodes with
    | some title =>
      (collectStyleSheets c styleSheets activeSheets).collection.m_preferredStylesheetSetName
          = title ∧
        (collectStyleSheets c styleSheets activeSheets).collection.m_selectedStylesheetSetName
          = title
    | none =>
      (collectStyleSheets c styleSheets activeSheets).collection.m_preferredStylesheetSetName
        = "" := by
  rw [collectStyleSheets_eq_collectLoop c styleSheets activeSheets henabled]
  exact collectLoop_preferred_rule _ c styleSheets activeSheets hempty hscript howns

/-- C7 instantiated: the alternate link "Alt" is passed over and the still loading
link "Main" sets both names, before the style element "Other". -/
theorem collectStyleSheets_preferred_rule_witness :
    preferredCandidateTitle false candidatesWithLoadingLink = some "Main" ∧
    (collectStyleSheets collectionWithLoadingLink [] []).collection.m_preferredStylesheetSetName
      = "Main" ∧
    (collectStyleSheets collectionWithLoadingLink [] []).collection.m_selectedStylesheetSetName
      = "Main" :=
  ⟨by decide,
    collectStyleSheets_preferred_rule collectionWithLoadingLink [] [] rfl rfl
      (by decide) (by decide)⟩

/-- C7 as stated fails: a titled style element that owns no sheet is the first
candidate with a non-empty title that is not alternate, every hypothesis of the
claim holds, and yet `collectStyleSheets` leaves the preferred name empty. -/
theorem collectStyleSheets_preferred_rule_fails_without_sheet :
    collectionStyleWithoutSheet.m_preferredStylesheetSetName = "" ∧
    stylesDisabledBySettings collectionStyleWithoutSheet.m_document = false ∧
    (∀ n ∈ collectionStyleWithoutSheet.m_styleSheetCandidateNodes,
      n.isEnabledViaScript = false) ∧
    (∀ n ∈ collectionStyleWithoutSheet.m_styleSheetCandidateNodes,
      n.ownsSheetUnlessLoading = true) ∧
    preferredCandidateTitle collectionStyleWithoutSheet.m_document.transformSourceDocument
      collectionStyleWithoutSheet.m_styleSheetCandidateNodes = some "T" ∧
    (collectStyleSheets collectionStyleWithoutSheet [] []).collection.m_preferredStylesheetSetName
      = "" := by
  refine ⟨rfl, rfl, ?_, ?_, ?_, ?_⟩ <;> decide

/-! ## One iteration after any candidates -/

/-- The iteration for `n` after the candidates `pre`: either both vectors are as
after `pre` (the loop had returned, or returns now), or the iteration ends with
locals `sheet` and `activeSheet`, appends them, and the loop goes on from there. -/
theorem collectLoop_snoc (pre : List Node) (n : Node) (c : DocumentStyleSheetCollection)
    (styleSheets : List StyleSheet) (activeSheets : List CSSStyleSheet) :
    ((collectLoop (pre ++ [n]) c styleSheets activeSheets).styleSheets
        = (collectLoop pre c styleSheets activeSheets).styleSheets ∧
      (collectLoop (pre ++ [n]) c styleSheets activeSheets).activeSheets
        = (collectLoop pre c styleSheets activeSheets).activeSheets) ∨
    ∃ c1 sheet activeSheet,
      collectNode (collectLoop pre c styleSheets activeSheets).collection n
        = .next c1 sheet activeSheet ∧
      (collectLoop (pre ++ [n]) c styleSheets activeSheets).styleSheets
        = appendIfNonNull (collectLoop pre c styleSheets activeSheets).styleSheets sheet ∧
      (collectLoop (pre ++ [n]) c styleSheets activeSheets).activeSheets
        = appendIfNonNull (collectLoop pre c styleSheets activeSheets).activeSheets
            activeSheet ∧
      ∀ post, collectLoop (pre ++ n :: post) c styleSheets activeSheets
        = collectLoop post c1
            (appendIfNonNull (collectLoop pre c styleSheets activeSheets).styleSheets sheet)
            (appendIfNonNull (collectLoop pre c styleSheets activeSheets).activeSheets
              activeSheet) := by
  rcases collectLoop_append_cases pre c styleSheets activeSheets with h | h
  · left
    rw [h [n]]
    exact ⟨rfl, rfl⟩
  · cases hstep : collectNode (collectLoop pre c styleSheets activeSheets).collection n with
    | abort c1 =>
      left
      rw [h [n]]
      simp [collectLoop, hstep]
    | next c1 sheet activeSheet =>
      right
      refine ⟨c1, sheet, activeSheet, rfl, ?_, ?_, ?_⟩
      · rw [h [n]]; simp [collectLoop, hstep]
      · rw [h [n]]; simp [collectLoop, hstep]
      · intro post
        rw [h (n :: post)]
        simp [collectLoop, hstep]

/-- Lines 301-323: an element that was not enabled via script and keeps a non-null
`activeSheet` has an empty title or the title that is then the preferred name. -/
theorem collectElement_active_title (c : DocumentStyleSheetCollection)
    (hasLocalNameStyle : Bool) (title rel : String) (sheet : Option StyleSheet)
    (a : CSSStyleSheet)
    (h : (collectElement c hasLocalNameStyle title rel false sheet).activeSheet = some a) :
    title = "" ∨
      title = (collectElement c hasLocalNameStyle title rel false
        sheet).collection.m_preferredStylesheetSetName := by
  by_cases ht : title = ""
  · exact Or.inl ht
  · right
    cases sheet with
    | none => simp [collectElement, activeSheetOf, CollectStep.activeSheet] at h
    | some s =>
      revert h
      simp only [collectElement, isEmpty, ht, decide_False, Bool.not_false, Bool.and_true,
        Option.isSome_some, Bool.and_false, Bool.false_eq_true, if_false, if_true,
        CollectStep.activeSheet, CollectStep.collection]
      split_ifs <;> simp_all

/-- A link or style element that was not enabled via script and ends its
iteration with a non-null `activeSheet` has an empty title or the title that is
then the preferred set name. -/
theorem collectNode_active_title (c : DocumentStyleSheetCollection) (n : Node)
    (a : CSSStyleSheet)
    (hkind : n.isLinkOrStyle = true) (hscript : n.isEnabledViaScript = false)
    (h : (collectNode c n).activeSheet = some a) :
    n.title = "" ∨ n.title = (collectNode c n).collection.m_preferredStylesheetSetName := by
  cases n with
  | processingInstruction pi => simp [Node.isLinkOrStyle] at hkind
  | htmlLink e =>
    simp only [Node.isEnabledViaScript] at hscript
    simp only [Node.title]
    by_cases hskip : (!e.isDisabled && e.styleSheetIsLoading) = true
    · revert h
      simp only [collectNode, hskip, if_true]
      split_ifs <;> simp [CollectStep.activeSheet]
    · by_cases hsheet : e.sheet.isNone = true
      · revert h
        simp [collectNode, hskip, hsheet, hscript, collectElement, activeSheetOf,
          Option.isNone_iff_eq_none.mp hsheet, CollectStep.activeSheet]
      · revert h
        simp only [collectNode, hskip, hsheet, hscript, Bool.false_eq_true, if_false]
        exact collectElement_active_title c false e.title e.rel e.sheet a
  | htmlStyle e => exact collectElement_active_title c true e.title e.rel e.sheet a h
  | svgStyle e => exact collectElement_active_title c true e.title e.rel e.sheet a h
  | other => simp [Node.isLinkOrStyle] at hkind

theorem activeSheetOf_some (d : Document) (sheet : Option StyleSheet) (a : CSSStyleSheet)
    (h : activeSheetOf d sheet = some a) :
    sheet = some a ∧ d.disabled a = false ∧ d.isCSSStyleSheet a = true := by
  cases sheet with
  | none => simp [activeSheetOf] at h
  | some s =>
    simp only [activeSheetOf] at h
    split_ifs at h with hs
    simp only [Option.some.injEq] at h
    subst h
    simpa using hs

/-- Lines 301-323 never replace `activeSheet` by anything but null, and keep `sheet`. -/
theorem collectElement_active_sheet (c : DocumentStyleSheetCollection)
    (hasLocalNameStyle : Bool) (title rel : String) (enabledViaScript : Bool)
    (sheet : Option StyleSheet) (a : CSSStyleSheet)
    (h : (collectElement c hasLocalNameStyle title rel enabledViaScript sheet).activeSheet
      = some a) :
    (collectElement c hasLocalNameStyle title rel enabledViaScript sheet).sheet = some a ∧
      c.m_document.disabled a = false ∧ c.m_document.isCSSStyleSheet a = true := by
  have hsheet : (collectElement c hasLocalNameStyle title rel enabledViaScript sheet).sheet
      = sheet := by
    unfold collectElement
    split_ifs <;> rfl
  have hactive : activeSheetOf c.m_document sheet = some a := by
    revert h
    unfold collectElement
    simp only [CollectStep.activeSheet]
    split_ifs <;> simp
  rw [hsheet]
  exact activeSheetOf_some _ _ _ hactive

/-- An iteration that ends with a non-null `activeSheet` ends with the same pointer
in `sheet`, and that sheet is not disabled and is a CSS style sheet. -/
theorem collectNode_active_sheet (c : DocumentStyleSheetCollection) (n : Node)
    (a : CSSStyleSheet) (h : (collectNode c n).activeSheet = some a) :
    (collectNode c n).sheet = some a ∧
      c.m_document.disabled a = false ∧ c.m_document.isCSSStyleSheet a = true := by
  cases n with
  | processingInstruction pi =>
    revert h
    simp only [collectNode]
    split_ifs <;> simp only [CollectStep.activeSheet, CollectStep.sheet] <;>
      exact fun h => activeSheetOf_some _ _ _ h
  | htmlLink e =>
    revert h
    simp only [collectNode]
    split_ifs <;>
      first
        | exact collectElement_active_sheet _ _ _ _ _ _ a
        | simp [CollectStep.activeSheet]
  | htmlStyle e => exact collectElement_active_sheet _ _ _ _ _ _ a h
  | svgStyle e => exact collectElement_active_sheet _ _ _ _ _ _ a h
  | other => simp [collectNode, CollectStep.activeSheet] at h

/-- Lines 322-323: an untitled element whose rel contains "alternate" ends its
iteration with a null `activeSheet`. -/
theorem collectElement_alternate_untitled (c : DocumentStyleSheetCollection)
    (hasLocalNameStyle : Bool) (title rel : String) (enabledViaScript : Bool)
    (sheet : Option StyleSheet)
    (halt : contains rel "alternate" = true) (htitle : title = "") :
    (collectElement c hasLocalNameStyle title rel enabledViaScript sheet).activeSheet
      = none := by
  subst htitle
  simp [collectElement, isEmpty, halt, CollectStep.activeSheet]

theorem collectNode_alternate_untitled (c : DocumentStyleSheetCollection) (n : Node)
    (hkind : n.isLinkOrStyle = true)
    (halt : contains n.rel "alternate" = true) (htitle : n.title = "") :
    (collectNode c n).activeSheet = none := by
  cases n with
  | processingInstruction pi => simp [Node.isLinkOrStyle] at hkind
  | htmlLink e =>
    simp only [Node.rel] at halt
    simp only [Node.title] at htitle
    simp only [collectNode]
    split_ifs <;>
      first
        | rfl
        | exact collectElement_alternate_untitled _ _ _ _ _ _ halt (by simp [htitle])
  | htmlStyle e => exact collectElement_alternate_untitled _ _ _ _ _ _ halt htitle
  | svgStyle e => exact collectElement_alternate_untitled _ _ _ _ _ _ halt htitle
  | other => simp [Node.isLinkOrStyle] at hkind

theorem appendIfNonNull_eq_self (l : List Nat) (p : Option Nat)
    (h : appendIfNonNull l p ≠ l) : ∃ a, p = some a := by
  cases p with
  | none => exact absurd rfl h
  | some a => exact ⟨a, rfl⟩

/-- The sheets the loop adds to the active list are, in the same order, among the
sheets it adds to the full list, and each is enabled and a CSS style sheet. -/
theorem collectLoop_lists :
    ∀ (nodes : List Node) (c : DocumentStyleSheetCollection) (styleSheets : List StyleSheet)
      (activeSheets : List CSSStyleSheet),
      ∃ addedSheets addedActive,
        (collectLoop nodes c styleSheets activeSheets).styleSheets
          = styleSheets ++ addedSheets ∧
        (collectLoop nodes c styleSheets activeSheets).activeSheets
          = activeSheets ++ addedActive ∧
        addedActive.Sublist addedSheets ∧
        ∀ a ∈ addedActive,
          c.m_document.disabled a = false ∧ c.m_document.isCSSStyleSheet a = true := by
  intro nodes
  induction nodes with
  | nil => intro c styleSheets activeSheets; exact ⟨[], [], by simp [collectLoop]⟩
  | cons n rest ih =>
    intro c styleSheets activeSheets
    have hframe := collectNode_frame c n
    have hactive := collectNode_active_sheet c n
    cases hstep : collectNode c n with
    | abort c1 => exact ⟨[], [], by simp [collectLoop, hstep]⟩
    | next c1 sheet activeSheet =>
      simp only [hstep, CollectStep.collection, CollectStep.activeSheet, CollectStep.sheet]
        at hframe hactive
      obtain ⟨p, s, k, rfl⟩ := hframe
      obtain ⟨more, moreActive, h1, h2, h3, h4⟩ := ih _ (appendIfNonNull styleSheets sheet)
        (appendIfNonNull activeSheets activeSheet)
      simp only [collectLoop, hstep]
      cases activeSheet with
      | some a =>
        obtain ⟨hs, hd, hc⟩ := hactive a rfl
        subst hs
        refine ⟨a :: more, a :: moreActive, ?_, ?_, h3.cons₂ a, ?_⟩
        · rw [h1]; simp [appendIfNonNull]
        · rw [h2]; simp [appendIfNonNull]
        · intro b hb
          rcases List.mem_cons.mp hb with rfl | hb
          · exact ⟨hd, hc⟩
          · exact h4 b hb
      | none =>
        cases sheet with
        | some s1 =>
          refine ⟨s1 :: more, moreActive, ?_, ?_, h3.cons s1, h4⟩
          · rw [h1]; simp [appendIfNonNull]
          · rw [h2]; simp [appendIfNonNull]
        | none =>
          exact ⟨more, moreActive, by rw [h1]; simp [appendIfNonNull],
            by rw [h2]; simp [appendIfNonNull], h3, h4⟩

/-- C8, as the code has it: for every run of the loop of `collectStyleSheets`, a
link or style element that was not enabled via script and whose iteration
appends to the active list has an empty title or a title equal to the preferred
stylesheet set name the run ends with. -/
theorem collectLoop_active_title (c : DocumentStyleSheetCollection)
    (styleSheets : List StyleSheet) (activeSheets : List CSSStyleSheet)
    (pre post : List Node) (n : Node)
    (hkind : n.isLinkOrStyle = true)
    (hscript : n.isEnabledViaScript = false)
    (happended : (collectLoop (pre ++ [n]) c styleSheets activeSheets).activeSheets
      ≠ (collectLoop pre c styleSheets activeSheets).activeSheets) :
    n.title = "" ∨
      n.title = (collectLoop (pre ++ n :: post) c styleSheets
        activeSheets).collection.m_preferredStylesheetSetName := by
  rcases collectLoop_snoc pre n c styleSheets activeSheets with
    ⟨_, h⟩ | ⟨c1, sheet, activeSheet, hstep, _, hact, hpost⟩
  · exact absurd h happended
  · rw [hact] at happended
    obtain ⟨a, rfl⟩ := appendIfNonNull_eq_self _ _ happended
    have htitle := collectNode_active_title
      (collectLoop pre c styleSheets activeSheets).collection n a hkind hscript
      (by rw [hstep]; rfl)
    rw [hstep] at htitle
    simp only [CollectStep.collection] at htitle
    rcases htitle with h | h
    · exact Or.inl h
    · by_cases hempty : n.title = ""
      · exact Or.inl hempty
      · right
        rw [hpost post]
        rw [(collectLoop_names_kept post c1 _ _ (by rw [← h]; exact hempty)).1]
        exact h

/-- C8 instantiated: the link titled "Main" is appended and "Main" is the
preferred name at the end, also after a style element titled "Other". -/
theorem collectLoop_active_title_witness :
    (collectLoop ([] ++ [linkMain]) (newCollection idleDocument) [] []).activeSheets
      ≠ (collectLoop [] (newCollection idleDocument) [] []).activeSheets ∧
    (linkMain.title = "" ∨
      linkMain.title = (collectLoop ([] ++ linkMain :: [.htmlStyle ⟨"Other", "", some 2⟩])
        (newCollection idleDocument) [] []).collection.m_preferredStylesheetSetName) :=
  ⟨by decide,
    collectLoop_active_title (newCollection idleDocument) [] [] []
      [.htmlStyle ⟨"Other", "", some 2⟩] linkMain rfl rfl (by decide)⟩

/-- C8 as stated fails: the sheet of a link enabled via script is appended to the
active list although its title "X" is neither empty nor the preferred name. -/
theorem collectLoop_active_title_fails_enabled_via_script :
    linkEnabledViaScript.isLinkOrStyle = true ∧
    (collectLoop ([] ++ [linkEnabledViaScript]) (newCollection idleDocument) [] []).activeSheets
      ≠ (collectLoop [] (newCollection idleDocument) [] []).activeSheets ∧
    (collectStyleSheets
      { newCollection idleDocument with m_styleSheetCandidateNodes := [linkEnabledViaScript] }
      [] []).activeSheets = [1] ∧
    ¬ (linkEnabledViaScript.title = "" ∨
      linkEnabledViaScript.title = (collectLoop ([] ++ linkEnabledViaScript :: [])
        (newCollection idleDocument) [] []).collection.m_preferredStylesheetSetName) := by
  refine ⟨rfl, ?_, ?_, ?_⟩ <;> decide

/-- C9: for every run of the loop of `collectStyleSheets` and every state, the
iteration for a link or style element whose rel contains "alternate" and whose
title is empty leaves the active list as it was, whatever the preferred set name
is and whether or not the element was enabled via script. -/
theorem collectLoop_alternate_untitled (c : DocumentStyleSheetCollection)
    (styleSheets : List StyleSheet) (activeSheets : List CSSStyleSheet)
    (pre : List Node) (n : Node)
    (hkind : n.isLinkOrStyle = true)
    (halt : contains n.rel "alternate" = true)
    (htitle : n.title = "") :
    (collectLoop (pre ++ [n]) c styleSheets activeSheets).activeSheets
      = (collectLoop pre c styleSheets activeSheets).activeSheets := by
  rcases collectLoop_snoc pre n c styleSheets activeSheets with
    ⟨_, h⟩ | ⟨c1, sheet, activeSheet, hstep, _, hact, _⟩
  · exact h
  · have hnone := collectNode_alternate_untitled
      (collectLoop pre c styleSheets activeSheets).collection n hkind halt htitle
    rw [hstep] at hnone
    simp only [CollectStep.activeSheet] at hnone
    rw [hact, hnone]
    rfl

/-- C9 instantiated: an untitled alternate link that was enabled via script and
owns an enabled CSS sheet is not appended after the link "Main". -/
theorem collectLoop_alternate_untitled_witness :
    contains linkUntitledAlternate.rel "alternate" = true ∧
    (collectLoop ([linkMain] ++ [linkUntitledAlternate]) (newCollection idleDocument)
      [] []).activeSheets
      = (collectLoop [linkMain] (newCollection idleDocument) [] []).activeSheets :=
  ⟨by decide,
    collectLoop_alternate_untitled (newCollection idleDocument) [] [] [linkMain]
      linkUntitledAlternate rfl (by decide) rfl⟩

/-- C10: `collectStyleSheets` only appends to the two vectors; the sheets it adds
to the active list are, in the same order, among those it adds to the full list,
and each is not disabled and is a CSS style sheet.  Step by step: the iteration
for a node after any candidates either leaves the active list as it was or
appends one sheet, which it appends to the full list as well. -/
theorem collectStyleSheets_active_sublist (c : DocumentStyleSheetCollection)
    (styleSheets : List StyleSheet) (activeSheets : List CSSStyleSheet) :
    (∃ addedSheets addedActive,
      (collectStyleSheets c styleSheets activeSheets).styleSheets
        = styleSheets ++ addedSheets ∧
      (collectStyleSheets c styleSheets activeSheets).activeSheets
        = activeSheets ++ addedActive ∧
      addedActive.Sublist addedSheets ∧
      ∀ a ∈ addedActive,
        c.m_document.disabled a = false ∧ c.m_document.isCSSStyleSheet a = true) ∧
    ∀ (pre : List Node) (n : Node),
      (collectLoop (pre ++ [n]) c styleSheets activeSheets).activeSheets
        = (collectLoop pre c styleSheets activeSheets).activeSheets ∨
      ∃ a,
        (collectLoop (pre ++ [n]) c styleSheets activeSheets).activeSheets
          = (collectLoop pre c styleSheets activeSheets).activeSheets ++ [a] ∧
        (collectLoop (pre ++ [n]) c styleSheets activeSheets).styleSheets
          = (collectLoop pre c styleSheets activeSheets).styleSheets ++ [a] ∧
        c.m_document.disabled a = false ∧ c.m_document.isCSSStyleSheet a = true := by
  constructor
  · unfold collectStyleSheets
    split
    · exact ⟨[], [], by simp⟩
    · exact collectLoop_lists _ c styleSheets activeSheets
  · intro pre n
    rcases collectLoop_snoc pre n c styleSheets activeSheets with
      ⟨_, h⟩ | ⟨c1, sheet, activeSheet, hstep, hsheet, hact, _⟩
    · exact Or.inl h
    · cases activeSheet with
      | none => left; rw [hact]; rfl
      | some a =>
        right
        have hactive := collectNode_active_sheet
          (collectLoop pre c styleSheets activeSheets).collection n a (by rw [hstep]; rfl)
        rw [hstep] at hactive
        simp only [CollectStep.sheet] at hactive
        obtain ⟨p, s, k, hc⟩ := collectLoop_frame pre c styleSheets activeSheets
        rw [hc] at hactive
        refine ⟨a, ?_, ?_, hactive.2.1, hactive.2.2⟩
        · rw [hact]; rfl
        · rw [hsheet, hactive.1]; rfl

/-! ## The XSL processing instruction -/

/-- A node that does not stop the pass ends its iteration without a call on the
document. -/
theorem collectNode_continues (c : DocumentStyleSheetCollection) (n : Node)
    (hgo : n.stopsCollection c.m_document.transformSourceDocument = false) :
    ∃ c1 sheet activeSheet, collectNode c n = .next c1 sheet activeSheet ∧
      c1.m_document = c.m_document := by
  cases n with
  | processingInstruction pi =>
    simp only [Node.stopsCollection] at hgo
    simp only [collectNode, hgo, Bool.false_eq_true, if_false]
    exact ⟨_, _, _, rfl, rfl⟩
  | htmlLink e =>
    simp only [collectNode, collectElement]
    split_ifs <;> exact ⟨_, _, _, rfl, rfl⟩
  | htmlStyle e =>
    simp only [collectNode, collectElement]
    split_ifs <;> exact ⟨_, _, _, rfl, rfl⟩
  | svgStyle e =>
    simp only [collectNode, collectElement]
    split_ifs <;> exact ⟨_, _, _, rfl, rfl⟩
  | other => exact ⟨_, _, _, rfl, rfl⟩

/-- When no candidate of `pre` stops the pass, the loop over `pre ++ post` goes on
with `post` from the state after `pre`, and the document is as before. -/
theorem collectLoop_reaches :
    ∀ (pre : List Node) (c : DocumentStyleSheetCollection) (styleSheets : List StyleSheet)
      (activeSheets : List CSSStyleSheet),
      (∀ m ∈ pre, m.stopsCollection c.m_document.transformSourceDocument = false) →
      (∀ post, collectLoop (pre ++ post) c styleSheets activeSheets
          = collectLoop post (collectLoop pre c styleSheets activeSheets).collection
              (collectLoop pre c styleSheets activeSheets).styleSheets
              (collectLoop pre c styleSheets activeSheets).activeSheets) ∧
        (collectLoop pre c styleSheets activeSheets).collection.m_document
          = c.m_document := by
  intro pre
  induction pre with
  | nil => intro c styleSheets activeSheets _; exact ⟨fun _ => rfl, rfl⟩
  | cons m rest ih =>
    intro c styleSheets activeSheets hgo
    obtain ⟨c1, sheet, activeSheet, hstep, hdoc⟩ :=
      collectNode_continues c m (hgo m (List.mem_cons_self _ _))
    have hrest := ih c1 (appendIfNonNull styleSheets sheet)
      (appendIfNonNull activeSheets activeSheet)
      (fun k hk => by rw [hdoc]; exact hgo k (List.mem_cons_of_mem _ hk))
    simp only [List.cons_append, collectLoop, hstep]
    exact ⟨hrest.1, hrest.2.trans hdoc⟩

/-- C11: when the loop of `collectStyleSheets` reaches a processing instruction
that is XSL while the document has no transform source document, the pass stops:
both vectors and both set names are as they were after the candidates before it,
whatever candidates follow, and the calls of the whole pass are one
`applyXSLTransform` for that instruction if the document is not parsing and none
at all if it is parsing. -/
theorem collectStyleSheets_xsl_stops (c : DocumentStyleSheetCollection)
    (styleSheets : List StyleSheet) (activeSheets : List CSSStyleSheet)
    (pre post : List Node) (pi : ProcessingInstruction)
    (henabled : stylesDisabledBySettings c.m_document = false)
    (hnodes : c.m_styleSheetCandidateNodes = pre ++ .processingInstruction pi :: post)
    (hreach : ∀ m ∈ pre, m.stopsCollection c.m_document.transformSourceDocument = false)
    (hxsl : pi.isXSL = true)
    (hsource : c.m_document.transformSourceDocument = false) :
    (collectStyleSheets c styleSheets activeSheets).styleSheets
      = (collectLoop pre c styleSheets activeSheets).styleSheets ∧
    (collectStyleSheets c styleSheets activeSheets).activeSheets
      = (collectLoop pre c styleSheets activeSheets).activeSheets ∧
    (collectStyleSheets c styleSheets activeSheets).collection.m_preferredStylesheetSetName
      = (collectLoop pre c styleSheets activeSheets).collection.m_preferredStylesheetSetName ∧
    (collectStyleSheets c styleSheets activeSheets).collection.m_selectedStylesheetSetName
      = (collectLoop pre c styleSheets activeSheets).collection.m_selectedStylesheetSetName ∧
    (collectStyleSheets c styleSheets activeSheets).collection.m_document.calls
      = c.m_document.calls ++
        (if c.m_document.parsing then [] else [.applyXSLTransform pi]) := by
  obtain ⟨hpost, hdoc⟩ := collectLoop_reaches pre c styleSheets activeSheets hreach
  rw [collectStyleSheets_eq_collectLoop c styleSheets activeSheets henabled, hnodes, hpost]
  simp only [collectLoop, collectNode, hxsl, hdoc, hsource, Bool.not_false, Bool.and_true,
    if_true]
  cases hparsing : c.m_document.parsing <;> simp [hdoc, Document.call]

/-- C11 instantiated: after a style element owning the sheet `1`, the XSL
processing instruction stops the pass; the link after it adds no sheet and sets
no preferred name, and the transform is requested once. -/
theorem collectStyleSheets_xsl_stops_witness :
    (collectStyleSheets collectionWithXSL [] []).styleSheets = [1] ∧
    (collectStyleSheets collectionWithXSL [] []).activeSheets = [1] ∧
    (collectStyleSheets collectionWithXSL [] []).collection.m_preferredStylesheetSetName
      = "" ∧
    (collectStyleSheets collectionWithXSL [] []).collection.m_selectedStylesheetSetName
      = "" ∧
    (collectStyleSheets collectionWithXSL [] []).collection.m_document.calls
      = [] ++ [.applyXSLTransform ⟨true, some 7⟩] :=
  collectStyleSheets_xsl_stops collectionWithXSL [] [] [.htmlStyle ⟨"", "", some 1⟩]
    [.htmlLink ⟨"Main", "stylesheet", false, false, false, some 2⟩] ⟨true, some 7⟩
    rfl rfl (by decide) rfl rfl

/-! ## The stored active list after updateActiveStyleSheets -/

/-- The loop appends to the vectors it is given: started on other vectors it adds
the same sheets and ends in the same collection. -/
theorem collectLoop_append_lists :
    ∀ (nodes : List Node) (c : DocumentStyleSheetCollection) (styleSheets : List StyleSheet)
      (activeSheets : List CSSStyleSheet),
      collectLoop nodes c styleSheets activeSheets
        = ⟨(collectLoop nodes c [] []).collection,
            styleSheets ++ (collectLoop nodes c [] []).styleSheets,
            activeSheets ++ (collectLoop nodes c [] []).activeSheets⟩ := by
  intro nodes
  induction nodes with
  | nil => intro c styleSheets activeSheets; simp [collectLoop]
  | cons n rest ih =>
    intro c styleSheets activeSheets
    cases hstep : collectNode c n with
    | abort c1 => simp [collectLoop, hstep]
    | next c1 sheet activeSheet =>
      simp only [collectLoop, hstep]
      rw [ih c1 (appendIfNonNull styleSheets sheet) (appendIfNonNull activeSheets activeSheet),
        ih c1 (appendIfNonNull [] sheet) (appendIfNonNull [] activeSheet)]
      cases sheet <;> cases activeSheet <;> simp [appendIfNonNull]

theorem collectStyleSheets_append_lists (c : DocumentStyleSheetCollection)
    (styleSheets : List StyleSheet) (activeSheets : List CSSStyleSheet) :
    collectStyleSheets c styleSheets activeSheets
      = ⟨(collectStyleSheets c [] []).collection,
          styleSheets ++ (collectStyleSheets c [] []).styleSheets,
          activeSheets ++ (collectStyleSheets c [] []).activeSheets⟩ := by
  unfold collectStyleSheets
  split
  · simp
  · exact collectLoop_append_lists _ c styleSheets activeSheets

/-- The local `activeCSSStyleSheets` of `updateActiveStyleSheets` after line 427:
injected author sheets, document author sheets, sheets of the seamless parent,
then the active sheets collected from the candidate nodes. -/
theorem buildActiveStyleSheets_activeSheets (c : DocumentStyleSheetCollection) :
    (buildActiveStyleSheets c).activeSheets
      = ((injectedAuthorStyleSheets c).1 ++ documentAuthorStyleSheets c ++
          seamlessParentSheets c.m_document) ++
        (collectStyleSheets (updateInjectedStyleSheetCache c) [] []).activeSheets := by
  obtain ⟨v, u, a, n, k, hc⟩ := updateInjectedStyleSheetCache_frame c
  unfold buildActiveStyleSheets
  simp only [injectedAuthorStyleSheets]
  rw [collectStyleSheets_append_lists]
  simp only [documentAuthorStyleSheets, seamlessParentSheets,
    collectActiveCSSStyleSheetsFromSeamlessParents, List.nil_append]
  rw [hc]
  cases c.m_document.seamlessParentIFrame <;> simp

/-- A completed `updateActiveStyleSheets` stores the list built in lines 422-427. -/
theorem updateActiveStyleSheets_stores_built (c : DocumentStyleSheetCollection)
    (updateMode : StyleResolverUpdateMode)
    (hrecalc : c.m_document.inStyleRecalc = false)
    (hrenderer : c.m_document.renderer = true)
    (hattached : c.m_document.attached = true) :
    (updateActiveStyleSheets c updateMode).2.m_activeAuthorStyleSheets
      = (buildActiveStyleSheets c).activeSheets := by
  unfold updateActiveStyleSheets
  simp [hrecalc, hrenderer, hattached]

/-- C12 as stated fails: the injected user-level sheet `1000` is in the cache of
user sheets but not in the active list that a completed `updateActiveStyleSheets`
stores. -/
theorem updateActiveStyleSheets_omits_injected_user_sheets :
    collectionWithInjectedSheets.m_document.inStyleRecalc = false ∧
    collectionWithInjectedSheets.m_document.renderer = true ∧
    collectionWithInjectedSheets.m_document.attached = true ∧
    (injectedUserStyleSheets collectionWithInjectedSheets).1 = [1000] ∧
    (updateActiveStyleSheets collectionWithInjectedSheets
      .AnalyzedStyleUpdate).2.m_injectedUserStyleSheets = [1000] ∧
    1000 ∉ (updateActiveStyleSheets collectionWithInjectedSheets
      .AnalyzedStyleUpdate).2.m_activeAuthorStyleSheets := by
  refine ⟨rfl, rfl, rfl, ?_, ?_, ?_⟩ <;> decide

/-! ## The out-parameters of analyzeStyleSheetChange -/

/-- The two ways `analyzeStyleSheetChange` ends: with the initial `Reconstruct` and
`true`, or after a successful comparison of the lists, with the update type of
line 379 and a full recalculation unless lines 382-388 run through. -/
theorem analyzeStyleSheetChange_cases (c : DocumentStyleSheetCollection)
    (updateMode : StyleResolverUpdateMode) (newStylesheets : List CSSStyleSheet) :
    ((analyzeStyleSheetChange c updateMode newStylesheets).styleResolverUpdateType
        = .Reconstruct ∧
      (analyzeStyleSheetChange c updateMode newStylesheets).requiresFullStyleRecalc
        = true) ∨
    ∃ added news,
      matchOldSheets c.m_document c.m_activeAuthorStyleSheets newStylesheets []
        = some (added, news) ∧
      (analyzeStyleSheetChange c updateMode newStylesheets).styleResolverUpdateType
        = (if added = [] then .Additive else .Reset) ∧
      (analyzeStyleSheetChange c updateMode newStylesheets).requiresFullStyleRecalc
        = (!c.m_document.body || c.m_document.hasNodesWithPlaceholderStyle ||
            c.m_document.dirtiesAllStyle (added ++ news.map c.m_document.contents)) := by
  unfold analyzeStyleSheetChange
  simp only []
  split
  · exact Or.inl ⟨rfl, rfl⟩
  · split
    · exact Or.inl ⟨rfl, rfl⟩
    · split
      · exact Or.inl ⟨rfl, rfl⟩
      · split
        · exact Or.inl ⟨rfl, rfl⟩
        · split
          · exact Or.inl ⟨rfl, rfl⟩
          · rename_i added news hm
            refine Or.inr ⟨added, news, hm, ?_, ?_⟩
            · cases added <;> (split_ifs <;> simp_all)
            · cases hb : c.m_document.body <;>
                cases hp : c.m_document.hasNodesWithPlaceholderStyle <;>
                cases hd : c.m_document.dirtiesAllStyle
                  (added ++ List.map c.m_document.contents news) <;>
                simp [hb, hp, hd]

/-- C13: for every input, `analyzeStyleSheetChange` yields
requiresFullStyleRecalc = false exactly when the update type is Additive or
Reset, the document has a body and no nodes with placeholder style, and the
invalidation analysis of the added sheets does not dirty all style; otherwise it
yields true, and Reconstruct always comes with true. -/
theorem analyzeStyleSheetChange_requiresFullStyleRecalc (c : DocumentStyleSheetCollection)
    (updateMode : StyleResolverUpdateMode) (newStylesheets : List CSSStyleSheet) :
    ((analyzeStyleSheetChange c updateMode newStylesheets).requiresFullStyleRecalc = false ↔
      (((analyzeStyleSheetChange c updateMode newStylesheets).styleResolverUpdateType
            = .Additive ∨
          (analyzeStyleSheetChange c updateMode newStylesheets).styleResolverUpdateType
            = .Reset) ∧
        c.m_document.body = true ∧
        c.m_document.hasNodesWithPlaceholderStyle = false ∧
        c.m_document.dirtiesAllStyle (addedSheets c newStylesheets) = false)) ∧
    ((analyzeStyleSheetChange c updateMode newStylesheets).styleResolverUpdateType
        = .Reconstruct →
      (analyzeStyleSheetChange c updateMode newStylesheets).requiresFullStyleRecalc
        = true) := by
  rcases analyzeStyleSheetChange_cases c updateMode newStylesheets with
    ⟨ht, hr⟩ | ⟨added, news, hm, ht, hr⟩
  · rw [ht, hr]; simp
  · rw [ht, hr]
    simp only [addedSheets, hm]
    cases added <;> simp [and_assoc]

/-! ## The injected sheet cache -/

theorem injectSheets_valid :
    ∀ (sheets : List UserStyleSheet) (c : DocumentStyleSheetCollection),
      (injectSheets sheets c).m_injectedStyleSheetCacheValid
        = c.m_injectedStyleSheetCacheValid := by
  intro sheets
  induction sheets with
  | nil => intro c; rfl
  | cons sheet rest ih =>
    intro c
    unfold injectSheets
    split
    · exact ih c
    · split
      · exact ih c
      · rw [ih]
        split <;> rfl

/-- After `updateInjectedStyleSheetCache` the cache is marked valid. -/
theorem updateInjectedStyleSheetCache_valid (c : DocumentStyleSheetCollection) :
    (updateInjectedStyleSheetCache c).m_injectedStyleSheetCacheValid = true := by
  unfold updateInjectedStyleSheetCache
  split
  · assumption
  · simp only []
    cases c.m_document.page with
    | none => rfl
    | some owningPage => rw [injectSheets_valid]

/-- A valid cache is left alone. -/
theorem updateInjectedStyleSheetCache_of_valid (c : DocumentStyleSheetCollection)
    (h : c.m_injectedStyleSheetCacheValid = true) :
    updateInjectedStyleSheetCache c = c := by
  simp [updateInjectedStyleSheetCache, h]

/-- C14: for every state, a read of either injected sheet list that follows an
earlier read with no invalidation in between returns the lists of the earlier
read, also when the injection descriptors of the page were replaced in between:
once the cache is valid, `updateInjectedStyleSheetCache` changes nothing. -/
theorem injectedStyleSheets_read_twice (c : DocumentStyleSheetCollection)
    (page : Option Page) :
    updateInjectedStyleSheetCache (updateInjectedStyleSheetCache c)
      = updateInjectedStyleSheetCache c ∧
    (injectedUserStyleSheets (injectedUserStyleSheets c).2).1
      = (injectedUserStyleSheets c).1 ∧
    (injectedAuthorStyleSheets (injectedAuthorStyleSheets c).2).1
      = (injectedAuthorStyleSheets c).1 ∧
    (injectedAuthorStyleSheets (injectedUserStyleSheets c).2).1
      = (injectedAuthorStyleSheets c).1 ∧
    (injectedUserStyleSheets (injectedAuthorStyleSheets c).2).1
      = (injectedUserStyleSheets c).1 ∧
    (injectedUserStyleSheets
      { updateInjectedStyleSheetCache c with
        m_document := { (updateInjectedStyleSheetCache c).m_document with page := page } }).1
      = (injectedUserStyleSheets c).1 ∧
    (injectedAuthorStyleSheets
      { updateInjectedStyleSheetCache c with
        m_document := { (updateInjectedStyleSheetCache c).m_document with page := page } }).1
      = (injectedAuthorStyleSheets c).1 := by
  have hvalid := updateInjectedStyleSheetCache_valid c
  have hagain := updateInjectedStyleSheetCache_of_valid _ hvalid
  have hpage := updateInjectedStyleSheetCache_of_valid
    { updateInjectedStyleSheetCache c with
      m_document := { (updateInjectedStyleSheetCache c).m_document with page := page } }
    hvalid
  simp only [injectedUserStyleSheets, injectedAuthorStyleSheets, hagain, hpage, and_self]

theorem range_succ_cons (n k : Nat) : List.range' n (k + 1) = n :: List.range' (n + 1) k := by
  simp [List.range'_succ]

theorem injectSheets_cons_skipped (sheet : UserStyleSheet) (rest : List UserStyleSheet)
    (c : DocumentStyleSheetCollection) (hskip : isSkipped c.m_document sheet = true) :
    injectSheets (sheet :: rest) c = injectSheets rest c := by
  simp only [isSkipped, Bool.or_eq_true] at hskip
  by_cases h1 : (decide (sheet.injectedFrames = .InjectInTopFrameOnly) &&
      c.m_document.ownerElement) = true
  · simp only [injectSheets]
    rw [if_pos h1]
  · have h2 := hskip.resolve_left h1
    simp only [injectSheets]
    rw [if_neg h1, if_pos h2]

theorem injectSheets_cons_kept (sheet : UserStyleSheet) (rest : List UserStyleSheet)
    (c : DocumentStyleSheetCollection) (hskip : isSkipped c.m_document sheet = false) :
    injectSheets (sheet :: rest) c = injectSheets rest (injectOne sheet c) := by
  simp only [isSkipped, Bool.or_eq_false_iff] at hskip
  simp only [injectSheets]
  rw [if_neg (by simp [hskip.1]), if_neg (by simp [hskip.2])]
  rfl

theorem injectOne_nextSheet (sheet : UserStyleSheet) (c : DocumentStyleSheetCollection) :
    (injectOne sheet c).m_document.nextSheet = c.m_document.nextSheet + 1 := rfl

theorem injectOne_keptDescriptors (sheet : UserStyleSheet) (c : DocumentStyleSheetCollection)
    (sheets : List UserStyleSheet) :
    keptDescriptors (injectOne sheet c).m_document sheets
      = keptDescriptors c.m_document sheets := rfl

theorem injectOne_calls (sheet : UserStyleSheet) (c : DocumentStyleSheetCollection) :
    (injectOne sheet c).m_document.calls
      = c.m_document.calls ++ injectionCalls (sheet, c.m_document.nextSheet) := by
  simp [injectOne, Document.call, Document.createInline, injectionCalls]

theorem injectOne_user (sheet : UserStyleSheet) (c : DocumentStyleSheetCollection) :
    (injectOne sheet c).m_injectedUserStyleSheets
      = c.m_injectedUserStyleSheets ++
        (if sheet.level = .UserStyleUserLevel then [c.m_document.nextSheet] else []) := by
  by_cases h : sheet.level = .UserStyleUserLevel <;>
    simp [injectOne, h, Document.createInline]

theorem injectOne_author (sheet : UserStyleSheet) (c : DocumentStyleSheetCollection) :
    (injectOne sheet c).m_injectedAuthorStyleSheets
      = c.m_injectedAuthorStyleSheets ++
        (if sheet.level = .UserStyleUserLevel then [] else [c.m_document.nextSheet]) := by
  by_cases h : sheet.level = .UserStyleUserLevel <;>
    simp [injectOne, h, Document.createInline]

/-- The loop of lines 164-178 appends, for every kept descriptor in registry
order, one new sheet to the list of its level and logs how the sheet is built. -/
theorem injectSheets_lists :
    ∀ (sheets : List UserStyleSheet) (c : DocumentStyleSheetCollection),
      (injectSheets sheets c).m_injectedUserStyleSheets
        = c.m_injectedUserStyleSheets ++
          ((injectedSheetsFor c.m_document sheets).filter
            fun entry => decide (entry.1.level = .UserStyleUserLevel)).map Prod.snd ∧
      (injectSheets sheets c).m_injectedAuthorStyleSheets
        = c.m_injectedAuthorStyleSheets ++
          ((injectedSheetsFor c.m_document sheets).filter
            fun entry => !decide (entry.1.level = .UserStyleUserLevel)).map Prod.snd ∧
      (injectSheets sheets c).m_document.calls
        = c.m_document.calls ++
          ((injectedSheetsFor c.m_document sheets).map injectionCalls).flatten := by
  intro sheets
  induction sheets with
  | nil => intro c; simp [injectSheets, injectedSheetsFor, keptDescriptors]
  | cons sheet rest ih =>
    intro c
    cases hskip : isSkipped c.m_document sheet with
    | true =>
      have hkept : keptDescriptors c.m_document (sheet :: rest)
          = keptDescriptors c.m_document rest := by
        simp [keptDescriptors, hskip]
      rw [injectSheets_cons_skipped sheet rest c hskip]
      simp only [injectedSheetsFor, hkept]
      exact ih c
    | false =>
      have hkept : keptDescriptors c.m_document (sheet :: rest)
          = sheet :: keptDescriptors c.m_document rest := by
        simp [keptDescriptors, hskip]
      have hrest : injectedSheetsFor (injectOne sheet c).m_document rest
          = (keptDescriptors c.m_document rest).zip
              (List.range' (c.m_document.nextSheet + 1)
                (keptDescriptors c.m_document rest).length) := by
        simp only [injectedSheetsFor, injectOne_keptDescriptors, injectOne_nextSheet]
      obtain ⟨huser, hauthor, hcalls⟩ := ih (injectOne sheet c)
      rw [injectSheets_cons_kept sheet rest c hskip, huser, hauthor, hcalls, hrest,
        injectOne_user, injectOne_author, injectOne_calls]
      simp only [injectedSheetsFor, hkept, List.length_cons, range_succ_cons,
        List.zip_cons_cons]
      by_cases hlevel : sheet.level = .UserStyleUserLevel <;> simp [hlevel]

/-- C15: the first read after `invalidateInjectedStyleSheetCache` marks the cache
valid and rebuilds both lists from nothing, whatever they held before.  With no
owning page both are empty.  With a page, one new sheet is created for every
descriptor that is not skipped, in registry order, and built from the URL and
source of its descriptor; a descriptor is skipped iff it is for the top frame
only and the document has an owner element, or the URL of the document fails its
patterns; the sheet goes to the user list iff the level of its descriptor is the
user level and to the author list otherwise. -/
theorem updateInjectedStyleSheetCache_after_invalidate (c : DocumentStyleSheetCollection) :
    (updateInjectedStyleSheetCache
      (invalidateInjectedStyleSheetCache c)).m_injectedStyleSheetCacheValid = true ∧
    match c.m_document.page with
    | none =>
      (updateInjectedStyleSheetCache
        (invalidateInjectedStyleSheetCache c)).m_injectedUserStyleSheets = [] ∧
      (updateInjectedStyleSheetCache
        (invalidateInjectedStyleSheetCache c)).m_injectedAuthorStyleSheets = []
    | some owningPage =>
      (updateInjectedStyleSheetCache
        (invalidateInjectedStyleSheetCache c)).m_injectedUserStyleSheets
        = ((injectedSheetsFor c.m_document owningPage.userStyleSheets).filter
            fun entry => decide (entry.1.level = .UserStyleUserLevel)).map Prod.snd ∧
      (updateInjectedStyleSheetCache
        (invalidateInjectedStyleSheetCache c)).m_injectedAuthorStyleSheets
        = ((injectedSheetsFor c.m_document owningPage.userStyleSheets).filter
            fun entry => !decide (entry.1.level = .UserStyleUserLevel)).map Prod.snd ∧
      (updateInjectedStyleSheetCache
        (invalidateInjectedStyleSheetCache c)).m_document.calls
        = c.m_document.calls ++ [.styleResolverChanged .DeferRecalcStyle] ++
          ((injectedSheetsFor c.m_document owningPage.userStyleSheets).map
            injectionCalls).flatten ∧
      (injectedSheetsFor c.m_document owningPage.userStyleSheets).map Prod.fst
        = owningPage.userStyleSheets.filter fun sheet => !isSkipped c.m_document sheet := by
  refine ⟨updateInjectedStyleSheetCache_valid _, ?_⟩
  cases hpage : c.m_document.page with
  | none =>
    simp [updateInjectedStyleSheetCache, invalidateInjectedStyleSheetCache, Document.call, hpage]
  | some owningPage =>
    have hloop := injectSheets_lists owningPage.userStyleSheets
      { invalidateInjectedStyleSheetCache c with
        m_injectedStyleSheetCacheValid := true,
        m_injectedUserStyleSheets := [],
        m_injectedAuthorStyleSheets := [] }
    have hrun : updateInjectedStyleSheetCache (invalidateInjectedStyleSheetCache c)
        = injectSheets owningPage.userStyleSheets
            { invalidateInjectedStyleSheetCache c with
              m_injectedStyleSheetCacheValid := true,
              m_injectedUserStyleSheets := [],
              m_injectedAuthorStyleSheets := [] } := by
      simp [updateInjectedStyleSheetCache, invalidateInjectedStyleSheetCache, Document.call,
        hpage]
    rw [hrun]
    refine ⟨hloop.1.trans (by simp; rfl), hloop.2.1.trans (by simp; rfl),
      hloop.2.2.trans (by simp [invalidateInjectedStyleSheetCache, Document.call]; rfl), ?_⟩
    simp only [injectedSheetsFor, keptDescriptors]
    rw [List.map_fst_zip]
    simp

/-- C15 instantiated in a subframe: the stale lists `[7]` and `[8]` are dropped,
the descriptor for the top frame only is skipped, the author-level descriptor
gets the first new sheet and the user-level descriptor the second. -/
theorem updateInjectedStyleSheetCache_after_invalidate_witness :
    (updateInjectedStyleSheetCache
      (invalidateInjectedStyleSheetCache collectionWithStaleCache)).m_injectedUserStyleSheets
      = [1001] ∧
    (updateInjectedStyleSheetCache
      (invalidateInjectedStyleSheetCache collectionWithStaleCache)).m_injectedAuthorStyleSheets
      = [1000] :=
  have h := (updateInjectedStyleSheetCache_after_invalidate collectionWithStaleCache).2
  ⟨h.1.trans (by decide), h.2.1.trans (by decide)⟩

/-! ## Pending sheets and feature flags -/

/-- C16: for every state with a pending stylesheet count n > 0,
`removePendingSheet` leaves the count at n - 1, which is not negative, and makes
no call while the new count is positive; when the new count is zero it makes
exactly one call: `setNeedsNotifyRemoveAllPendingStylesheet` if called with
RemovePendingSheetNotifyLater, `didRemoveAllPendingStylesheet` otherwise. -/
theorem removePendingSheet_count (c : DocumentStyleSheetCollection)
    (notification : RemovePendingSheetNotificationType)
    (hpending : 0 < c.m_pendingStylesheets) :
    (removePendingSheet c notification).m_pendingStylesheets = c.m_pendingStylesheets - 1 ∧
    0 ≤ (removePendingSheet c notification).m_pendingStylesheets ∧
    (removePendingSheet c notification).m_document.calls
      = c.m_document.calls ++
        (if c.m_pendingStylesheets - 1 = 0 then
          [if notification = .RemovePendingSheetNotifyLater then
            Call.setNeedsNotifyRemoveAllPendingStylesheet
          else Call.didRemoveAllPendingStylesheet]
        else []) := by
  unfold removePendingSheet
  by_cases hzero : c.m_pendingStylesheets - 1 = 0
  · by_cases hlater : notification = .RemovePendingSheetNotifyLater
    · simp [hzero, hlater, Document.call]
    · simp [hzero, hlater, Document.call]
  · simp only [ne_eq, hzero, not_false_eq_true, if_true, if_false, List.append_nil, true_and,
      and_true]
    omega

/-- C16 instantiated: the last of the pending sheets is removed with
RemovePendingSheetNotifyLater. -/
theorem removePendingSheet_count_witness :
    0 < collectionWithPendingSheet.m_pendingStylesheets ∧
    (removePendingSheet collectionWithPendingSheet
      .RemovePendingSheetNotifyLater).m_pendingStylesheets = 1 - 1 ∧
    (removePendingSheet collectionWithPendingSheet
      .RemovePendingSheetNotifyLater).m_document.calls
      = [] ++ [.setNeedsNotifyRemoveAllPendingStylesheet] :=
  have h := removePendingSheet_count collectionWithPendingSheet
    .RemovePendingSheetNotifyLater (by decide)
  ⟨by decide, h.1, h.2.2⟩

/-- C20: `combineCSSFeatureFlags` sets each of usesSiblingRules, usesFirstLineRules
and usesBeforeAfterRules to its previous value OR the current value of the style
resolver, so it clears no flag and a second call changes nothing;
`resetCSSFeatureFlags` sets each flag to the current value of the resolver. -/
theorem combineCSSFeatureFlags_sticky (c : DocumentStyleSheetCollection) :
    ((combineCSSFeatureFlags c).m_usesSiblingRules
        = (c.m_usesSiblingRules || c.m_document.styleResolver.usesSiblingRules) ∧
      (combineCSSFeatureFlags c).m_usesFirstLineRules
        = (c.m_usesFirstLineRules || c.m_document.styleResolver.usesFirstLineRules) ∧
      (combineCSSFeatureFlags c).m_usesBeforeAfterRules
        = (c.m_usesBeforeAfterRules || c.m_document.styleResolver.usesBeforeAfterRules)) ∧
    ((c.m_usesSiblingRules = true → (combineCSSFeatureFlags c).m_usesSiblingRules = true) ∧
      (c.m_usesFirstLineRules = true → (combineCSSFeatureFlags c).m_usesFirstLineRules = true) ∧
      (c.m_usesBeforeAfterRules = true →
        (combineCSSFeatureFlags c).m_usesBeforeAfterRules = true)) ∧
    combineCSSFeatureFlags (combineCSSFeatureFlags c) = combineCSSFeatureFlags c ∧
    ((resetCSSFeatureFlags c).m_usesSiblingRules = c.m_document.styleResolver.usesSiblingRules ∧
      (resetCSSFeatureFlags c).m_usesFirstLineRules
        = c.m_document.styleResolver.usesFirstLineRules ∧
      (resetCSSFeatureFlags c).m_usesBeforeAfterRules
        = c.m_document.styleResolver.usesBeforeAfterRules) := by
  refine ⟨⟨rfl, rfl, rfl⟩, ⟨?_, ?_, ?_⟩, ?_, ⟨rfl, rfl, rfl⟩⟩
  · intro h; simp [combineCSSFeatureFlags, h]
  · intro h; simp [combineCSSFeatureFlags, h]
  · intro h; simp [combineCSSFeatureFlags, h]
  · simp [combineCSSFeatureFlags, Bool.or_assoc]

/-! ## The added sheets -/

/-- The analysis leaves the stored active list alone and makes one call,
`invalidateStyle` on the added sheets, exactly when it ends with
requiresFullStyleRecalc = false. -/
theorem analyzeStyleSheetChange_calls (c : DocumentStyleSheetCollection)
    (updateMode : StyleResolverUpdateMode) (newStylesheets : List CSSStyleSheet) :
    (analyzeStyleSheetChange c updateMode newStylesheets).collection.m_activeAuthorStyleSheets
      = c.m_activeAuthorStyleSheets ∧
    (analyzeStyleSheetChange c updateMode newStylesheets).collection.m_document.calls
      = c.m_document.calls ++
        (if (analyzeStyleSheetChange c updateMode newStylesheets).requiresFullStyleRecalc
          then [] else [.invalidateStyle (addedSheets c newStylesheets)]) := by
  unfold analyzeStyleSheetChange addedSheets
  simp only []
  split
  · simp
  · split
    · simp
    · split
      · simp
      · split
        · simp
        · split
          · simp
          · rename_i added news hm
            split
            · simp
            · split
              · simp
              · simp [Document.call]

theorem buildActiveStyleSheets_activeAuthorStyleSheets (c : DocumentStyleSheetCollection) :
    (buildActiveStyleSheets c).collection.m_activeAuthorStyleSheets
      = c.m_activeAuthorStyleSheets := by
  obtain ⟨c1, ⟨v, u, a, n, k, rfl⟩, ⟨p, s, k2, h2⟩⟩ := buildActiveStyleSheets_frame c
  rw [h2]

/-- A completed `updateActiveStyleSheets` whose analysis reports Additive calls
`appendAuthorStyleSheets` with the length of the old list and the new list. -/
theorem updateActiveStyleSheets_additive_calls (c : DocumentStyleSheetCollection)
    (updateMode : StyleResolverUpdateMode)
    (hrecalc : c.m_document.inStyleRecalc = false)
    (hrenderer : c.m_document.renderer = true)
    (hattached : c.m_document.attached = true)
    (hadditive : (analyzeStyleSheetChange (buildActiveStyleSheets c).collection updateMode
      (buildActiveStyleSheets c).activeSheets).styleResolverUpdateType = .Additive) :
    (updateActiveStyleSheets c updateMode).2.m_document.calls
      = (analyzeStyleSheetChange (buildActiveStyleSheets c).collection updateMode
          (buildActiveStyleSheets c).activeSheets).collection.m_document.calls ++
        [.appendAuthorStyleSheets c.m_activeAuthorStyleSheets.length
            (buildActiveStyleSheets c).activeSheets,
         .activeStyleSheetsUpdated (buildActiveStyleSheets c).styleSheets,
         .notifySeamlessChildDocumentsOfStylesheetUpdate] := by
  have hold := (analyzeStyleSheetChange_calls (buildActiveStyleSheets c).collection updateMode
    (buildActiveStyleSheets c).activeSheets).1
  rw [buildActiveStyleSheets_activeAuthorStyleSheets] at hold
  unfold updateActiveStyleSheets
  simp only [hrecalc, hrenderer, hattached, hadditive, applyStyleResolverUpdate,
    resetCSSFeatureFlags, Document.call, hold]
  simp

/-- C19: whenever `analyzeStyleSheetChange` reports Additive for the stored list P
and the new list N, N is P followed by its part from index |P| on, and the
vector of added sheets, which is what `invalidateStyle` is called with, holds the
contents of exactly that part in order; a completed `updateActiveStyleSheets`
then calls `appendAuthorStyleSheets` with first index |P| and the list N.
Whenever the analysis reports Additive or Reset, the number of added sheets is
|N| - |P|. -/
theorem analyzeStyleSheetChange_added_suffix (c : DocumentStyleSheetCollection)
    (updateMode : StyleResolverUpdateMode) (newStylesheets : List CSSStyleSheet) :
    ((analyzeStyleSheetChange c updateMode newStylesheets).styleResolverUpdateType
        = .Additive →
      newStylesheets = c.m_activeAuthorStyleSheets ++
        newStylesheets.drop c.m_activeAuthorStyleSheets.length ∧
      addedSheets c newStylesheets
        = (newStylesheets.drop c.m_activeAuthorStyleSheets.length).map
            c.m_document.contents) ∧
    (((analyzeStyleSheetChange c updateMode newStylesheets).styleResolverUpdateType
          = .Additive ∨
        (analyzeStyleSheetChange c updateMode newStylesheets).styleResolverUpdateType
          = .Reset) →
      (addedSheets c newStylesheets).length
        = newStylesheets.length - c.m_activeAuthorStyleSheets.length) ∧
    ((analyzeStyleSheetChange c updateMode newStylesheets).requiresFullStyleRecalc = false →
      (analyzeStyleSheetChange c updateMode newStylesheets).collection.m_document.calls
        = c.m_document.calls ++ [.invalidateStyle (addedSheets c newStylesheets)]) ∧
    (c.m_document.inStyleRecalc = false → c.m_document.renderer = true →
      c.m_document.attached = true →
      (analyzeStyleSheetChange (buildActiveStyleSheets c).collection updateMode
        (buildActiveStyleSheets c).activeSheets).styleResolverUpdateType = .Additive →
      (updateActiveStyleSheets c updateMode).2.m_document.calls
        = (analyzeStyleSheetChange (buildActiveStyleSheets c).collection updateMode
            (buildActiveStyleSheets c).activeSheets).collection.m_document.calls ++
          [.appendAuthorStyleSheets c.m_activeAuthorStyleSheets.length
              (buildActiveStyleSheets c).activeSheets,
           .activeStyleSheetsUpdated (buildActiveStyleSheets c).styleSheets,
           .notifySeamlessChildDocumentsOfStylesheetUpdate]) := by
  refine ⟨?_, ?_, ?_, updateActiveStyleSheets_additive_calls c updateMode⟩
  · intro hadditive
    rcases analyzeStyleSheetChange_cases c updateMode newStylesheets with
      ⟨ht, _⟩ | ⟨added, news, hm, ht, _⟩
    · rw [ht] at hadditive; exact absurd hadditive (by decide)
    · rw [ht] at hadditive
      have hnil : added = [] := by
        by_contra hne
        simp [hne] at hadditive
      subst hnil
      obtain ⟨skipped, hsk, _, hpre, _⟩ := matchOldSheets_some _ _ _ _ _ _ hm
      have hnews := hpre (by simpa using hsk.symm)
      have hdrop : newStylesheets.drop c.m_activeAuthorStyleSheets.length = news := by
        rw [hnews]; simp
      rw [hdrop]
      exact ⟨hnews, by simp [addedSheets, hm]⟩
  · intro hkind
    rcases analyzeStyleSheetChange_cases c updateMode newStylesheets with
      ⟨ht, _⟩ | ⟨added, news, hm, _, _⟩
    · rw [ht] at hkind
      rcases hkind with h | h <;> exact absurd h (by decide)
    · obtain ⟨skipped, hsk, _, _, hlen⟩ := matchOldSheets_some _ _ _ _ _ _ hm
      simp only [List.nil_append] at hsk
      subst hsk
      simp only [addedSheets, hm, List.length_append, List.length_map]
      omega
  · intro hfalse
    rw [(analyzeStyleSheetChange_calls c updateMode newStylesheets).2, hfalse]
    simp

/-- C19 instantiated: stored `[A, B]`, candidates owning `A`, `B` and `C`; the
analysis reports Additive, the invalidation is run on the contents of `C` alone,
and the resolver is appended to from index 2. -/
theorem analyzeStyleSheetChange_added_suffix_witness :
    (analyzeStyleSheetChange (buildActiveStyleSheets collectionABThenC).collection
      .AnalyzedStyleUpdate
      (buildActiveStyleSheets collectionABThenC).activeSheets).styleResolverUpdateType
      = .Additive ∧
    addedSheets collectionABThenC [1, 2, 3] = [3] ∧
    (updateActiveStyleSheets collectionABThenC .AnalyzedStyleUpdate).2.m_document.calls
      = [.invalidateStyle [3], .appendAuthorStyleSheets 2 [1, 2, 3],
         .activeStyleSheetsUpdated [1, 2, 3],
         .notifySeamlessChildDocumentsOfStylesheetUpdate] :=
  ⟨by decide, by decide,
    ((analyzeStyleSheetChange_added_suffix collectionABThenC .AnalyzedStyleUpdate
      [1, 2, 3]).2.2.2 rfl rfl rfl (by decide)).trans (by decide)⟩

/-! ## WebCrypto -/

/-- The name map of the constructed registry holds the six names of the table. -/
theorem registry_names (indeterminate : WebCryptoAlgorithmId → WebCryptoAlgorithmId) :
    (AlgorithmRegistry.create indeterminate).m_algorithmNameToId
      = algorithmNameMappings.map fun mapping =>
          (mapping.algorithmName, mapping.algorithmId) := by
  rfl

/-- The constructed registry holds, for every algorithm and operation, the
parameters of the table entry, or `UnsupportedOp`. -/
theorem registry_params (indeterminate : WebCryptoAlgorithmId → WebCryptoAlgorithmId)
    (algorithmId : WebCryptoAlgorithmId) (op : AlgorithmOperation) :
    ((AlgorithmRegistry.create indeterminate).m_algorithms algorithmId).paramsForOperation op
      = listedParams algorithmId op := by
  cases algorithmId <;> cases op <;> rfl

theorem listedParams_unsupported (algorithmId : WebCryptoAlgorithmId)
    (op : AlgorithmOperation) :
    listedParams algorithmId op = UnsupportedOp ↔ listedOperation algorithmId op = false := by
  cases algorithmId <;> cases op <;>
    first
      | decide
      | exact ⟨fun _ => rfl, fun _ => rfl⟩

theorem lookupAlgorithmByName_create
    (indeterminate : WebCryptoAlgorithmId → WebCryptoAlgorithmId) (algorithmName : String) :
    lookupAlgorithmByName (AlgorithmRegistry.create indeterminate) algorithmName
      = (findAlgorithmId (AlgorithmRegistry.create indeterminate).m_algorithmNameToId
          algorithmName).map (AlgorithmRegistry.create indeterminate).m_algorithms := by
  unfold lookupAlgorithmByName
  cases findAlgorithmId (AlgorithmRegistry.create indeterminate).m_algorithmNameToId
    algorithmName <;> rfl

/-- The outcome of `normalizeAlgorithm` for a name of ASCII characters that the
registry knows: it hangs on the table entry for the algorithm and the operation
and on the parsed parameters alone. -/
theorem normalizeAlgorithm_registered
    (indeterminate : WebCryptoAlgorithmId → WebCryptoAlgorithmId) (raw : Dictionary)
    (op : AlgorithmOperation) (algorithm : WebCryptoAlgorithm) (ec : ExceptionCode)
    (algorithmName : String) (algorithmId : WebCryptoAlgorithmId)
    (hname : raw.name = some algorithmName)
    (hascii : containsOnlyASCII algorithmName = true)
    (hfound : findAlgorithmId (AlgorithmRegistry.create indeterminate).m_algorithmNameToId
      algorithmName = some algorithmId) :
    normalizeAlgorithm (AlgorithmRegistry.create indeterminate) raw op algorithm ec
      = if listedParams algorithmId op = UnsupportedOp then
          ⟨false, algorithm, NOT_SUPPORTED_ERR⟩
        else if (parseAlgorithmParams raw (listedParams algorithmId op)).isNone ∧
            listedParams algorithmId op
              ≠ WebCryptoAlgorithmParamsType.WebCryptoAlgorithmParamsTypeNone.toInt then
          ⟨false, algorithm, NOT_SUPPORTED_ERR⟩
        else
          ⟨true,
            WebCryptoAlgorithm.create
              ((AlgorithmRegistry.create indeterminate).m_algorithms algorithmId).algorithmId
              ((AlgorithmRegistry.create indeterminate).m_algorithms algorithmId).algorithmName
              (parseAlgorithmParams raw (listedParams algorithmId op)),
            ec⟩ := by
  unfold normalizeAlgorithm
  simp only [hname, hascii, Bool.not_true, Bool.false_eq_true, if_false,
    lookupAlgorithmByName_create, hfound, Option.map, registry_params]

/-- C17: for every `WebCryptoAlgorithm` built by the constructor from an
identifier, a name and a (possibly null) parameters pointer, `aesCbcParams()`
returns the stored parameters exactly when `paramsType()` is the AES-CBC type and
0 otherwise, `aesKeyGenParams()` does the same for the AES key generation type,
so at least one of the two is 0; built without parameters, the algorithm has
`paramsType()` None and both accessors return 0. -/
theorem webCryptoAlgorithm_params_accessors (algorithmId : WebCryptoAlgorithmId)
    (algorithmName : Option String) (params : Option WebCryptoAlgorithmParams) :
    (WebCryptoAlgorithm.create algorithmId algorithmName params).aesCbcParams
      = some (if (WebCryptoAlgorithm.create algorithmId algorithmName params).paramsType
            = some .WebCryptoAlgorithmParamsTypeAesCbcParams then params else none) ∧
    (WebCryptoAlgorithm.create algorithmId algorithmName params).aesKeyGenParams
      = some (if (WebCryptoAlgorithm.create algorithmId algorithmName params).paramsType
            = some .WebCryptoAlgorithmParamsTypeAesKeyGenParams then params else none) ∧
    ((WebCryptoAlgorithm.create algorithmId algorithmName params).aesCbcParams = some none ∨
      (WebCryptoAlgorithm.create algorithmId algorithmName params).aesKeyGenParams
        = some none) ∧
    (WebCryptoAlgorithm.create algorithmId algorithmName none).paramsType
      = some .WebCryptoAlgorithmParamsTypeNone ∧
    (WebCryptoAlgorithm.create algorithmId algorithmName none).aesCbcParams = some none ∧
    (WebCryptoAlgorithm.create algorithmId algorithmName none).aesKeyGenParams = some none := by
  refine ⟨?_, ?_, ?_, rfl, rfl, rfl⟩
  · cases params with
    | none => rfl
    | some p =>
      cases htype : p.type <;>
        simp [WebCryptoAlgorithm.create, WebCryptoAlgorithm.aesCbcParams,
          WebCryptoAlgorithm.paramsType, htype]
  · cases params with
    | none => rfl
    | some p =>
      cases htype : p.type <;>
        simp [WebCryptoAlgorithm.create, WebCryptoAlgorithm.aesKeyGenParams,
          WebCryptoAlgorithm.paramsType, htype]
  · cases params with
    | none => exact Or.inl rfl
    | some p =>
      cases htype : p.type <;>
        simp [WebCryptoAlgorithm.create, WebCryptoAlgorithm.aesCbcParams,
          WebCryptoAlgorithm.aesKeyGenParams, WebCryptoAlgorithm.paramsType, htype]

/-- C18: on the constructed registry, `normalizeAlgorithm` returns true only for
a name that the registry maps to an algorithm with a table entry for the
operation, and these entries are AES-CBC with Encrypt, Decrypt or GenerateKey and
each SHA algorithm with Digest; for a registered name (of ASCII characters)
without such an entry it returns false with NOT_SUPPORTED_ERR and leaves the
algorithm as passed; for a SHA algorithm with Digest it returns true and the
parameter type of the result is None, whatever else the dictionary holds. -/
theorem normalizeAlgorithm_operation_table
    (indeterminate : WebCryptoAlgorithmId → WebCryptoAlgorithmId) (raw : Dictionary)
    (op : AlgorithmOperation) (algorithm : WebCryptoAlgorithm) (ec : ExceptionCode) :
    ((normalizeAlgorithm (AlgorithmRegistry.create indeterminate) raw op algorithm
        ec).result = true →
      ∃ algorithmName algorithmId,
        raw.name = some algorithmName ∧
        findAlgorithmId (AlgorithmRegistry.create indeterminate).m_algorithmNameToId
          algorithmName = some algorithmId ∧
        listedOperation algorithmId op = true) ∧
    (∀ algorithmId operation,
      listedOperation algorithmId operation = true ↔
        (algorithmId = .WebCryptoAlgorithmIdAesCbc ∧
            (operation = .Encrypt ∨ operation = .Decrypt ∨ operation = .GenerateKey)) ∨
          (algorithmId ≠ .WebCryptoAlgorithmIdAesCbc ∧ operation = .Digest)) ∧
    (∀ algorithmName algorithmId,
      raw.name = some algorithmName → containsOnlyASCII algorithmName = true →
      findAlgorithmId (AlgorithmRegistry.create indeterminate).m_algorithmNameToId
        algorithmName = some algorithmId →
      listedOperation algorithmId op = false →
      normalizeAlgorithm (AlgorithmRegistry.create indeterminate) raw op algorithm ec
        = ⟨false, algorithm, NOT_SUPPORTED_ERR⟩) ∧
    (∀ algorithmName algorithmId,
      raw.name = some algorithmName → containsOnlyASCII algorithmName = true →
      findAlgorithmId (AlgorithmRegistry.create indeterminate).m_algorithmNameToId
        algorithmName = some algorithmId →
      algorithmId ≠ .WebCryptoAlgorithmIdAesCbc → op = .Digest →
      (normalizeAlgorithm (AlgorithmRegistry.create indeterminate) raw op algorithm
          ec).result = true ∧
        (normalizeAlgorithm (AlgorithmRegistry.create indeterminate) raw op algorithm
          ec).algorithm.paramsType = some .WebCryptoAlgorithmParamsTypeNone) := by
  refine ⟨?_, ?_, ?_, ?_⟩
  · intro hresult
    cases hname : raw.name with
    | none => simp [normalizeAlgorithm, hname] at hresult
    | some algorithmName =>
      cases hascii : containsOnlyASCII algorithmName with
      | false => simp [normalizeAlgorithm, hname, hascii] at hresult
      | true =>
        cases hfound : findAlgorithmId
            (AlgorithmRegistry.create indeterminate).m_algorithmNameToId algorithmName with
        | none =>
          simp [normalizeAlgorithm, hname, hascii, lookupAlgorithmByName_create, hfound]
            at hresult
        | some algorithmId =>
          refine ⟨algorithmName, algorithmId, rfl, hfound, ?_⟩
          rw [normalizeAlgorithm_registered indeterminate raw op algorithm ec algorithmName
            algorithmId hname hascii hfound] at hresult
          by_contra hlisted
          rw [Bool.not_eq_true] at hlisted
          rw [if_pos ((listedParams_unsupported algorithmId op).mpr hlisted)] at hresult
          exact absurd hresult (by simp)
  · intro algorithmId operation
    cases algorithmId <;> cases operation <;>
      first
        | decide
        | simp [listedOperation, operationParamsMappings]
  · intro algorithmName algorithmId hname hascii hfound hlisted
    rw [normalizeAlgorithm_registered indeterminate raw op algorithm ec algorithmName
      algorithmId hname hascii hfound,
      if_pos ((listedParams_unsupported algorithmId op).mpr hlisted)]
  · intro algorithmName algorithmId hname hascii hfound hsha hop
    subst hop
    rw [normalizeAlgorithm_registered indeterminate raw .Digest algorithm ec algorithmName
      algorithmId hname hascii hfound]
    cases algorithmId <;>
      first
        | exact absurd rfl hsha
        | exact ⟨rfl, rfl⟩

/-- C18 instantiated: "sha-256" with Digest succeeds with parameter type None,
although the dictionary has members "iv" and "length". -/
theorem normalizeAlgorithm_operation_table_witness :
    (normalizeAlgorithm zeroedRegistry sha256Dictionary .Digest ⟨none⟩ 0).result = true ∧
    (normalizeAlgorithm zeroedRegistry sha256Dictionary .Digest ⟨none⟩ 0).algorithm.paramsType
      = some .WebCryptoAlgorithmParamsTypeNone :=
  (normalizeAlgorithm_operation_table (fun _ => .WebCryptoAlgorithmIdAesCbc) sha256Dictionary
    .Digest ⟨none⟩ 0).2.2.2 "sha-256" .WebCryptoAlgorithmIdSha256 rfl (by decide) (by decide)
    (by decide) rfl

/-! ## When analyzeStyleSheetChange reports Reconstruct -/

/-- Each of the three early returns of lines 344-353 leaves `Reconstruct`. -/
theorem analyzeStyleSheetChange_of_guard (c : DocumentStyleSheetCollection)
    (updateMode : StyleResolverUpdateMode) (newStylesheets : List CSSStyleSheet)
    (h : loadFinished c newStylesheets = true ∨ updateMode ≠ .AnalyzedStyleUpdate ∨
      c.m_document.styleResolverIfExists = false) :
    (analyzeStyleSheetChange c updateMode newStylesheets).styleResolverUpdateType
      = .Reconstruct := by
  unfold analyzeStyleSheetChange
  simp only []
  split
  · rfl
  · rename_i h1
    split
    · rfl
    · rename_i h2
      split
      · rfl
      · rename_i h3
        exfalso
        rcases h with h | h | h
        · exact h1 h
        · exact h2 h
        · simp [h] at h3

theorem matchOldSheets_none_of_not_sublist (d : Document) (olds news : List CSSStyleSheet)
    (added : List StyleSheetContents) (h : ¬ olds.Sublist news) :
    matchOldSheets d olds news added = none := by
  cases hm : matchOldSheets d olds news added with
  | none => rfl
  | some r =>
    obtain ⟨_, _, hsub, _, _⟩ := matchOldSheets_some d news olds added r.1 r.2 hm
    exact absurd hsub h

/-- C21: `analyzeStyleSheetChange` reports Reconstruct if and only if the stored
had-active-loading flag is true while no new sheet is loading, or the update mode
is not AnalyzedStyleUpdate, or the document has no style resolver, or the stored
active list is not a subsequence of the new list.  So the greedy comparison never
yields Reconstruct for a subsequence, repeated sheets included. -/
theorem analyzeStyleSheetChange_reconstruct_iff (c : DocumentStyleSheetCollection)
    (updateMode : StyleResolverUpdateMode) (newStylesheets : List CSSStyleSheet) :
    (analyzeStyleSheetChange c updateMode newStylesheets).styleResolverUpdateType
        = .Reconstruct ↔
      (c.m_hadActiveLoadingStylesheet = true ∧
          newStylesheets.any c.m_document.isLoading = false) ∨
        updateMode ≠ .AnalyzedStyleUpdate ∨
        c.m_document.styleResolverIfExists = false ∨
        ¬ c.m_activeAuthorStyleSheets.Sublist newStylesheets := by
  constructor
  · intro hreconstruct
    by_contra hnone
    simp only [not_or, not_and, Bool.not_eq_false, ne_eq, not_not, Bool.not_eq_false] at hnone
    obtain ⟨hload, hmode, hresolver, hsub⟩ := hnone
    subst hmode
    obtain ⟨⟨added, rest⟩, hm⟩ := matchOldSheets_of_sublist c.m_document _ _ [] hsub
    rw [analyzeStyleSheetChange_of_some c newStylesheets added rest hresolver
      (by intro h; rw [hload h.1] at h; exact absurd h.2 (by decide)) hm] at hreconstruct
    split_ifs at hreconstruct
  · rintro (h | h | h | h)
    · exact analyzeStyleSheetChange_of_guard c updateMode newStylesheets
        (Or.inl (by simp [loadFinished, h.1, h.2]))
    · exact analyzeStyleSheetChange_of_guard c updateMode newStylesheets (Or.inr (Or.inl h))
    · exact analyzeStyleSheetChange_of_guard c updateMode newStylesheets (Or.inr (Or.inr h))
    · exact (analyzeStyleSheetChange_of_none c updateMode newStylesheets
        (matchOldSheets_none_of_not_sublist _ _ _ _ h)).1

/-- C21 at repeated sheets: the stored list `[A, A]` is a subsequence of
`[A, B, A, A]`, and the analysis reports Reset, not Reconstruct. -/
theorem analyzeStyleSheetChange_reconstruct_iff_witness :
    collectionAA.m_activeAuthorStyleSheets.Sublist [1, 2, 1, 1] ∧
    (analyzeStyleSheetChange collectionAA .AnalyzedStyleUpdate
      [1, 2, 1, 1]).styleResolverUpdateType ≠ .Reconstruct :=
  ⟨by decide, fun h =>
    absurd ((analyzeStyleSheetChange_reconstruct_iff collectionAA .AnalyzedStyleUpdate
      [1, 2, 1, 1]).mp h) (by decide)⟩

/-! ## The result of a completed updateActiveStyleSheets -/

/-- A completed `updateActiveStyleSheets` clears the deferred-update flag and
returns the requiresFullStyleRecalc of the analysis. -/
theorem updateActiveStyleSheets_result (c : DocumentStyleSheetCollection)
    (updateMode : StyleResolverUpdateMode)
    (hrecalc : c.m_document.inStyleRecalc = false)
    (hrenderer : c.m_document.renderer = true)
    (hattached : c.m_document.attached = true) :
    (updateActiveStyleSheets c updateMode).2.m_needsUpdateActiveStylesheetsOnStyleRecalc
      = false ∧
    (updateActiveStyleSheets c updateMode).1
      = (analyzeStyleSheetChange (buildActiveStyleSheets c).collection updateMode
          (buildActiveStyleSheets c).activeSheets).requiresFullStyleRecalc := by
  unfold updateActiveStyleSheets
  simp [hrecalc, hrenderer, hattached]

/-- C22: after every completed `updateActiveStyleSheets` (document not in style
recalc, with a renderer and attached) the stored active list is, in this order,
the injected author-level sheets, the document-level author sheets, the stored
active sheets of the seamless parent (none without a seamless parent iframe) and
the active sheets collected from the candidate nodes; the deferred-update flag
is cleared and the returned value is the requiresFullStyleRecalc of the
analysis. -/
theorem updateActiveStyleSheets_completed (c : DocumentStyleSheetCollection)
    (updateMode : StyleResolverUpdateMode)
    (hrecalc : c.m_document.inStyleRecalc = false)
    (hrenderer : c.m_document.renderer = true)
    (hattached : c.m_document.attached = true) :
    (updateActiveStyleSheets c updateMode).2.m_activeAuthorStyleSheets
      = (injectedAuthorStyleSheets c).1 ++ documentAuthorStyleSheets c ++
          (match c.m_document.seamlessParentIFrame with
            | none => []
            | some seamlessParentIFrame => seamlessParentIFrame.activeAuthorStyleSheets) ++
          (collectStyleSheets (updateInjectedStyleSheetCache c) [] []).activeSheets ∧
    (updateActiveStyleSheets c updateMode).2.m_needsUpdateActiveStylesheetsOnStyleRecalc
      = false ∧
    (updateActiveStyleSheets c updateMode).1
      = (analyzeStyleSheetChange (buildActiveStyleSheets c).collection updateMode
          (buildActiveStyleSheets c).activeSheets).requiresFullStyleRecalc := by
  refine ⟨?_, updateActiveStyleSheets_result c updateMode hrecalc hrenderer hattached⟩
  rw [updateActiveStyleSheets_stores_built c updateMode hrecalc hrenderer hattached,
    buildActiveStyleSheets_activeSheets]
  simp only [seamlessParentSheets, collectActiveCSSStyleSheetsFromSeamlessParents]
  cases c.m_document.seamlessParentIFrame <;> simp

/-- C22 instantiated: injected author sheet `1001`, document author sheet `60`,
sheet `50` of the seamless parent, sheet `1` of the style element; the first
update of the collection needs a full recalculation. -/
theorem updateActiveStyleSheets_completed_witness :
    (updateActiveStyleSheets collectionWithInjectedSheets
      .AnalyzedStyleUpdate).2.m_activeAuthorStyleSheets = [1001, 60, 50, 1] ∧
    (updateActiveStyleSheets collectionWithInjectedSheets
      .AnalyzedStyleUpdate).2.m_needsUpdateActiveStylesheetsOnStyleRecalc = false ∧
    (updateActiveStyleSheets collectionWithInjectedSheets .AnalyzedStyleUpdate).1
      = (analyzeStyleSheetChange (buildActiveStyleSheets collectionWithInjectedSheets).collection
          .AnalyzedStyleUpdate
          (buildActiveStyleSheets collectionWithInjectedSheets).activeSheets).requiresFullStyleRecalc :=
  have h := updateActiveStyleSheets_completed collectionWithInjectedSheets
    .AnalyzedStyleUpdate rfl rfl rfl
  ⟨h.1.trans (by decide), h.2.1, h.2.2⟩

/-! ## The stored had-active-loading flag -/

/-- C24: after every call of `analyzeStyleSheetChange`, on every return path, the
stored had-active-loading flag says whether some sheet of the new list is
loading.  So in any later state that still has this flag, the return of lines
344-347 is taken exactly when a sheet of this call was loading and none of the
later call is, and it is never taken right after a call that took it. -/
theorem analyzeStyleSheetChange_stores_loading (c : DocumentStyleSheetCollection)
    (updateMode : StyleResolverUpdateMode) (newStylesheets : List CSSStyleSheet) :
    (analyzeStyleSheetChange c updateMode newStylesheets).collection.m_hadActiveLoadingStylesheet
      = newStylesheets.any c.m_document.isLoading ∧
    (∀ (later : DocumentStyleSheetCollection) (laterStylesheets : List CSSStyleSheet),
      later.m_hadActiveLoadingStylesheet
        = (analyzeStyleSheetChange c updateMode
            newStylesheets).collection.m_hadActiveLoadingStylesheet →
      loadFinished later laterStylesheets
        = (newStylesheets.any c.m_document.isLoading &&
            !laterStylesheets.any later.m_document.isLoading)) ∧
    (∀ (later : DocumentStyleSheetCollection) (laterStylesheets : List CSSStyleSheet),
      later.m_hadActiveLoadingStylesheet
        = (analyzeStyleSheetChange c updateMode
            newStylesheets).collection.m_hadActiveLoadingStylesheet →
      loadFinished c newStylesheets = true →
      loadFinished later laterStylesheets = false) := by
  have hflag : (analyzeStyleSheetChange c updateMode
      newStylesheets).collection.m_hadActiveLoadingStylesheet
      = newStylesheets.any c.m_document.isLoading := by
    unfold analyzeStyleSheetChange
    simp only []
    split
    · rename_i h1
      simp only [Bool.and_eq_true, Bool.not_eq_true'] at h1
      exact h1.2.symm
    · split
      · rfl
      · split
        · rfl
        · split
          · rfl
          · split
            · rfl
            · split
              · rfl
              · split <;> rfl
  refine ⟨hflag, ?_, ?_⟩
  · intro later laterStylesheets hlater
    simp only [loadFinished, hlater, hflag]
  · intro later laterStylesheets hlater hfired
    simp only [loadFinished, Bool.and_eq_true, Bool.not_eq_true'] at hfired
    simp only [loadFinished, hlater, hflag, hfired.2, Bool.false_and]

/-- C24 instantiated: the call that takes the load-finished return stores false,
and a call that follows it on the same lists does not take that return. -/
theorem analyzeStyleSheetChange_stores_loading_witness :
    loadFinished collectionAfterLoad [1] = true ∧
    (analyzeStyleSheetChange collectionAfterLoad .AnalyzedStyleUpdate
      [1]).collection.m_hadActiveLoadingStylesheet = false ∧
    loadFinished (analyzeStyleSheetChange collectionAfterLoad .AnalyzedStyleUpdate
      [1]).collection [1] = false :=
  have h := analyzeStyleSheetChange_stores_loading collectionAfterLoad .AnalyzedStyleUpdate [1]
  ⟨by decide, h.1.trans (by decide), h.2.2 _ [1] rfl (by decide)⟩

/-! ## WebCrypto: identifier, exception code, AES parameters -/

/-- The constructor of the registry leaves the member `algorithmId` of every
element as the memory held it. -/
theorem registry_algorithmId (indeterminate : WebCryptoAlgorithmId → WebCryptoAlgorithmId)
    (algorithmId : WebCryptoAlgorithmId) :
    ((AlgorithmRegistry.create indeterminate).m_algorithms algorithmId).algorithmId
      = indeterminate algorithmId := by
  cases algorithmId <;> rfl

/-- A successful `normalizeAlgorithm` hands the unwritten member `algorithmId` of
the registry element to the result. -/
theorem normalizeAlgorithm_algorithmId
    (indeterminate : WebCryptoAlgorithmId → WebCryptoAlgorithmId) (raw : Dictionary)
    (op : AlgorithmOperation) (algorithm : WebCryptoAlgorithm) (ec : ExceptionCode)
    (algorithmName : String) (algorithmId : WebCryptoAlgorithmId)
    (hname : raw.name = some algorithmName)
    (hascii : containsOnlyASCII algorithmName = true)
    (hfound : findAlgorithmId (AlgorithmRegistry.create indeterminate).m_algorithmNameToId
      algorithmName = some algorithmId)
    (hresult : (normalizeAlgorithm (AlgorithmRegistry.create indeterminate) raw op algorithm
      ec).result = true) :
    (normalizeAlgorithm (AlgorithmRegistry.create indeterminate) raw op algorithm
      ec).algorithm.algorithmId = some (indeterminate algorithmId) := by
  rw [normalizeAlgorithm_registered indeterminate raw op algorithm ec algorithmName
    algorithmId hname hascii hfound] at hresult ⊢
  split_ifs at hresult ⊢
  simp [WebCryptoAlgorithm.create, WebCryptoAlgorithm.algorithmId, registry_algorithmId]

/-- C23 fails on the code: with the registry in zeroed memory, "SHA-256" with
Digest succeeds, the name table assigns WebCryptoAlgorithmIdSha256 to the name,
and the `algorithmId()` of the result is WebCryptoAlgorithmIdAesCbc. -/
theorem normalizeAlgorithm_sha256_algorithmId :
    findAlgorithmId zeroedRegistry.m_algorithmNameToId "SHA-256"
      = some .WebCryptoAlgorithmIdSha256 ∧
    (normalizeAlgorithm zeroedRegistry sha256Request .Digest ⟨none⟩ 0).result = true ∧
    (normalizeAlgorithm zeroedRegistry sha256Request .Digest ⟨none⟩ 0).algorithm.algorithmId
      = some .WebCryptoAlgorithmIdAesCbc ∧
    (normalizeAlgorithm zeroedRegistry sha256Request .Digest ⟨none⟩ 0).algorithm.algorithmId
      ≠ some .WebCryptoAlgorithmIdSha256 := by
  refine ⟨?_, ?_, ?_, ?_⟩ <;> decide

/-- C25: for every registry, whenever `normalizeAlgorithm` returns false it leaves
the algorithm as passed and sets the exception code to SYNTAX_ERR or to
NOT_SUPPORTED_ERR, to SYNTAX_ERR exactly when the dictionary has a name with a
character outside ASCII (and then it does return false); whenever it returns
true the exception code is as passed. -/
theorem normalizeAlgorithm_exception_code (registry : AlgorithmRegistry) (raw : Dictionary)
    (op : AlgorithmOperation) (algorithm : WebCryptoAlgorithm) (ec : ExceptionCode) :
    ((normalizeAlgorithm registry raw op algorithm ec).result = false →
      (normalizeAlgorithm registry raw op algorithm ec).algorithm = algorithm ∧
      ((normalizeAlgorithm registry raw op algorithm ec).ec = SYNTAX_ERR ∨
        (normalizeAlgorithm registry raw op algorithm ec).ec = NOT_SUPPORTED_ERR) ∧
      ((normalizeAlgorithm registry raw op algorithm ec).ec = SYNTAX_ERR ↔
        ∃ algorithmName, raw.name = some algorithmName ∧
          containsOnlyASCII algorithmName = false)) ∧
    ((∃ algorithmName, raw.name = some algorithmName ∧
        containsOnlyASCII algorithmName = false) →
      (normalizeAlgorithm registry raw op algorithm ec).result = false ∧
      (normalizeAlgorithm registry raw op algorithm ec).ec = SYNTAX_ERR) ∧
    ((normalizeAlgorithm registry raw op algorithm ec).result = true →
      (normalizeAlgorithm registry raw op algorithm ec).ec = ec) := by
  have hcodes : NOT_SUPPORTED_ERR ≠ SYNTAX_ERR := by decide
  cases hname : raw.name with
  | none => simp [normalizeAlgorithm, hname, hcodes]
  | some algorithmName =>
    cases hascii : containsOnlyASCII algorithmName with
    | false => simp [normalizeAlgorithm, hname, hascii]
    | true =>
      cases hinfo : lookupAlgorithmByName registry algorithmName with
      | none => simp [normalizeAlgorithm, hname, hascii, hinfo, hcodes]
      | some info =>
        simp only [normalizeAlgorithm, hname, hascii, hinfo, Bool.not_true,
          Bool.false_eq_true, if_false]
        split_ifs <;> simp [hascii, hcodes]

/-- C25 instantiated: a name with a character outside ASCII gives false with
SYNTAX_ERR and the algorithm as passed. -/
theorem normalizeAlgorithm_exception_code_witness :
    (normalizeAlgorithm zeroedRegistry nonAsciiRequest .Digest ⟨none⟩ 0).result = false ∧
    (normalizeAlgorithm zeroedRegistry nonAsciiRequest .Digest ⟨none⟩ 0).ec = SYNTAX_ERR :=
  (normalizeAlgorithm_exception_code zeroedRegistry nonAsciiRequest .Digest ⟨none⟩ 0).2.1
    ⟨"SHA-256é", rfl, by decide⟩

theorem parseAesCbcParams_isSome (raw : Dictionary) :
    (parseAesCbcParams raw).isSome = true ↔
      ∃ iv, raw.iv = some (some iv) ∧ iv.byteLength = 16 := by
  unfold parseAesCbcParams
  cases hiv : raw.iv with
  | none => simp
  | some view =>
    cases view with
    | none => simp
    | some iv =>
      by_cases hlen : iv.byteLength = 16 <;> simp [hlen]

theorem parseAesCbcParams_type (raw : Dictionary) (params : WebCryptoAlgorithmParams)
    (h : parseAesCbcParams raw = some params) :
    params.type = .WebCryptoAlgorithmParamsTypeAesCbcParams ∧
      ∃ iv, raw.iv = some (some iv) ∧ params = WebCryptoAesCbcParams iv.bytes := by
  unfold parseAesCbcParams at h
  cases hiv : raw.iv with
  | none => simp [hiv] at h
  | some view =>
    cases view with
    | none => simp [hiv] at h
    | some iv =>
      simp only [hiv] at h
      split_ifs at h
      simp only [Option.some.injEq] at h
      subst h
      exact ⟨rfl, iv, rfl, rfl⟩

theorem parseAesKeyGenParams_isSome (raw : Dictionary) :
    (parseAesKeyGenParams raw).isSome = true ↔
      ∃ length, raw.length = some length ∧ 0 ≤ length ∧ length ≤ 65535 := by
  unfold parseAesKeyGenParams
  cases hlength : raw.length with
  | none => simp
  | some length =>
    by_cases hrange : length < 0 ∨ length > 0xFFFF
    · simp only [hrange, if_true, Option.isSome_none, Bool.false_eq_true, Option.some.injEq,
        exists_eq_left', false_iff, not_and, not_le]
      intro h0
      rcases hrange with h | h <;> omega
    · simp only [hrange, if_false, Option.isSome_some, Option.some.injEq, exists_eq_left',
        true_iff]
      omega

theorem parseAesKeyGenParams_type (raw : Dictionary) (params : WebCryptoAlgorithmParams)
    (h : parseAesKeyGenParams raw = some params) :
    params.type = .WebCryptoAlgorithmParamsTypeAesKeyGenParams ∧
      ∃ length, raw.length = some length ∧ params = WebCryptoAesKeyGenParams length := by
  unfold parseAesKeyGenParams at h
  cases hlength : raw.length with
  | none => simp [hlength] at h
  | some length =>
    simp only [hlength] at h
    split_ifs at h
    simp only [Option.some.injEq] at h
    subst h
    exact ⟨rfl, length, rfl, rfl⟩

/-- For a registered name of ASCII characters and a table entry that asks for
parameters of a type other than None, `normalizeAlgorithm` succeeds exactly when
the parameters parse, and then stores them. -/
theorem normalizeAlgorithm_with_params
    (indeterminate : WebCryptoAlgorithmId → WebCryptoAlgorithmId) (raw : Dictionary)
    (op : AlgorithmOperation) (algorithm : WebCryptoAlgorithm) (ec : ExceptionCode)
    (algorithmName : String) (algorithmId : WebCryptoAlgorithmId)
    (hname : raw.name = some algorithmName)
    (hascii : containsOnlyASCII algorithmName = true)
    (hfound : findAlgorithmId (AlgorithmRegistry.create indeterminate).m_algorithmNameToId
      algorithmName = some algorithmId)
    (hlisted : listedParams algorithmId op ≠ UnsupportedOp)
    (hparams : listedParams algorithmId op
      ≠ WebCryptoAlgorithmParamsType.WebCryptoAlgorithmParamsTypeNone.toInt) :
    ((normalizeAlgorithm (AlgorithmRegistry.create indeterminate) raw op algorithm
        ec).result = true ↔
      (parseAlgorithmParams raw (listedParams algorithmId op)).isSome = true) ∧
    ((normalizeAlgorithm (AlgorithmRegistry.create indeterminate) raw op algorithm
        ec).result = true →
      (normalizeAlgorithm (AlgorithmRegistry.create indeterminate) raw op algorithm
        ec).algorithm.m_private.map (fun p => p.params)
        = some (parseAlgorithmParams raw (listedParams algorithmId op))) := by
  rw [normalizeAlgorithm_registered indeterminate raw op algorithm ec algorithmName
    algorithmId hname hascii hfound, if_neg hlisted]
  cases hparse : parseAlgorithmParams raw (listedParams algorithmId op) with
  | none => simp [hparams]
  | some params => simp [WebCryptoAlgorithm.create]

/-- C26: for a name that the registry maps to AES-CBC (such as "AES-CBC"),
`normalizeAlgorithm` with Encrypt or Decrypt succeeds if and only if the
dictionary has a non-null array buffer view "iv" of exactly 16 bytes, and with
GenerateKey if and only if it has an int32 "length" with 0 <= length <= 65535;
on success the result stores the parameters object built from that member, and
its parameter type is AesCbcParams respectively AesKeyGenParams. -/
theorem normalizeAlgorithm_aes_cbc
    (indeterminate : WebCryptoAlgorithmId → WebCryptoAlgorithmId) (raw : Dictionary)
    (op : AlgorithmOperation) (algorithm : WebCryptoAlgorithm) (ec : ExceptionCode)
    (algorithmName : String)
    (hname : raw.name = some algorithmName)
    (hascii : containsOnlyASCII algorithmName = true)
    (hfound : findAlgorithmId (AlgorithmRegistry.create indeterminate).m_algorithmNameToId
      algorithmName = some .WebCryptoAlgorithmIdAesCbc) :
    ((op = .Encrypt ∨ op = .Decrypt) →
      ((normalizeAlgorithm (AlgorithmRegistry.create indeterminate) raw op algorithm
          ec).result = true ↔
        ∃ iv, raw.iv = some (some iv) ∧ iv.byteLength = 16) ∧
      ((normalizeAlgorithm (AlgorithmRegistry.create indeterminate) raw op algorithm
          ec).result = true →
        (normalizeAlgorithm (AlgorithmRegistry.create indeterminate) raw op algorithm
          ec).algorithm.paramsType = some .WebCryptoAlgorithmParamsTypeAesCbcParams ∧
        ∃ iv, raw.iv = some (some iv) ∧
          (normalizeAlgorithm (AlgorithmRegistry.create indeterminate) raw op algorithm
            ec).algorithm.aesCbcParams = some (some (WebCryptoAesCbcParams iv.bytes)))) ∧
    (op = .GenerateKey →
      ((normalizeAlgorithm (AlgorithmRegistry.create indeterminate) raw op algorithm
          ec).result = true ↔
        ∃ length, raw.length = some length ∧ 0 ≤ length ∧ length ≤ 65535) ∧
      ((normalizeAlgorithm (AlgorithmRegistry.create indeterminate) raw op algorithm
          ec).result = true →
        (normalizeAlgorithm (AlgorithmRegistry.create indeterminate) raw op algorithm
          ec).algorithm.paramsType = some .WebCryptoAlgorithmParamsTypeAesKeyGenParams ∧
        ∃ length, raw.length = some length ∧
          (normalizeAlgorithm (AlgorithmRegistry.create indeterminate) raw op algorithm
            ec).algorithm.aesKeyGenParams
            = some (some (WebCryptoAesKeyGenParams length)))) := by
  constructor
  · intro hop
    have hlisted : listedParams .WebCryptoAlgorithmIdAesCbc op = 1 := by
      rcases hop with rfl | rfl <;> rfl
    obtain ⟨hiff, hstored⟩ := normalizeAlgorithm_with_params indeterminate raw op algorithm ec
      algorithmName .WebCryptoAlgorithmIdAesCbc hname hascii hfound
      (by rw [hlisted]; decide) (by rw [hlisted]; decide)
    have hparse : parseAlgorithmParams raw (listedParams .WebCryptoAlgorithmIdAesCbc op)
        = parseAesCbcParams raw := by
      rw [hlisted]; rfl
    rw [hparse] at hiff hstored
    refine ⟨hiff.trans (parseAesCbcParams_isSome raw), fun hresult => ?_⟩
    have hsome := hiff.mp hresult
    obtain ⟨params, hparams⟩ := Option.isSome_iff_exists.mp hsome
    obtain ⟨htype, iv, hiv, hbuilt⟩ := parseAesCbcParams_type raw params hparams
    have hprivate := hstored hresult
    rw [hparams] at hprivate
    cases hp : (normalizeAlgorithm (AlgorithmRegistry.create indeterminate) raw op algorithm
        ec).algorithm.m_private with
    | none => simp [hp] at hprivate
    | some p =>
      simp only [hp, Option.map, Option.some.injEq] at hprivate
      refine ⟨?_, iv, hiv, ?_⟩
      · simp [WebCryptoAlgorithm.paramsType, hp, hprivate, htype]
      · subst hbuilt
        simp [WebCryptoAlgorithm.aesCbcParams, WebCryptoAlgorithm.paramsType, hp, hprivate,
          WebCryptoAesCbcParams]
  · intro hop
    subst hop
    have hlisted : listedParams .WebCryptoAlgorithmIdAesCbc .GenerateKey = 2 := rfl
    obtain ⟨hiff, hstored⟩ := normalizeAlgorithm_with_params indeterminate raw .GenerateKey
      algorithm ec algorithmName .WebCryptoAlgorithmIdAesCbc hname hascii hfound
      (by rw [hlisted]; decide) (by rw [hlisted]; decide)
    have hparse : parseAlgorithmParams raw
        (listedParams .WebCryptoAlgorithmIdAesCbc .GenerateKey)
        = parseAesKeyGenParams raw := by
      rw [hlisted]; rfl
    rw [hparse] at hiff hstored
    refine ⟨hiff.trans (parseAesKeyGenParams_isSome raw), fun hresult => ?_⟩
    have hsome := hiff.mp hresult
    obtain ⟨params, hparams⟩ := Option.isSome_iff_exists.mp hsome
    obtain ⟨htype, length, hlength, hbuilt⟩ := parseAesKeyGenParams_type raw params hparams
    have hprivate := hstored hresult
    rw [hparams] at hprivate
    cases hp : (normalizeAlgorithm (AlgorithmRegistry.create indeterminate) raw .GenerateKey
        algorithm ec).algorithm.m_private with
    | none => simp [hp] at hprivate
    | some p =>
      simp only [hp, Option.map, Option.some.injEq] at hprivate
      refine ⟨?_, length, hlength, ?_⟩
      · simp [WebCryptoAlgorithm.paramsType, hp, hprivate, htype]
      · subst hbuilt
        simp [WebCryptoAlgorithm.aesKeyGenParams, WebCryptoAlgorithm.paramsType, hp,
          hprivate, WebCryptoAesKeyGenParams]

/-- C26 instantiated: "AES-CBC" with an "iv" of sixteen bytes succeeds for
Encrypt with parameter type AesCbcParams, and with "length" 128 for GenerateKey
with parameter type AesKeyGenParams. -/
theorem normalizeAlgorithm_aes_cbc_witness :
    (normalizeAlgorithm zeroedRegistry aesCbcRequest .Encrypt ⟨none⟩ 0).result = true ∧
    (normalizeAlgorithm zeroedRegistry aesCbcRequest .Encrypt ⟨none⟩ 0).algorithm.paramsType
      = some .WebCryptoAlgorithmParamsTypeAesCbcParams ∧
    (normalizeAlgorithm zeroedRegistry aesCbcRequest .GenerateKey ⟨none⟩ 0).result = true ∧
    (normalizeAlgorithm zeroedRegistry aesCbcRequest .GenerateKey ⟨none⟩
      0).algorithm.paramsType = some .WebCryptoAlgorithmParamsTypeAesKeyGenParams :=
  have h := normalizeAlgorithm_aes_cbc (fun _ => .WebCryptoAlgorithmIdAesCbc) aesCbcRequest
    .Encrypt ⟨none⟩ 0 "AES-CBC" rfl (by decide) (by decide)
  have hkey := normalizeAlgorithm_aes_cbc (fun _ => .WebCryptoAlgorithmIdAesCbc) aesCbcRequest
    .GenerateKey ⟨none⟩ 0 "AES-CBC" rfl (by decide) (by decide)
  have hencrypt := (h.1 (Or.inl rfl)).1.mpr ⟨_, rfl, by decide⟩
  have hgenerate := (hkey.2 rfl).1.mpr ⟨128, rfl, by decide, by decide⟩
  ⟨hencrypt, ((h.1 (Or.inl rfl)).2 hencrypt).1, hgenerate, ((hkey.2 rfl).2 hgenerate).1⟩

/-! ## Injected user-level sheets and the stored active list -/

/-- The local `sheet` at the end of an iteration is null or the sheet of the node. -/
theorem collectNode_sheet (c : DocumentStyleSheetCollection) (n : Node) :
    (collectNode c n).sheet = none ∨ (collectNode c n).sheet = n.sheet := by
  cases n with
  | processingInstruction pi =>
    simp only [collectNode]
    split_ifs <;> simp [CollectStep.sheet, Node.sheet]
  | htmlLink e =>
    simp only [collectNode, collectElement]
    split_ifs <;> simp [CollectStep.sheet, Node.sheet]
  | htmlStyle e =>
    simp only [collectNode, collectElement]
    split_ifs <;> simp [CollectStep.sheet, Node.sheet]
  | svgStyle e =>
    simp only [collectNode, collectElement]
    split_ifs <;> simp [CollectStep.sheet, Node.sheet]
  | other => exact Or.inl rfl

/-- Every sheet the loop adds to the active list is the sheet of one of the
candidate nodes. -/
theorem collectLoop_active_owned :
    ∀ (nodes : List Node) (c : DocumentStyleSheetCollection) (styleSheets : List StyleSheet)
      (activeSheets : List CSSStyleSheet) (a : CSSStyleSheet),
      a ∈ (collectLoop nodes c styleSheets activeSheets).activeSheets →
      a ∈ activeSheets ∨ ∃ n ∈ nodes, n.sheet = some a := by
  intro nodes
  induction nodes with
  | nil => intro c styleSheets activeSheets a h; exact Or.inl h
  | cons n rest ih =>
    intro c styleSheets activeSheets a h
    have hactive := collectNode_active_sheet c n
    have hsheet := collectNode_sheet c n
    cases hstep : collectNode c n with
    | abort c1 =>
      simp only [collectLoop, hstep] at h
      exact Or.inl h
    | next c1 sheet activeSheet =>
      simp only [collectLoop, hstep] at h
      simp only [hstep, CollectStep.activeSheet, CollectStep.sheet] at hactive hsheet
      rcases ih c1 _ _ a h with hin | ⟨m, hm, hown⟩
      · cases activeSheet with
        | none => exact Or.inl hin
        | some b =>
          simp only [appendIfNonNull, List.mem_append, List.mem_singleton] at hin
          rcases hin with hin | rfl
          · exact Or.inl hin
          · right
            refine ⟨n, List.mem_cons_self _ _, ?_⟩
            have hb := (hactive a rfl).1
            rcases hsheet with hnone | hsame
            · rw [hnone] at hb; exact absurd hb (by simp)
            · rw [← hsame]; exact hb
      · exact Or.inr ⟨m, List.mem_cons_of_mem _ hm, hown⟩

/-- Every active sheet that `collectStyleSheets` collects from the candidate
nodes alone is the sheet of one of them. -/
theorem collectStyleSheets_active_owned (c : DocumentStyleSheetCollection)
    (a : CSSStyleSheet) (h : a ∈ (collectStyleSheets c [] []).activeSheets) :
    ∃ n ∈ c.m_styleSheetCandidateNodes, n.sheet = some a := by
  unfold collectStyleSheets at h
  split_ifs at h
  · simp at h
  · rcases collectLoop_active_owned _ c [] [] a h with hin | hown
    · simp at hin
    · exact hown

theorem applyStyleResolverUpdate_injectedUser (c : DocumentStyleSheetCollection)
    (styleResolverUpdateType : StyleResolverUpdateType)
    (activeCSSStyleSheets : List CSSStyleSheet) :
    (applyStyleResolverUpdate c styleResolverUpdateType
      activeCSSStyleSheets).m_injectedUserStyleSheets = c.m_injectedUserStyleSheets := by
  unfold applyStyleResolverUpdate
  split_ifs <;> rfl

theorem analyzeStyleSheetChange_injectedUser (c : DocumentStyleSheetCollection)
    (updateMode : StyleResolverUpdateMode) (newStylesheets : List CSSStyleSheet) :
    (analyzeStyleSheetChange c updateMode newStylesheets).collection.m_injectedUserStyleSheets
      = c.m_injectedUserStyleSheets := by
  unfold analyzeStyleSheetChange
  simp only []
  split
  · rfl
  · split
    · rfl
    · split
      · rfl
      · split
        · rfl
        · split
          · rfl
          · split
            · rfl
            · split <;> rfl

theorem buildActiveStyleSheets_injectedUser (c : DocumentStyleSheetCollection) :
    (buildActiveStyleSheets c).collection.m_injectedUserStyleSheets
      = (updateInjectedStyleSheetCache c).m_injectedUserStyleSheets := by
  unfold buildActiveStyleSheets injectedAuthorStyleSheets
  simp only []
  obtain ⟨p, s, k, h⟩ := collectStyleSheets_frame (updateInjectedStyleSheetCache c) []
    (collectActiveCSSStyleSheetsFromSeamlessParents
      ([] ++ (updateInjectedStyleSheetCache c).m_injectedAuthorStyleSheets ++
        documentAuthorStyleSheets (updateInjectedStyleSheetCache c))
      (updateInjectedStyleSheetCache c).m_document)
  rw [h]

/-- A completed `updateActiveStyleSheets` leaves the cached list of injected
user-level sheets as the read of line 424 left it. -/
theorem updateActiveStyleSheets_injectedUser (c : DocumentStyleSheetCollection)
    (updateMode : StyleResolverUpdateMode)
    (hrecalc : c.m_document.inStyleRecalc = false)
    (hrenderer : c.m_document.renderer = true)
    (hattached : c.m_document.attached = true) :
    (updateActiveStyleSheets c updateMode).2.m_injectedUserStyleSheets
      = (updateInjectedStyleSheetCache c).m_injectedUserStyleSheets := by
  unfold updateActiveStyleSheets
  simp only [hrecalc, hrenderer, hattached, Bool.false_eq_true, if_false, Bool.not_true,
    Bool.or_self]
  rw [applyStyleResolverUpdate_injectedUser, analyzeStyleSheetChange_injectedUser,
    buildActiveStyleSheets_injectedUser]

/-- The sheets created for the kept descriptors have pairwise different
addresses, none below the address of the next sheet object. -/
theorem injectedSheetsFor_fresh (d : Document) (sheets : List UserStyleSheet) :
    ((injectedSheetsFor d sheets).map Prod.snd).Nodup ∧
      ∀ entry ∈ injectedSheetsFor d sheets, d.nextSheet ≤ entry.2 := by
  constructor
  · unfold injectedSheetsFor
    rw [List.map_snd_zip _ _ (by simp)]
    exact List.nodup_range' _ _
  · intro entry hentry
    unfold injectedSheetsFor at hentry
    have hmem := (List.of_mem_zip (a := entry.1) (b := entry.2) hentry).2
    rw [List.mem_range'_1] at hmem
    exact hmem.1

/-- When the cache is not valid, `updateInjectedStyleSheetCache` fills both lists
from new sheet objects alone: a list of entries with pairwise different
addresses, none below the address of the next sheet object, split by level. -/
theorem updateInjectedStyleSheetCache_of_invalid (c : DocumentStyleSheetCollection)
    (hinvalid : c.m_injectedStyleSheetCacheValid = false) :
    ∃ entries : List (UserStyleSheet × CSSStyleSheet),
      (updateInjectedStyleSheetCache c).m_injectedUserStyleSheets
        = (entries.filter fun entry =>
            decide (entry.1.level = .UserStyleUserLevel)).map Prod.snd ∧
      (updateInjectedStyleSheetCache c).m_injectedAuthorStyleSheets
        = (entries.filter fun entry =>
            !decide (entry.1.level = .UserStyleUserLevel)).map Prod.snd ∧
      (entries.map Prod.snd).Nodup ∧
      ∀ entry ∈ entries, c.m_document.nextSheet ≤ entry.2 := by
  cases hpage : c.m_document.page with
  | none =>
    refine ⟨[], ?_, ?_, List.nodup_nil, fun _ h => absurd h (List.not_mem_nil _)⟩ <;>
      simp [updateInjectedStyleSheetCache, hinvalid, hpage]
  | some owningPage =>
    have hloop := injectSheets_lists owningPage.userStyleSheets
      { c with
        m_injectedStyleSheetCacheValid := true,
        m_injectedUserStyleSheets := [],
        m_injectedAuthorStyleSheets := [] }
    have hrun : updateInjectedStyleSheetCache c
        = injectSheets owningPage.userStyleSheets
            { c with
              m_injectedStyleSheetCacheValid := true,
              m_injectedUserStyleSheets := [],
              m_injectedAuthorStyleSheets := [] } := by
      simp [updateInjectedStyleSheetCache, hinvalid, hpage]
    obtain ⟨hnodup, hfresh⟩ := injectedSheetsFor_fresh c.m_document owningPage.userStyleSheets
    refine ⟨injectedSheetsFor c.m_document owningPage.userStyleSheets, ?_, ?_, hnodup, hfresh⟩
    · rw [hrun]; exact hloop.1.trans (by simp)
    · rw [hrun]; exact hloop.2.1.trans (by simp)

/-- Entries with pairwise different addresses: no address is on both sides of a
split of the entries by a test. -/
theorem filter_addresses_disjoint (entries : List (UserStyleSheet × CSSStyleSheet))
    (test : UserStyleSheet × CSSStyleSheet → Bool)
    (hnodup : (entries.map Prod.snd).Nodup) (s : CSSStyleSheet)
    (hyes : s ∈ (entries.filter test).map Prod.snd)
    (hno : s ∈ (entries.filter fun entry => !test entry).map Prod.snd) : False := by
  obtain ⟨e1, h1, rfl⟩ := List.mem_map.mp hyes
  obtain ⟨e2, h2, h12⟩ := List.mem_map.mp hno
  rw [List.mem_filter] at h1 h2
  have heq : e2 = e1 := List.inj_on_of_nodup_map hnodup h2.1 h1.1 h12
  rw [heq] at h2
  simp [h1.2] at h2

theorem updateInjectedStyleSheetCache_candidateNodes (c : DocumentStyleSheetCollection) :
    (updateInjectedStyleSheetCache c).m_styleSheetCandidateNodes
      = c.m_styleSheetCandidateNodes := by
  obtain ⟨v, u, a, n, k, hc⟩ := updateInjectedStyleSheetCache_frame c
  rw [hc]

/-- C12, as the code has it: after every completed `updateActiveStyleSheets`
(document not in style recalc, with a renderer and attached) the stored active
list is a front part followed by the active sheets collected from the candidate
nodes, and the front part holds every injected author-level sheet and every
active sheet of the seamless parent. The injected user-level sheets are kept in
their own cached list; the stored active list holds nothing but the injected
author-level sheets, the document author sheets, the sheets of the seamless
parent and the sheets collected from the candidate nodes; and when this call
creates the injected sheets (cache not valid) at addresses above those of every
document author sheet, every sheet of the seamless parent and every sheet a
candidate node owns, no injected user-level sheet is on the stored active list. -/
theorem updateActiveStyleSheets_injected_first (c : DocumentStyleSheetCollection)
    (updateMode : StyleResolverUpdateMode)
    (hrecalc : c.m_document.inStyleRecalc = false)
    (hrenderer : c.m_document.renderer = true)
    (hattached : c.m_document.attached = true) :
    (∃ front,
      (updateActiveStyleSheets c updateMode).2.m_activeAuthorStyleSheets
        = front ++ (collectStyleSheets (updateInjectedStyleSheetCache c) [] []).activeSheets ∧
      front = (injectedAuthorStyleSheets c).1 ++ documentAuthorStyleSheets c ++
        seamlessParentSheets c.m_document ∧
      (∀ s ∈ (injectedAuthorStyleSheets c).1, s ∈ front) ∧
      (∀ s ∈ seamlessParentSheets c.m_document, s ∈ front)) ∧
    (updateActiveStyleSheets c updateMode).2.m_injectedUserStyleSheets
      = (injectedUserStyleSheets c).1 ∧
    (∀ s, s ∈ (updateActiveStyleSheets c updateMode).2.m_activeAuthorStyleSheets ↔
      (s ∈ (injectedAuthorStyleSheets c).1 ∨ s ∈ documentAuthorStyleSheets c ∨
        s ∈ seamlessParentSheets c.m_document ∨
        s ∈ (collectStyleSheets (updateInjectedStyleSheetCache c) [] []).activeSheets)) ∧
    (c.m_injectedStyleSheetCacheValid = false →
      (∀ s ∈ documentAuthorStyleSheets c, s < c.m_document.nextSheet) →
      (∀ s ∈ seamlessParentSheets c.m_document, s < c.m_document.nextSheet) →
      (∀ n ∈ c.m_styleSheetCandidateNodes, ∀ s, n.sheet = some s →
        s < c.m_document.nextSheet) →
      ∀ s ∈ (injectedUserStyleSheets c).1,
        s ∉ (updateActiveStyleSheets c updateMode).2.m_activeAuthorStyleSheets) := by
  have hstored : (updateActiveStyleSheets c updateMode).2.m_activeAuthorStyleSheets
      = ((injectedAuthorStyleSheets c).1 ++ documentAuthorStyleSheets c ++
          seamlessParentSheets c.m_document) ++
        (collectStyleSheets (updateInjectedStyleSheetCache c) [] []).activeSheets := by
    rw [updateActiveStyleSheets_stores_built c updateMode hrecalc hrenderer hattached]
    exact buildActiveStyleSheets_activeSheets c
  have hmem : ∀ s, s ∈ (updateActiveStyleSheets c updateMode).2.m_activeAuthorStyleSheets ↔
      (s ∈ (injectedAuthorStyleSheets c).1 ∨ s ∈ documentAuthorStyleSheets c ∨
        s ∈ seamlessParentSheets c.m_document ∨
        s ∈ (collectStyleSheets (updateInjectedStyleSheetCache c) [] []).activeSheets) := by
    intro s
    rw [hstored]
    simp only [List.mem_append, or_assoc]
  refine ⟨⟨_, hstored, rfl, ?_, ?_⟩, ?_, hmem, ?_⟩
  · intro s hs; simp [hs]
  · intro s hs; simp [hs]
  · exact updateActiveStyleSheets_injectedUser c updateMode hrecalc hrenderer hattached
  · intro hinvalid hdocument hseamless hcandidates s hs hon
    obtain ⟨entries, huser, hauthor, hnodup, hfresh⟩ :=
      updateInjectedStyleSheetCache_of_invalid c hinvalid
    change s ∈ (updateInjectedStyleSheetCache c).m_injectedUserStyleSheets at hs
    rw [huser] at hs
    have hnew : c.m_document.nextSheet ≤ s := by
      obtain ⟨entry, hentry, hs1⟩ := List.mem_map.mp hs
      rw [← hs1]
      exact hfresh entry (List.mem_of_mem_filter hentry)
    rcases (hmem s).mp hon with h | h | h | h
    · change s ∈ (updateInjectedStyleSheetCache c).m_injectedAuthorStyleSheets at h
      rw [hauthor] at h
      exact filter_addresses_disjoint entries
        (fun entry => decide (entry.1.level = .UserStyleUserLevel)) hnodup s hs h
    · exact absurd (hdocument s h) (Nat.not_lt.mpr hnew)
    · exact absurd (hseamless s h) (Nat.not_lt.mpr hnew)
    · obtain ⟨n, hn, hown⟩ := collectStyleSheets_active_owned _ s h
      rw [updateInjectedStyleSheetCache_candidateNodes] at hn
      exact absurd (hcandidates n hn s hown) (Nat.not_lt.mpr hnew)

/-- C12 instantiated: the injected author sheet `1001`, the document author sheet
`60` and the sheet `50` of the seamless parent precede the sheet `1` of the style
element; the injected user sheet `1000` stays in the cached list of user sheets,
and no sheet of that list is on the stored active list. -/
theorem updateActiveStyleSheets_injected_first_witness :
    collectionWithInjectedSheets.m_injectedStyleSheetCacheValid = false ∧
    (injectedAuthorStyleSheets collectionWithInjectedSheets).1 = [1001] ∧
    seamlessParentSheets collectionWithInjectedSheets.m_document = [50] ∧
    (updateActiveStyleSheets collectionWithInjectedSheets
      .AnalyzedStyleUpdate).2.m_activeAuthorStyleSheets = [1001, 60, 50, 1] ∧
    (∃ front,
      (updateActiveStyleSheets collectionWithInjectedSheets
        .AnalyzedStyleUpdate).2.m_activeAuthorStyleSheets
        = front ++ (collectStyleSheets
            (updateInjectedStyleSheetCache collectionWithInjectedSheets) [] []).activeSheets ∧
      front = (injectedAuthorStyleSheets collectionWithInjectedSheets).1 ++
        documentAuthorStyleSheets collectionWithInjectedSheets ++
        seamlessParentSheets collectionWithInjectedSheets.m_document ∧
      (∀ s ∈ (injectedAuthorStyleSheets collectionWithInjectedSheets).1, s ∈ front) ∧
      (∀ s ∈ seamlessParentSheets collectionWithInjectedSheets.m_document, s ∈ front)) ∧
    (updateActiveStyleSheets collectionWithInjectedSheets
      .AnalyzedStyleUpdate).2.m_injectedUserStyleSheets
      = (injectedUserStyleSheets collectionWithInjectedSheets).1 ∧
    (∀ s ∈ (injectedUserStyleSheets collectionWithInjectedSheets).1,
      s ∉ (updateActiveStyleSheets collectionWithInjectedSheets
        .AnalyzedStyleUpdate).2.m_activeAuthorStyleSheets) :=
  have h := updateActiveStyleSheets_injected_first collectionWithInjectedSheets
    .AnalyzedStyleUpdate rfl rfl rfl
  ⟨rfl, by decide, by decide, by decide, h.1, h.2.1,
    h.2.2.2 rfl (by decide) (by decide)
      (by
        intro n hn s hs
        have hnode : n = .htmlStyle ⟨"", "", some 1⟩ := by
          simpa [collectionWithInjectedSheets] using hn
        subst hnode
        have hone : s = 1 := by
          simpa [Node.sheet] using hs.symm
        subst hone
        decide)⟩

end WebCore
